import Mathlib

/-!
# CHIP-8 emulator (ver 0.5.0): embedding of `chip8.c`

The machine object `chip8_t` is embedded as a record of natural numbers and
finite maps (`Nat → Nat`, only the indices below the C array size are
meaningful).  Machine integers are naturals reduced modulo `2^8` or `2^16` at
every store.  An access outside a C array is undefined behaviour in the
source; the embedding reports it as a `fault_t` and yields no state.
`rand()` is an explicit input of the cycle.
-/

namespace Chip8

/-! ## Data model -/

/-- The emulator state object (`emulator_state_t`). -/
inductive emulator_state_t where
  | QUIT
  | RUNNING
  | PAUSED
  deriving DecidableEq, Repr

/-- The CHIP-8 instruction format (`instruction_t`). -/
structure instruction_t where
  opcode : Nat
  NNN : Nat
  NN : Nat
  N : Nat
  X : Nat
  Y : Nat
  deriving DecidableEq, Repr

/-- The CHIP-8 machine object (`chip8_t`).  `stack_ptr` is the offset of the C
pointer from `&stack[0]`, counted in stack cells. -/
structure chip8_t where
  state : emulator_state_t
  ram : Nat → Nat
  display : Nat → Nat
  stack : Nat → Nat
  stack_ptr : Nat
  V : Nat → Nat
  I : Nat
  PC : Nat
  delay_timer : Nat
  sound_timer : Nat
  keypad : Nat → Bool
  rom_name : String
  inst : instruction_t

/-- An access outside one of the arrays of `chip8_t` (undefined behaviour in C). -/
inductive fault_t where
  | ram_out_of_bounds
  | display_out_of_bounds
  | stack_out_of_bounds
  | keypad_out_of_bounds
  deriving DecidableEq, Repr

/-- Global `WINDOW_WIDTH` (`uint8_t`, 64). -/
def WINDOW_WIDTH : Nat := 64

/-- Global `WINDOW_HEIGHT` (`uint8_t`, 32). -/
def WINDOW_HEIGHT : Nat := 32

/-- Global `INSTRUCTS_PER_SECOND` (`uint32_t`, 700). -/
def INSTRUCTS_PER_SECOND : Nat := 700

/-- Size of `ram` (`sizeof chip8->ram`). -/
def RAM_SIZE : Nat := 4096

/-- Size of `display` (`sizeof chip8->display`, `64*32`). -/
def DISPLAY_SIZE : Nat := 64 * 32

/-- Number of cells of `stack`. -/
def STACK_SIZE : Nat := 12

/-- Array store `a[i] = v`. -/
def set_at {α : Type} (a : Nat → α) (i : Nat) (v : α) : Nat → α :=
  fun k => if k = i then v else a k

/-- Conversion of a C `int` result to `uint8_t`. -/
def to_u8 (z : Int) : Nat := (z % 256).toNat

/-- Conversion of a C `int` result to `uint16_t`. -/
def to_u16 (z : Int) : Nat := (z % 65536).toNat

/-- Every stored value fits its C type and the stack pointer lies inside
`stack[0..12]`. -/
def well_formed (c : chip8_t) : Prop :=
  (∀ i, i < RAM_SIZE → c.ram i < 256) ∧
  (∀ i, i < DISPLAY_SIZE → c.display i < 256) ∧
  (∀ i, i < STACK_SIZE → c.stack i < 65536) ∧
  c.stack_ptr ≤ STACK_SIZE ∧
  (∀ i, i < 16 → c.V i < 256) ∧
  c.I < 65536 ∧ c.PC < 65536 ∧
  c.delay_timer < 256 ∧ c.sound_timer < 256

/-! ## The execution engine: `emulate_instruction` -/

/-- The fetch of `emulate_instruction`:
`(chip8->ram[chip8->PC] << 8) | chip8->ram[chip8->PC+1]`, stored in a `uint16_t`. -/
def fetch_opcode (chip8 : chip8_t) : Nat :=
  ((chip8.ram chip8.PC <<< 8) ||| chip8.ram (chip8.PC + 1)) % 65536

/-- The decode of `emulate_instruction`: fill out the instruction format. -/
def decode (opcode : Nat) : instruction_t :=
  { opcode := opcode
    NNN := opcode &&& 0x0FFF
    NN := (opcode &&& 0x0FF) % 256
    N := (opcode &&& 0x0F) % 256
    X := ((opcode >>> 8) &&& 0x0F) % 256
    Y := ((opcode >>> 4) &&& 0x0F) % 256 }

/-- Body of the inner loop of DXYN for sprite bit `j` at column `X` of row `Y`:
the collision test, then the XOR of the display cell. -/
def draw_pixel (sprite_data Y j X : Nat) (chip8 : chip8_t) : chip8_t :=
  let idx := Y * WINDOW_WIDTH + X
  -- if sprite pixel/bit is on and display pixel is on, set carry flag
  let c1 : chip8_t :=
    { chip8 with V :=
        if sprite_data &&& (1 <<< j) ≠ 0 ∧ chip8.display idx ≠ 0
        then set_at chip8.V 0xF 1 else chip8.V }
  -- XOR display pixel with sprite pixel/bit
  { c1 with display :=
      set_at c1.display idx ((c1.display idx ^^^ (sprite_data &&& (1 <<< j))) % 256) }

/-- Inner loop of DXYN, `for (int j = 7; j >= 0; j--)`.  The first argument is
`j + 1`, the number of iterations left; `X` is the running column. -/
def draw_row (sprite_data Y : Nat) : Nat → Nat → chip8_t → Except fault_t chip8_t
  | 0, _, chip8 => .ok chip8
  | j + 1, X, chip8 =>
    if ¬ Y * WINDOW_WIDTH + X < DISPLAY_SIZE then .error .display_out_of_bounds else
    let c2 := draw_pixel sprite_data Y j X chip8
    -- stop drawing if right edge of screen is hit
    if (X + 1) % 256 ≥ WINDOW_WIDTH then .ok c2
    else draw_row sprite_data Y j ((X + 1) % 256) c2

/-- Outer loop of DXYN, `for (uint8_t i = 0; i < N; i++)`.  The first argument is
`N - i`, the number of rows left; `Y` is the running row. -/
def draw_sprite (orig_X : Nat) : Nat → Nat → Nat → chip8_t → Except fault_t chip8_t
  | 0, _, _, chip8 => .ok chip8
  | r + 1, i, Y, chip8 =>
    if ¬ chip8.I + i < RAM_SIZE then .error .ram_out_of_bounds else
    let sprite_data := chip8.ram (chip8.I + i)
    match draw_row sprite_data Y 8 orig_X chip8 with
    | .error e => .error e
    | .ok c1 =>
      -- stop drawing entire sprite if bottom edge of screen is hit
      if (Y + 1) % 256 ≥ WINDOW_HEIGHT then .ok c1
      else draw_sprite orig_X r (i + 1) ((Y + 1) % 256) c1

/-- Key scan of FX0A, `for (uint8_t i = 0; i < sizeof(chip8->keypad); i++)`: the
first pressed key at or after `i`, looking at `n` keys. -/
def first_key (keypad : Nat → Bool) : Nat → Nat → Option Nat
  | 0, _ => none
  | n + 1, i => if keypad i then some i else first_key keypad n (i + 1)

/-- Loop of FX55, `for (uint8_t i = 0; i <= X; i++) ram[I + i] = V[i]`; the
first argument is the number of iterations left. -/
def reg_dump : Nat → Nat → chip8_t → Except fault_t chip8_t
  | 0, _, chip8 => .ok chip8
  | n + 1, i, chip8 =>
    if ¬ chip8.I + i < RAM_SIZE then .error .ram_out_of_bounds else
    reg_dump n (i + 1) { chip8 with ram := set_at chip8.ram (chip8.I + i) (chip8.V i) }

/-- Loop of FX65, `for (uint8_t i = 0; i <= X; i++) V[i] = ram[I + i]`; the
first argument is the number of iterations left. -/
def reg_load : Nat → Nat → chip8_t → Except fault_t chip8_t
  | 0, _, chip8 => .ok chip8
  | n + 1, i, chip8 =>
    if ¬ chip8.I + i < RAM_SIZE then .error .ram_out_of_bounds else
    reg_load n (i + 1) { chip8 with V := set_at chip8.V i (chip8.ram (chip8.I + i)) }

/-- Case `0x00` of the dispatch: 00E0 and 00EE, selected on `NN` alone. -/
def exec_0 (chip8 : chip8_t) : Except fault_t chip8_t :=
  if chip8.inst.NN = 0xE0 then
    -- memset(&chip8->display[0], false, sizeof chip8->display)
    .ok { chip8 with display := fun k => if k < DISPLAY_SIZE then 0 else chip8.display k }
  else if chip8.inst.NN = 0xEE then
    -- chip8->PC = *--chip8->stack_ptr
    if chip8.stack_ptr = 0 ∨ ¬ chip8.stack_ptr - 1 < STACK_SIZE then
      .error .stack_out_of_bounds
    else
      .ok { chip8 with stack_ptr := chip8.stack_ptr - 1
                       PC := chip8.stack (chip8.stack_ptr - 1) }
  else
    .ok chip8

/-- Case `0x02` of the dispatch: `*chip8->stack_ptr++ = chip8->PC; chip8->PC = NNN`. -/
def exec_2 (chip8 : chip8_t) : Except fault_t chip8_t :=
  if ¬ chip8.stack_ptr < STACK_SIZE then .error .stack_out_of_bounds else
  .ok { chip8 with stack := set_at chip8.stack chip8.stack_ptr chip8.PC
                   stack_ptr := chip8.stack_ptr + 1
                   PC := chip8.inst.NNN }

/-- Case `0x08` of the dispatch: `switch (chip8->inst.N)`. -/
def exec_8 (chip8 : chip8_t) : Except fault_t chip8_t :=
  let X := chip8.inst.X
  let Y := chip8.inst.Y
  if chip8.inst.N = 0 then
    .ok { chip8 with V := set_at chip8.V X (chip8.V Y) }
  else if chip8.inst.N = 1 then
    .ok { chip8 with V := set_at chip8.V X (chip8.V X ||| chip8.V Y) }
  else if chip8.inst.N = 2 then
    .ok { chip8 with V := set_at chip8.V X (chip8.V X &&& chip8.V Y) }
  else if chip8.inst.N = 3 then
    .ok { chip8 with V := set_at chip8.V X (chip8.V X ^^^ chip8.V Y) }
  else if chip8.inst.N = 4 then
    let c1 : chip8_t :=
      { chip8 with V :=
          if (chip8.V X + chip8.V Y) % 65536 > 255 then set_at chip8.V 0xF 1 else chip8.V }
    .ok { c1 with V := set_at c1.V X ((c1.V X + c1.V Y) % 256) }
  else if chip8.inst.N = 5 then
    let c1 : chip8_t :=
      { chip8 with V := set_at chip8.V 0xF (if chip8.V Y ≤ chip8.V X then 1 else 0) }
    .ok { c1 with V := set_at c1.V X (to_u8 ((c1.V X : Int) - (c1.V Y : Int))) }
  else if chip8.inst.N = 6 then
    let c1 : chip8_t := { chip8 with V := set_at chip8.V 0xF (chip8.V X &&& 1) }
    .ok { c1 with V := set_at c1.V X (c1.V X >>> 1) }
  else if chip8.inst.N = 7 then
    let c1 : chip8_t :=
      { chip8 with V := set_at chip8.V 0xF (if chip8.V X ≤ chip8.V Y then 1 else 0) }
    .ok { c1 with V := set_at c1.V X (to_u8 ((c1.V Y : Int) - (c1.V X : Int))) }
  else if chip8.inst.N = 0xE then
    let c1 : chip8_t := { chip8 with V := set_at chip8.V 0xF ((chip8.V X &&& 0x80) >>> 7) }
    .ok { c1 with V := set_at c1.V X ((c1.V X <<< 1) % 256) }
  else
    .ok chip8

/-- Case `0x0D` of the dispatch: draw an N-height sprite at (VX, VY). -/
def exec_D (chip8 : chip8_t) : Except fault_t chip8_t :=
  let X := chip8.V chip8.inst.X % WINDOW_WIDTH
  let Y := chip8.V chip8.inst.Y % WINDOW_HEIGHT
  let orig_X := X
  -- initalize carry flag to 0
  let c1 : chip8_t := { chip8 with V := set_at chip8.V 0xF 0 }
  draw_sprite orig_X chip8.inst.N 0 Y c1

/-- Case `0x0E` of the dispatch: EX9E and EXA1. -/
def exec_E (chip8 : chip8_t) : Except fault_t chip8_t :=
  if chip8.inst.NN = 0x9E then
    if ¬ chip8.V chip8.inst.X < 16 then .error .keypad_out_of_bounds else
    if chip8.keypad (chip8.V chip8.inst.X)
    then .ok { chip8 with PC := (chip8.PC + 2) % 65536 } else .ok chip8
  else if chip8.inst.NN = 0xA1 then
    if ¬ chip8.V chip8.inst.X < 16 then .error .keypad_out_of_bounds else
    if ¬ chip8.keypad (chip8.V chip8.inst.X)
    then .ok { chip8 with PC := (chip8.PC + 2) % 65536 } else .ok chip8
  else
    .ok chip8

/-- Case `0x0F` of the dispatch: `switch (chip8->inst.NN)`. -/
def exec_F (chip8 : chip8_t) : Except fault_t chip8_t :=
  let X := chip8.inst.X
  if chip8.inst.NN = 0x0A then
    match first_key chip8.keypad 16 0 with
    | some i => .ok { chip8 with V := set_at chip8.V X i }
    | none => .ok { chip8 with PC := to_u16 ((chip8.PC : Int) - 2) }
  else if chip8.inst.NN = 0x1E then
    .ok { chip8 with I := (chip8.I + chip8.V X) % 65536 }
  else if chip8.inst.NN = 0x07 then
    .ok { chip8 with V := set_at chip8.V X chip8.delay_timer }
  else if chip8.inst.NN = 0x15 then
    .ok { chip8 with delay_timer := chip8.V X }
  else if chip8.inst.NN = 0x18 then
    .ok { chip8 with sound_timer := chip8.V X }
  else if chip8.inst.NN = 0x29 then
    .ok { chip8 with I := (chip8.V X * 5) % 65536 }
  else if chip8.inst.NN = 0x33 then
    if ¬ chip8.I + 2 < RAM_SIZE then .error .ram_out_of_bounds else
    let bcd := chip8.V X
    let c1 : chip8_t := { chip8 with ram := set_at chip8.ram (chip8.I + 2) (bcd % 10) }
    let bcd := bcd / 10
    let c2 : chip8_t := { c1 with ram := set_at c1.ram (c1.I + 1) (bcd % 10) }
    let bcd := bcd / 10
    .ok { c2 with ram := set_at c2.ram c2.I bcd }
  else if chip8.inst.NN = 0x55 then
    reg_dump (X + 1) 0 chip8
  else if chip8.inst.NN = 0x65 then
    reg_load (X + 1) 0 chip8
  else
    .ok chip8

/-- Cases `0x01`, `0x03` to `0x07`, `0x09` to `0x0C` of the dispatch, selected by
`op`, the top four bits of the opcode; `rnd` is the value of `rand()` in CXNN. -/
def exec_simple (op : Nat) (c : chip8_t) (rnd : Nat) : chip8_t :=
  let X := c.inst.X
  let Y := c.inst.Y
  if op = 0x01 then { c with PC := c.inst.NNN }
  else if op = 0x03 then
    if c.V X = c.inst.NN then { c with PC := (c.PC + 2) % 65536 } else c
  else if op = 0x04 then
    if c.V X ≠ c.inst.NN then { c with PC := (c.PC + 2) % 65536 } else c
  else if op = 0x05 then
    if c.inst.N ≠ 0 then c
    else if c.V X = c.V Y then { c with PC := (c.PC + 2) % 65536 } else c
  else if op = 0x06 then { c with V := set_at c.V X c.inst.NN }
  else if op = 0x07 then { c with V := set_at c.V X ((c.V X + c.inst.NN) % 256) }
  else if op = 0x09 then
    if c.V X ≠ c.V Y then { c with PC := (c.PC + 2) % 65536 } else c
  else if op = 0x0A then { c with I := c.inst.NNN }
  else if op = 0x0B then { c with PC := (c.V 0 + c.inst.NNN) % 65536 }
  else if op = 0x0C then { c with V := set_at c.V X ((rnd % 256) &&& c.inst.NN) }
  else c

/-- One fetch-decode-execute cycle (`emulate_instruction`); `rnd` is the value
returned by `rand()` should the opcode call it. -/
def emulate_instruction (chip8 : chip8_t) (rnd : Nat) : Except fault_t chip8_t :=
  -- get next opcode from RAM
  if ¬ chip8.PC + 1 < RAM_SIZE then .error .ram_out_of_bounds else
  -- pre-increment program counter, fill out the instruction format
  let c : chip8_t :=
    { chip8 with PC := (chip8.PC + 2) % 65536, inst := decode (fetch_opcode chip8) }
  -- emulate opcode
  let op := (c.inst.opcode >>> 12) &&& 0x0F
  if op = 0x00 then exec_0 c
  else if op = 0x02 then exec_2 c
  else if op = 0x08 then exec_8 c
  else if op = 0x0D then exec_D c
  else if op = 0x0E then exec_E c
  else if op = 0x0F then exec_F c
  else .ok (exec_simple op c rnd)

/-! ## Timer driver, input adapter, machine creation and controller loop -/

/-- The timer driver (`update_timers`). -/
def update_timers (chip8 : chip8_t) : chip8_t :=
  let c1 : chip8_t :=
    { chip8 with delay_timer :=
        if chip8.delay_timer > 0 then chip8.delay_timer - 1 else chip8.delay_timer }
  { c1 with sound_timer :=
      if c1.sound_timer > 0 then c1.sound_timer - 1 else c1.sound_timer }

/-- Key symbols of `event.key.keysym.sym` that `handle_input` tells apart; every
other symbol is `SDLK_OTHER`. -/
inductive SDL_Keycode where
  | SDLK_ESCAPE | SDLK_SPACE
  | SDLK_1 | SDLK_2 | SDLK_3 | SDLK_4
  | SDLK_q | SDLK_w | SDLK_e | SDLK_r
  | SDLK_a | SDLK_s | SDLK_d | SDLK_f
  | SDLK_z | SDLK_x | SDLK_c | SDLK_v
  | SDLK_OTHER
  deriving DecidableEq, Repr

/-- Events delivered by `SDL_PollEvent`, by `event.type`; every other type is
`SDL_OTHER`. -/
inductive SDL_Event where
  | SDL_QUIT
  | SDL_KEYDOWN (sym : SDL_Keycode)
  | SDL_KEYUP (sym : SDL_Keycode)
  | SDL_OTHER
  deriving DecidableEq, Repr

/-- The input map of `handle_input`: QWERTY key to CHIP-8 keypad index. -/
def keypad_index : SDL_Keycode → Option Nat
  | .SDLK_1 => some 0x1 | .SDLK_2 => some 0x2 | .SDLK_3 => some 0x3 | .SDLK_4 => some 0xC
  | .SDLK_q => some 0x4 | .SDLK_w => some 0x5 | .SDLK_e => some 0x6 | .SDLK_r => some 0xD
  | .SDLK_a => some 0x7 | .SDLK_s => some 0x8 | .SDLK_d => some 0x9 | .SDLK_f => some 0xE
  | .SDLK_z => some 0xA | .SDLK_x => some 0x0 | .SDLK_c => some 0xB | .SDLK_v => some 0xF
  | _ => none

/-- Store `v` in the keypad cell of key `sym`, when the key is mapped. -/
def set_key (chip8 : chip8_t) (sym : SDL_Keycode) (v : Bool) : chip8_t :=
  match keypad_index sym with
  | some i => { chip8 with keypad := set_at chip8.keypad i v }
  | none => chip8

/-- The input adapter (`handle_input`): `while (SDL_PollEvent(&event))` over the
pending event queue; returns the machine and the events left in the queue. -/
def handle_input (chip8 : chip8_t) : List SDL_Event → chip8_t × List SDL_Event
  | [] => (chip8, [])
  | .SDL_QUIT :: rest => ({ chip8 with state := .QUIT }, rest)
  | .SDL_KEYDOWN .SDLK_ESCAPE :: rest => ({ chip8 with state := .QUIT }, rest)
  | .SDL_KEYDOWN .SDLK_SPACE :: rest =>
    ({ chip8 with state := if chip8.state = .RUNNING then .PAUSED else .RUNNING }, rest)
  | .SDL_KEYDOWN sym :: rest => handle_input (set_key chip8 sym true) rest
  | .SDL_KEYUP sym :: rest => handle_input (set_key chip8 sym false) rest
  | .SDL_OTHER :: rest => handle_input chip8 rest

/-- The built-in font of `init_chip8`. -/
def font : List Nat :=
  [0xF0, 0x90, 0x90, 0x90, 0xF0,
   0x20, 0x60, 0x20, 0x20, 0x70,
   0xF0, 0x10, 0xF0, 0x80, 0xF0,
   0xF0, 0x10, 0xF0, 0x10, 0xF0,
   0x90, 0x90, 0xF0, 0x10, 0x10,
   0xF0, 0x80, 0xF0, 0x10, 0xF0,
   0xF0, 0x80, 0xF0, 0x90, 0xF0,
   0xF0, 0x10, 0x20, 0x40, 0x40,
   0xF0, 0x90, 0xF0, 0x90, 0xF0,
   0xF0, 0x90, 0xF0, 0x10, 0xF0,
   0xF0, 0x90, 0xF0, 0x90, 0x90,
   0xE0, 0x90, 0xE0, 0x90, 0xE0,
   0xF0, 0x80, 0x80, 0x80, 0xF0,
   0xE0, 0x90, 0x90, 0x90, 0xE0,
   0xF0, 0x80, 0xF0, 0x80, 0xF0,
   0xF0, 0x80, 0xF0, 0x80, 0x80]

/-- Block copy `memcpy(&ram[base], src, src.length)`. -/
def copy_at (ram : Nat → Nat) (base : Nat) (src : List Nat) : Nat → Nat :=
  fun k => if base ≤ k ∧ k < base + src.length then src.getD (k - base) 0 else ram k

/-- The zeroed machine of `main` (`chip8_t chip8 = {0}`). -/
def zero_chip8 : chip8_t :=
  { state := .QUIT, ram := fun _ => 0, display := fun _ => 0, stack := fun _ => 0,
    stack_ptr := 0, V := fun _ => 0, I := 0, PC := 0, delay_timer := 0, sound_timer := 0,
    keypad := fun _ => false, rom_name := "",
    inst := { opcode := 0, NNN := 0, NN := 0, N := 0, X := 0, Y := 0 } }

/-- Machine creation (`init_chip8`).  `rom` is the content of the file `rom_name`,
`none` when it cannot be opened.  Returns the `bool` result and the machine. -/
def init_chip8 (chip8 : chip8_t) (rom_name : String) (rom : Option (List Nat)) :
    Bool × chip8_t :=
  let entry_point := 0x200
  -- Load font
  let c1 : chip8_t := { chip8 with ram := copy_at chip8.ram 0 font }
  match rom with
  | none => (false, c1)
  | some bytes =>
    let rom_size := bytes.length
    let max_size := RAM_SIZE - entry_point
    if rom_size > max_size then (false, c1)
    -- fread(&chip8->ram[entry_point], rom_size, 1, rom) != 1; an item of size 0 is not read
    else if rom_size = 0 then (false, c1)
    else
      let c2 : chip8_t := { c1 with ram := copy_at c1.ram entry_point bytes }
      (true, { c2 with state := .RUNNING, PC := entry_point, rom_name := rom_name,
                       stack_ptr := 0 })

/-- The instruction batch of a tick,
`for (uint32_t i = 0; i < INSTRUCTS_PER_SECOND / 60; i++) emulate_instruction(&chip8)`;
`rnd k` is the value of `rand()` in cycle `k`. -/
def run_cycles : Nat → chip8_t → (Nat → Nat) → Except fault_t chip8_t
  | 0, chip8, _ => .ok chip8
  | n + 1, chip8, rnd =>
    match emulate_instruction chip8 (rnd 0) with
    | .error e => .error e
    | .ok c1 => run_cycles n c1 (fun k => rnd (k + 1))

/-- One iteration of the main emulator loop of `main`, entered with
`chip8.state != QUIT`; `ips` is `INSTRUCTS_PER_SECOND`.  Returns the machine and
the events left pending. -/
def main_loop_body (ips : Nat) (chip8 : chip8_t) (events : List SDL_Event)
    (rnd : Nat → Nat) : Except fault_t (chip8_t × List SDL_Event) :=
  -- handle input
  let c1 := (handle_input chip8 events).1
  let rest := (handle_input chip8 events).2
  if c1.state = .PAUSED then .ok (c1, rest) else
  -- emulate CHIP8 instructions for this emulator frame, then update the timers
  match run_cycles ((ips % 4294967296) / 60) c1 rnd with
  | .error e => .error e
  | .ok c2 => .ok (update_timers c2, rest)

/-- The main emulator loop, `while (chip8.state != QUIT)`, over a finite trace
of ticks: each tick brings the events that arrived since the last one and the
values of `rand()`.  Returns the machine when the loop ends, `none` when the
trace is used up with the loop still running. -/
def main_loop (ips : Nat) :
    List (List SDL_Event × (Nat → Nat)) → chip8_t → List SDL_Event →
      Except fault_t (Option chip8_t)
  | [], chip8, _ => if chip8.state = .QUIT then .ok (some chip8) else .ok none
  | (arrived, rnd) :: ticks, chip8, pending =>
    if chip8.state = .QUIT then .ok (some chip8) else
    match main_loop_body ips chip8 (pending ++ arrived) rnd with
    | .error e => .error e
    | .ok (c1, rest) => main_loop ips ticks c1 rest

/-! ## Predicates used in the statements -/

/-- Frame of the draw loops: everything but `display` and `V[0xF]` is kept. -/
def draw_frame (c c' : chip8_t) : Prop :=
  c'.state = c.state ∧ c'.ram = c.ram ∧ c'.stack = c.stack ∧ c'.stack_ptr = c.stack_ptr ∧
  (∀ i, i ≠ 0xF → c'.V i = c.V i) ∧ c'.I = c.I ∧ c'.PC = c.PC ∧
  c'.delay_timer = c.delay_timer ∧ c'.sound_timer = c.sound_timer ∧
  c'.keypad = c.keypad ∧ c'.rom_name = c.rom_name ∧ c'.inst = c.inst

/-- What a cycle never writes: the controller state, the keypad, the ROM name. -/
def same_controller (c c' : chip8_t) : Prop :=
  c'.state = c.state ∧ c'.keypad = c.keypad ∧ c'.rom_name = c.rom_name

/-- A quit request: window close or Escape key down. -/
def is_quit : SDL_Event → Bool
  | .SDL_QUIT => true
  | .SDL_KEYDOWN .SDLK_ESCAPE => true
  | _ => false

/-- A pause toggle: Space key down. -/
def is_pause_toggle : SDL_Event → Bool
  | .SDL_KEYDOWN .SDLK_SPACE => true
  | _ => false

/-- Frame of the jump and skip opcodes: everything but `PC` and the decoded
instruction record `inst` is kept. -/
def same_except_PC (c c' : chip8_t) : Prop :=
  c'.state = c.state ∧ c'.ram = c.ram ∧ c'.display = c.display ∧ c'.stack = c.stack ∧
  c'.stack_ptr = c.stack_ptr ∧ c'.V = c.V ∧ c'.I = c.I ∧
  c'.delay_timer = c.delay_timer ∧ c'.sound_timer = c.sound_timer ∧
  c'.keypad = c.keypad ∧ c'.rom_name = c.rom_name

/-- The standard hexadecimal digit bitmaps of CHIP-8, one five-byte glyph per
digit: the external contract the specification names for the glyph table.  It
is written from the specification, to be compared with the table `font` that
`init_chip8` loads. -/
def standard_hex_glyph : Nat → List Nat
  | 0x0 => [0xF0, 0x90, 0x90, 0x90, 0xF0]
  | 0x1 => [0x20, 0x60, 0x20, 0x20, 0x70]
  | 0x2 => [0xF0, 0x10, 0xF0, 0x80, 0xF0]
  | 0x3 => [0xF0, 0x10, 0xF0, 0x10, 0xF0]
  | 0x4 => [0x90, 0x90, 0xF0, 0x10, 0x10]
  | 0x5 => [0xF0, 0x80, 0xF0, 0x10, 0xF0]
  | 0x6 => [0xF0, 0x80, 0xF0, 0x90, 0xF0]
  | 0x7 => [0xF0, 0x10, 0x20, 0x40, 0x40]
  | 0x8 => [0xF0, 0x90, 0xF0, 0x90, 0xF0]
  | 0x9 => [0xF0, 0x90, 0xF0, 0x10, 0xF0]
  | 0xA => [0xF0, 0x90, 0xF0, 0x90, 0x90]
  | 0xB => [0xE0, 0x90, 0xE0, 0x90, 0xE0]
  | 0xC => [0xF0, 0x80, 0x80, 0x80, 0xF0]
  | 0xD => [0xE0, 0x90, 0x90, 0x90, 0xE0]
  | 0xE => [0xF0, 0x80, 0xF0, 0x80, 0xF0]
  | 0xF => [0xF0, 0x80, 0xF0, 0x80, 0x80]
  | _ => []

/-- The machine proper is kept: memory, registers, I, PC, the call stack, the
framebuffer and both timers (everything but the controller state, the keypad
and the bookkeeping fields). -/
def same_machine (c c' : chip8_t) : Prop :=
  c'.ram = c.ram ∧ c'.V = c.V ∧ c'.I = c.I ∧ c'.PC = c.PC ∧ c'.stack = c.stack ∧
  c'.stack_ptr = c.stack_ptr ∧ c'.display = c.display ∧
  c'.delay_timer = c.delay_timer ∧ c'.sound_timer = c.sound_timer

/-- The events are neither quit requests nor pause toggles: keypad keys going
down or up, and events `handle_input` ignores. -/
def plain_events : List SDL_Event → Bool
  | [] => true
  | e :: rest => !is_quit e && !is_pause_toggle e && plain_events rest

/-! ## Machines and ROM images used as concrete inputs -/

/-- The machine created from the ROM image `bytes` (`main`: a zeroed machine
passed to `init_chip8`). -/
def machine_with_rom (bytes : List Nat) : chip8_t :=
  (init_chip8 zero_chip8 "rom" (some bytes)).2

/-- ROM `8014`, entered with V0 = 1, V1 = 1 and VF = 1 (no carry, flag set before). -/
def add_no_carry_state : chip8_t :=
  { machine_with_rom [0x80, 0x14] with
    V := fun k => if k = 0 then 1 else if k = 1 then 1 else if k = 0xF then 1 else 0 }

/-- ROM `80F4`, entered with V0 = 250 and VF = 10 (Y is the flag register). -/
def add_flag_operand_state : chip8_t :=
  { machine_with_rom [0x80, 0xF4] with
    V := fun k => if k = 0 then 250 else if k = 0xF then 10 else 0 }

/-- ROM `8014`, entered with V0 = 250 and V1 = 10. -/
def add_carry_state : chip8_t :=
  { machine_with_rom [0x80, 0x14] with
    V := fun k => if k = 0 then 250 else if k = 1 then 10 else 0 }

/-- ROM `8015`, entered with V0 = 5 and V1 = 7. -/
def sub_state : chip8_t :=
  { machine_with_rom [0x80, 0x15] with
    V := fun k => if k = 0 then 5 else if k = 1 then 7 else 0 }

/-- ROM `80F5`, entered with V0 = 5 and VF = 3 (Y is the flag register). -/
def sub_flag_operand_state : chip8_t :=
  { machine_with_rom [0x80, 0xF5] with
    V := fun k => if k = 0 then 5 else if k = 0xF then 3 else 0 }

/-- ROM `80F7`, entered with V0 = 5 and VF = 7 (Y is the flag register). -/
def subn_flag_operand_state : chip8_t :=
  { machine_with_rom [0x80, 0xF7] with
    V := fun k => if k = 0 then 5 else if k = 0xF then 7 else 0 }

/-- ROM `2204 0000 00EE`: a call to 0x204, where a return stands. -/
def call_return_rom : List Nat := [0x22, 0x04, 0x00, 0x00, 0x00, 0xEE]

/-- ROM `6005 7003 00EE`: two register cycles, then a return with nothing pushed. -/
def underflow_rom : List Nat := [0x60, 0x05, 0x70, 0x03, 0x00, 0xEE]

/-- ROM `2200`: a subroutine at 0x200 that calls itself. -/
def recursion_rom : List Nat := [0x22, 0x00]

/-- ROM `9011`, entered with V0 = 1 and V1 = 0. -/
def skip_ne_state : chip8_t :=
  { machine_with_rom [0x90, 0x11] with V := fun k => if k = 0 then 1 else 0 }

/-- ROM `D001 01E0`: draw the first row of glyph 0 at (0, 0), then opcode `01E0`. -/
def draw_then_01E0_rom : List Nat := [0xD0, 0x01, 0x01, 0xE0]

/-- ROM `D005` on a fresh machine: draw glyph 0 (I = 0) at (0, 0). -/
def glyph_draw_state : chip8_t := machine_with_rom [0xD0, 0x05]

/-- The machine after the first cycle of ROM `D005 D005`: glyph 0 is on the
screen and the same draw comes next. -/
def glyph_redraw_state : chip8_t :=
  match emulate_instruction (machine_with_rom [0xD0, 0x05, 0xD0, 0x05]) 0 with
  | .ok c => c
  | .error _ => zero_chip8

/-- ROM `A20A 6001 D011 D111 0000 C0`: the sprite byte `C0` drawn at (1, 0), then at
(0, 0). -/
def overlap_rom : List Nat :=
  [0xA2, 0x0A, 0x60, 0x01, 0xD0, 0x11, 0xD1, 0x11, 0x00, 0x00, 0xC0]

/-- ROM `6005 F015`: V0 := 5, then delay timer := V0; zero bytes follow. -/
def quit_tick_rom : List Nat := [0x60, 0x05, 0xF0, 0x15]

/-- The machine after one cycle, used to build concrete inputs; the machine itself
when the cycle has no result. -/
def after_cycle (chip8 : chip8_t) (rnd : Nat) : chip8_t :=
  match emulate_instruction chip8 rnd with
  | .ok c => c
  | .error _ => chip8

/-- ROM `D005 D005 D005`: glyph 0 (I = 0) drawn at (0, 0) three times. -/
def glyph_rom3 : List Nat := [0xD0, 0x05, 0xD0, 0x05, 0xD0, 0x05]

/-- The machine after the first cycle of ROM `D005 D005 D005`: glyph 0 is on the
screen and two more draws of it follow. -/
def glyph_drawn_state : chip8_t := after_cycle (machine_with_rom glyph_rom3) 0

/-- ROM `F033` on a fresh machine (I = 0, V0 = 0). -/
def bcd_on_font_state : chip8_t := machine_with_rom [0xF0, 0x33]

/-- ROM `F033`, entered with V0 = 234 and I = 0x300. -/
def bcd_state : chip8_t :=
  { machine_with_rom [0xF0, 0x33] with
    V := fun k => if k = 0 then 234 else 0, I := 0x300 }

/-- ROM `F255 F265`, entered with V0 = 1, V1 = 2, V2 = 3, V3 = 4 and I = 0x300. -/
def dump_load_state : chip8_t :=
  { machine_with_rom [0xF2, 0x55, 0xF2, 0x65] with
    V := fun k => if k = 0 then 1 else if k = 1 then 2 else if k = 2 then 3
      else if k = 3 then 4 else 0,
    I := 0x300 }

/-- ROM `F265` on a fresh machine, entered with V3 = 7 (I = 0: the load reads the
font). -/
def load_state : chip8_t :=
  { machine_with_rom [0xF2, 0x65] with V := fun k => if k = 3 then 7 else 0 }

/-- ROM `8016`, entered with V0 = 0x85 and V1 = 9. -/
def shift_right_state : chip8_t :=
  { machine_with_rom [0x80, 0x16] with
    V := fun k => if k = 0 then 0x85 else if k = 1 then 9 else 0 }

/-- ROM `8006` (Y = X = 0), entered with V0 = 3. -/
def shift_same_register_state : chip8_t :=
  { machine_with_rom [0x80, 0x06] with V := fun k => if k = 0 then 3 else 0 }

/-- ROM `81FE` (X = 1, Y = 0xF), entered with V1 = 0x81 and VF = 0. -/
def shift_flag_register_state : chip8_t :=
  { machine_with_rom [0x81, 0xFE] with V := fun k => if k = 1 then 0x81 else 0 }

/-- The machine created from ROM `bytes`, entered with V0 = `v0`, V1 = `v1` and
every other register 0. -/
def machine_with_regs (bytes : List Nat) (v0 v1 : Nat) : chip8_t :=
  { machine_with_rom bytes with V := fun k => if k = 0 then v0 else if k = 1 then v1 else 0 }

/-- ROM `F01E`, entered with I = 0xFFFF and V0 = 2. -/
def index_wrap_state : chip8_t := { machine_with_regs [0xF0, 0x1E] 2 0 with I := 0xFFFF }

/-- ROM `600A F029` after its first cycle: V0 = 0xA and `F029` is next. -/
def glyph_address_state : chip8_t := after_cycle (machine_with_rom [0x60, 0x0A, 0xF0, 0x29]) 0

/-- The machine created from ROM `bytes`, entered with V0 = `v0` and exactly the
keys `k1` and `k2` held down. -/
def machine_with_keys (bytes : List Nat) (v0 k1 k2 : Nat) : chip8_t :=
  { machine_with_regs bytes v0 0 with keypad := fun k => k == k1 || k == k2 }

/-- The machine created from ROM `bytes`, entered with V0 = `v0`, the delay timer
at `d` and the sound timer at `t`. -/
def machine_with_timers (bytes : List Nat) (v0 d t : Nat) : chip8_t :=
  { machine_with_regs bytes v0 0 with delay_timer := d, sound_timer := t }

/-- ROM `F015`, entered with V0 = 7, delay timer 9, sound timer 4 and keys 3 and 7
held down. -/
def timers_keys_state : chip8_t :=
  { machine_with_timers [0xF0, 0x15] 7 9 4 with keypad := fun k => k == 3 || k == 7 }

/-- ROM `D001 00E0 D001 00E0`: draw the first row of glyph 0, clear, draw it again, clear. -/
def clear_rom : List Nat := [0xD0, 0x01, 0x00, 0xE0, 0xD0, 0x01, 0x00, 0xE0]

/-- ROM `D001 00E0 D001 00E0` after its first cycle: a sprite row is on the screen and
`00E0` is next. -/
def clear_state : chip8_t := after_cycle (machine_with_rom clear_rom) 0

/-- The machine created from ROM `6005 F015`, in the Paused state. -/
def paused_state : chip8_t := { machine_with_rom quit_tick_rom with state := .PAUSED }

/-- The machine created from ROM `bytes`, entered with V0 = 3 and VF = 0x81. -/
def flag_operand_state (bytes : List Nat) : chip8_t :=
  { machine_with_rom bytes with V := fun k => if k = 0 then 3 else if k = 0xF then 0x81 else 0 }

/-- ROM `60FF AFFF F01E (x8) 6041 F01E F055`: I is raised to 0xFFF + 8 * 255 + 65 =
6200 and `F055` follows, with V0 = 0x41. -/
def index_overrun_rom : List Nat :=
  [0x60, 0xFF, 0xAF, 0xFF,
   0xF0, 0x1E, 0xF0, 0x1E, 0xF0, 0x1E, 0xF0, 0x1E,
   0xF0, 0x1E, 0xF0, 0x1E, 0xF0, 0x1E, 0xF0, 0x1E,
   0x60, 0x41, 0xF0, 0x1E, 0xF0, 0x55]

/-- ROM `6005 F015 7101 (x9)`: two opcodes that set the delay timer to 5, then nine
increments of V1. -/
def count_rom : List Nat :=
  [0x60, 0x05, 0xF0, 0x15,
   0x71, 0x01, 0x71, 0x01, 0x71, 0x01, 0x71, 0x01, 0x71, 0x01,
   0x71, 0x01, 0x71, 0x01, 0x71, 0x01, 0x71, 0x01]

/-! ## Decoding lemmas -/

theorem decode_opcode (op : Nat) : (decode op).opcode = op := rfl

theorem decode_NNN (op : Nat) : (decode op).NNN = op % 4096 :=
  Nat.and_pow_two_sub_one_eq_mod op 12

theorem decode_NN (op : Nat) : (decode op).NN = op % 256 := by
  have h : op &&& 0x0FF = op % 256 := Nat.and_pow_two_sub_one_eq_mod op 8
  simp only [decode, h]; omega

theorem decode_N (op : Nat) : (decode op).N = op % 16 := by
  have h : op &&& 0x0F = op % 16 := Nat.and_pow_two_sub_one_eq_mod op 4
  simp only [decode, h]; omega

theorem decode_X (op : Nat) : (decode op).X = op / 256 % 16 := by
  have h : (op >>> 8) &&& 0x0F = (op >>> 8) % 16 := Nat.and_pow_two_sub_one_eq_mod _ 4
  have h2 : op >>> 8 = op / 256 := Nat.shiftRight_eq_div_pow op 8
  simp only [decode, h]; rw [h2]; omega

theorem decode_Y (op : Nat) : (decode op).Y = op / 16 % 16 := by
  have h : (op >>> 4) &&& 0x0F = (op >>> 4) % 16 := Nat.and_pow_two_sub_one_eq_mod _ 4
  have h2 : op >>> 4 = op / 16 := Nat.shiftRight_eq_div_pow op 4
  simp only [decode, h]; rw [h2]; omega

theorem dispatch_nibble (op : Nat) : (op >>> 12) &&& 0x0F = op / 4096 % 16 := by
  have h : (op >>> 12) &&& 0x0F = (op >>> 12) % 16 := Nat.and_pow_two_sub_one_eq_mod _ 4
  have h2 : op >>> 12 = op / 4096 := Nat.shiftRight_eq_div_pow op 12
  rw [h, h2]

theorem set_at_same {α : Type} (a : Nat → α) (i : Nat) (v : α) : set_at a i v i = v := by
  simp [set_at]

theorem set_at_other {α : Type} (a : Nat → α) (i k : Nat) (v : α) (h : k ≠ i) :
    set_at a i v k = a k := by
  simp [set_at, h]

/-- The cycle on an opcode of group 8 reduces to `exec_8` on the fetched machine. -/
theorem emulate_group_8 (s : chip8_t) (rnd : Nat) (hpc : s.PC + 1 < RAM_SIZE)
    (hop : fetch_opcode s / 4096 % 16 = 8) :
    emulate_instruction s rnd =
      exec_8 { s with PC := (s.PC + 2) % 65536, inst := decode (fetch_opcode s) } := by
  simp [emulate_instruction, hpc, dispatch_nibble, decode_opcode, hop]

theorem to_u8_cast (z : Int) : ((to_u8 z : Nat) : Int) = z % 256 := by
  unfold to_u8; omega

theorem to_u16_cast (z : Int) : ((to_u16 z : Nat) : Int) = z % 65536 := by
  unfold to_u16; omega

/-! ## Well-formedness of created machines -/

theorem copy_at_lt (ram : Nat → Nat) (base : Nat) (src : List Nat)
    (h1 : ∀ k, ram k < 256) (h2 : ∀ b ∈ src, b < 256) (k : Nat) :
    copy_at ram base src k < 256 := by
  unfold copy_at
  split
  · rename_i h
    have hk : k - base < src.length := by omega
    rw [List.getD_eq_getElem _ _ hk]
    exact h2 _ (List.getElem_mem hk)
  · exact h1 k

theorem font_lt : ∀ b ∈ font, b < 256 := by decide

theorem machine_with_rom_ram_lt (bytes : List Nat) (hb : ∀ b ∈ bytes, b < 256) (k : Nat) :
    (machine_with_rom bytes).ram k < 256 := by
  have hf : ∀ k, copy_at zero_chip8.ram 0 font k < 256 :=
    copy_at_lt _ _ _ (fun _ => by simp [zero_chip8]) font_lt
  unfold machine_with_rom init_chip8
  simp only
  split_ifs
  · exact hf k
  · exact hf k
  · exact copy_at_lt _ _ _ hf hb k

theorem machine_with_rom_rest (bytes : List Nat) :
    (machine_with_rom bytes).display = (fun _ => 0) ∧
    (machine_with_rom bytes).stack = (fun _ => 0) ∧
    (machine_with_rom bytes).stack_ptr = 0 ∧ (machine_with_rom bytes).I = 0 ∧
    (machine_with_rom bytes).PC ≤ 0x200 ∧
    (machine_with_rom bytes).delay_timer = 0 ∧ (machine_with_rom bytes).sound_timer = 0 := by
  unfold machine_with_rom init_chip8
  simp only
  split_ifs <;> simp [zero_chip8]

/-- A created machine whose registers are then set to bytes is well formed. -/
theorem well_formed_rom (bytes : List Nat) (V : Nat → Nat)
    (hb : ∀ b ∈ bytes, b < 256) (hV : ∀ i, i < 16 → V i < 256) :
    well_formed { machine_with_rom bytes with V := V } := by
  obtain ⟨h1, h2, h3, h4, h5, h6, h7⟩ := machine_with_rom_rest bytes
  refine ⟨fun i _ => machine_with_rom_ram_lt bytes hb i, ?_, ?_, ?_, hV, ?_, ?_, ?_, ?_⟩
  · intro i _; simp [h1]
  · intro i _; simp [h2]
  · simp [h3]
  · simp [h4]
  · show (machine_with_rom bytes).PC < 65536; omega
  · simp [h6]
  · simp [h7]

/-! ## C1: 8XY4 -/

/-- C1, counterexample.  (a) ROM `8014` with V0 = 1, V1 = 1 and VF = 1 before the
cycle: the sum does not exceed 255, yet the cycle ends with VF = 1, not 0 (the
flag is only ever set, never cleared).  (b) ROM `80F4` with V0 = 250 and VF = 10:
(250 + 10) mod 256 = 4, yet the cycle ends with V0 = 251 (the flag is written
first and the sum reads it back). -/
theorem C1_counterexample :
    (fetch_opcode add_no_carry_state = 0x8014 ∧
      add_no_carry_state.V 0 + add_no_carry_state.V 1 ≤ 255 ∧
      ∃ s', emulate_instruction add_no_carry_state 0 = .ok s' ∧ s'.V 0xF = 1) ∧
    (fetch_opcode add_flag_operand_state = 0x80F4 ∧
      (add_flag_operand_state.V 0 + add_flag_operand_state.V 0xF) % 256 = 4 ∧
      ∃ s', emulate_instruction add_flag_operand_state 0 = .ok s' ∧ s'.V 0 = 251) :=
  ⟨⟨by decide, by decide, _, rfl, by decide⟩, ⟨by decide, by decide, _, rfl, by decide⟩⟩

/-- C1, amended: for every well-formed machine state, every X other than 0xF and
every Y, one cycle on 8XY4 ends with VF = 1 whenever VX + VY > 255; with
VX = (VX + VY) mod 256 when Y is not 0xF; and, when Y = 0xF and VX + VF > 255,
with VX = (VX + 1) mod 256, the sum being taken with the flag just written.
VX, VY on the right-hand sides are the values before the cycle. -/
theorem C1_add_carry (s : chip8_t) (rnd X Y : Nat)
    (hwf : well_formed s) (hpc : s.PC + 1 < RAM_SIZE)
    (hX : X < 16) (hY : Y < 16) (hXF : X ≠ 0xF)
    (hop : fetch_opcode s = 0x8004 + X * 256 + Y * 16) :
    ∃ s', emulate_instruction s rnd = .ok s' ∧
      (s.V X + s.V Y > 255 → s'.V 0xF = 1) ∧
      (Y ≠ 0xF → s'.V X = (s.V X + s.V Y) % 256) ∧
      (Y = 0xF → s.V X + s.V Y > 255 → s'.V X = (s.V X + 1) % 256) := by
  have hN : fetch_opcode s % 16 = 4 := by omega
  have hXd : fetch_opcode s / 256 % 16 = X := by omega
  have hYd : fetch_opcode s / 16 % 16 = Y := by omega
  have hVX : s.V X < 256 := hwf.2.2.2.2.1 X hX
  have hVY : s.V Y < 256 := hwf.2.2.2.2.1 Y hY
  have h65 : (s.V X + s.V Y) % 65536 = s.V X + s.V Y := by omega
  rw [emulate_group_8 s rnd hpc (by omega)]
  simp only [exec_8, decode_N, decode_X, decode_Y, hN, hXd, hYd, h65]
  by_cases hc : 255 < s.V X + s.V Y
  · simp [hc, set_at, hXF]
    refine ⟨fun h => absurd h.symm hXF, ?_, fun hYF => by simp [hYF]⟩
    intro hYF; simp [hYF]
  · simp [hc, set_at]

/-- C1, witness: ROM `8014` with V0 = 250, V1 = 10 gives VF = 1 and V0 = 4. -/
theorem C1_add_carry_witness :
    well_formed add_carry_state ∧ add_carry_state.PC + 1 < RAM_SIZE ∧
    fetch_opcode add_carry_state = 0x8004 + 0 * 256 + 1 * 16 ∧
    ∃ s', emulate_instruction add_carry_state 7 = .ok s' ∧
      (add_carry_state.V 0 + add_carry_state.V 1 > 255 → s'.V 0xF = 1) ∧
      (1 ≠ 0xF → s'.V 0 = (add_carry_state.V 0 + add_carry_state.V 1) % 256) ∧
      (1 = 0xF → add_carry_state.V 0 + add_carry_state.V 1 > 255 →
        s'.V 0 = (add_carry_state.V 0 + 1) % 256) :=
  have hwf : well_formed add_carry_state :=
    well_formed_rom [0x80, 0x14] _ (by decide) (fun i _ => by split_ifs <;> omega)
  ⟨hwf, by decide, by decide,
    C1_add_carry add_carry_state 7 0 1 hwf (by decide) (by decide) (by decide) (by decide)
      (by decide)⟩

/-! ## C3: 8XY5 and 8XY7 -/

/-- C3, counterexample.  ROM `80F5` with V0 = 5 and VF = 3: (5 - 3) mod 256 = 2,
yet the cycle ends with V0 = 4 (VF is set to 1 first and then subtracted).
ROM `80F7` with V0 = 5 and VF = 7: (7 - 5) mod 256 = 2, yet the cycle ends with
V0 = 252 (VF is set to 1 first, then V0 = 1 - 5 wraps). -/
theorem C3_counterexample :
    (fetch_opcode sub_flag_operand_state = 0x80F5 ∧
      ((sub_flag_operand_state.V 0 : Int) - (sub_flag_operand_state.V 0xF : Int)) % 256 = 2 ∧
      ∃ s', emulate_instruction sub_flag_operand_state 0 = .ok s' ∧ s'.V 0 = 4) ∧
    (fetch_opcode subn_flag_operand_state = 0x80F7 ∧
      ((subn_flag_operand_state.V 0xF : Int) - (subn_flag_operand_state.V 0 : Int)) % 256 = 2 ∧
      ∃ s', emulate_instruction subn_flag_operand_state 0 = .ok s' ∧ s'.V 0 = 252) :=
  ⟨⟨by decide, by decide, _, rfl, by decide⟩, ⟨by decide, by decide, _, rfl, by decide⟩⟩

/-- C3, amended: for every machine state, every X other than 0xF and every Y,
8XY5 ends with VF = 1 if VY <= VX else 0 and 8XY7 ends with VF = 1 if VX <= VY
else 0 (values before the cycle).  When Y is not 0xF, VX ends as (VX - VY) mod 256,
resp. (VY - VX) mod 256, of the values before the cycle.  When Y = 0xF the
subtraction reads the flag just written: VX ends as (VX - VF') mod 256, resp.
(VF' - VX) mod 256, with VF' the new flag. -/
theorem C3_sub_borrow (s : chip8_t) (rnd X Y : Nat) (hpc : s.PC + 1 < RAM_SIZE)
    (hX : X < 16) (hY : Y < 16) (hXF : X ≠ 0xF) :
    (fetch_opcode s = 0x8005 + X * 256 + Y * 16 →
      ∃ s', emulate_instruction s rnd = .ok s' ∧
        s'.V 0xF = (if s.V Y ≤ s.V X then 1 else 0) ∧
        (Y ≠ 0xF → (s'.V X : Int) = ((s.V X : Int) - (s.V Y : Int)) % 256) ∧
        (Y = 0xF → (s'.V X : Int) = ((s.V X : Int) - (s'.V 0xF : Int)) % 256)) ∧
    (fetch_opcode s = 0x8007 + X * 256 + Y * 16 →
      ∃ s', emulate_instruction s rnd = .ok s' ∧
        s'.V 0xF = (if s.V X ≤ s.V Y then 1 else 0) ∧
        (Y ≠ 0xF → (s'.V X : Int) = ((s.V Y : Int) - (s.V X : Int)) % 256) ∧
        (Y = 0xF → (s'.V X : Int) = ((s'.V 0xF : Int) - (s.V X : Int)) % 256)) := by
  constructor
  · intro hop
    have hN : fetch_opcode s % 16 = 5 := by omega
    have hXd : fetch_opcode s / 256 % 16 = X := by omega
    have hYd : fetch_opcode s / 16 % 16 = Y := by omega
    rw [emulate_group_8 s rnd hpc (by omega)]
    simp only [exec_8, decode_N, decode_X, decode_Y, hN, hXd, hYd]
    simp [set_at, hXF, Ne.symm hXF, to_u8_cast]
    refine ⟨fun hYF => ?_, fun hYF => ?_⟩
    · simp [hYF]
    · simp [hYF]
  · intro hop
    have hN : fetch_opcode s % 16 = 7 := by omega
    have hXd : fetch_opcode s / 256 % 16 = X := by omega
    have hYd : fetch_opcode s / 16 % 16 = Y := by omega
    rw [emulate_group_8 s rnd hpc (by omega)]
    simp only [exec_8, decode_N, decode_X, decode_Y, hN, hXd, hYd]
    simp [set_at, hXF, Ne.symm hXF, to_u8_cast]
    refine ⟨fun hYF => ?_, fun hYF => ?_⟩
    · simp [hYF]
    · simp [hYF]

/-- C3, witness: ROM `8015` with V0 = 5, V1 = 7 gives VF = 0 and V0 = 254. -/
theorem C3_sub_borrow_witness :
    sub_state.PC + 1 < RAM_SIZE ∧ fetch_opcode sub_state = 0x8005 + 0 * 256 + 1 * 16 ∧
    ∃ s', emulate_instruction sub_state 0 = .ok s' ∧
      s'.V 0xF = (if sub_state.V 1 ≤ sub_state.V 0 then 1 else 0) ∧
      (1 ≠ 0xF → (s'.V 0 : Int) = ((sub_state.V 0 : Int) - (sub_state.V 1 : Int)) % 256) ∧
      (1 = 0xF → (s'.V 0 : Int) = ((sub_state.V 0 : Int) - (s'.V 0xF : Int)) % 256) :=
  ⟨by decide, by decide,
    (C3_sub_borrow sub_state 0 0 1 (by decide) (by decide) (by decide) (by decide)).1
      (by decide)⟩

/-! ## Dispatch lemmas -/

theorem emulate_group_0 (s : chip8_t) (rnd : Nat) (hpc : s.PC + 1 < RAM_SIZE)
    (hop : fetch_opcode s / 4096 % 16 = 0) :
    emulate_instruction s rnd =
      exec_0 { s with PC := (s.PC + 2) % 65536, inst := decode (fetch_opcode s) } := by
  simp [emulate_instruction, hpc, dispatch_nibble, decode_opcode, hop]

theorem emulate_group_2 (s : chip8_t) (rnd : Nat) (hpc : s.PC + 1 < RAM_SIZE)
    (hop : fetch_opcode s / 4096 % 16 = 2) :
    emulate_instruction s rnd =
      exec_2 { s with PC := (s.PC + 2) % 65536, inst := decode (fetch_opcode s) } := by
  simp [emulate_instruction, hpc, dispatch_nibble, decode_opcode, hop]

/-! ## C4: call then return -/

/-- C4: for every machine state whose call stack holds fewer than 12 addresses,
with 2NNN at PC and 00EE at address NNN, two consecutive cycles end with PC equal
to the original PC + 2, the stack pointer back at its original depth, every stack
cell other than the one above the top unchanged (so the stack contents below the
top are the original ones), and V0..VF, I, memory, framebuffer, timers, keypad
and controller state unchanged. -/
theorem C4_call_return_roundtrip (s : chip8_t) (r1 r2 NNN : Nat)
    (hsp : s.stack_ptr < STACK_SIZE) (hpc : s.PC + 1 < RAM_SIZE)
    (hcall : fetch_opcode s = 0x2000 + NNN) (hN : NNN + 1 < RAM_SIZE)
    (hret : fetch_opcode { s with PC := NNN } = 0x00EE) :
    ∃ s1 s2, emulate_instruction s r1 = .ok s1 ∧ emulate_instruction s1 r2 = .ok s2 ∧
      s2.PC = s.PC + 2 ∧ s2.stack_ptr = s.stack_ptr ∧
      (∀ i, i ≠ s.stack_ptr → s2.stack i = s.stack i) ∧
      s2.V = s.V ∧ s2.I = s.I ∧ s2.ram = s.ram ∧ s2.display = s.display ∧
      s2.delay_timer = s.delay_timer ∧ s2.sound_timer = s.sound_timer ∧
      s2.keypad = s.keypad ∧ s2.state = s.state := by
  have hR : RAM_SIZE = 4096 := rfl
  have hS : STACK_SIZE = 12 := rfl
  have hp : (s.PC + 2) % 65536 = s.PC + 2 := by omega
  have hn : fetch_opcode s % 4096 = NNN := by omega
  have h1 : emulate_instruction s r1 = .ok
      { s with PC := NNN, inst := decode (fetch_opcode s),
               stack := set_at s.stack s.stack_ptr (s.PC + 2),
               stack_ptr := s.stack_ptr + 1 } := by
    rw [emulate_group_2 s r1 hpc (by omega)]
    simp [exec_2, hsp, decode_NNN, hp, hn]
  have hf : fetch_opcode
      { s with PC := NNN, inst := decode (fetch_opcode s),
               stack := set_at s.stack s.stack_ptr (s.PC + 2),
               stack_ptr := s.stack_ptr + 1 } = 0x00EE := hret
  have h2 : emulate_instruction
      { s with PC := NNN, inst := decode (fetch_opcode s),
               stack := set_at s.stack s.stack_ptr (s.PC + 2),
               stack_ptr := s.stack_ptr + 1 } r2 = .ok
      { s with PC := s.PC + 2, inst := decode 0x00EE,
               stack := set_at s.stack s.stack_ptr (s.PC + 2) } := by
    rw [emulate_group_0 _ r2 hN (by rw [hf])]
    simp only [hf, exec_0, decode_NN]
    simp [set_at, hsp]
  refine ⟨_, _, h1, h2, rfl, rfl, ?_, rfl, rfl, rfl, rfl, rfl, rfl, rfl, rfl⟩
  intro i hi
  simp [set_at, hi]

/-- C4, witness: ROM `2204 0000 00EE` on a fresh machine. -/
theorem C4_call_return_roundtrip_witness :
    (machine_with_rom call_return_rom).stack_ptr < STACK_SIZE ∧
    (machine_with_rom call_return_rom).PC + 1 < RAM_SIZE ∧
    fetch_opcode (machine_with_rom call_return_rom) = 0x2000 + 0x204 ∧
    0x204 + 1 < RAM_SIZE ∧
    fetch_opcode { machine_with_rom call_return_rom with PC := 0x204 } = 0x00EE ∧
    ∃ s1 s2, emulate_instruction (machine_with_rom call_return_rom) 0 = .ok s1 ∧
      emulate_instruction s1 0 = .ok s2 ∧
      s2.PC = (machine_with_rom call_return_rom).PC + 2 ∧
      s2.stack_ptr = (machine_with_rom call_return_rom).stack_ptr ∧
      (∀ i, i ≠ (machine_with_rom call_return_rom).stack_ptr →
        s2.stack i = (machine_with_rom call_return_rom).stack i) ∧
      s2.V = (machine_with_rom call_return_rom).V ∧
      s2.I = (machine_with_rom call_return_rom).I ∧
      s2.ram = (machine_with_rom call_return_rom).ram ∧
      s2.display = (machine_with_rom call_return_rom).display ∧
      s2.delay_timer = (machine_with_rom call_return_rom).delay_timer ∧
      s2.sound_timer = (machine_with_rom call_return_rom).sound_timer ∧
      s2.keypad = (machine_with_rom call_return_rom).keypad ∧
      s2.state = (machine_with_rom call_return_rom).state :=
  ⟨by decide, by decide, by decide, by decide, by decide,
    C4_call_return_roundtrip (machine_with_rom call_return_rom) 0 0 0x204
      (by decide) (by decide) (by decide) (by decide) (by decide)⟩

/-! ## C5 and C6: call-stack underflow and overflow -/

/-- C5, counterexample: ROM `6005 7003 00EE` on a fresh machine.  Two cycles give
V0 = 8 with an empty stack and 00EE next; the third cycle has no defined result:
it reads the cell below `stack[0]`. -/
theorem C5_counterexample :
    ∃ s2, run_cycles 2 (machine_with_rom underflow_rom) (fun _ => 0) = .ok s2 ∧
      s2.V 0 = 0x08 ∧ s2.stack_ptr = 0 ∧ fetch_opcode s2 = 0x00EE ∧
      emulate_instruction s2 0 = .error .stack_out_of_bounds :=
  ⟨_, rfl, by decide, by decide, by decide, rfl⟩

/-- C5, amended: for every machine state whose call stack is empty, the cycle on
00EE is not guarded: it steps the stack pointer below `stack[0]` and reads a cell
outside the 12-entry stack, so the cycle has no defined result (no underflow
policy is implemented). -/
theorem C5_return_on_empty_stack (s : chip8_t) (rnd : Nat) (hpc : s.PC + 1 < RAM_SIZE)
    (hop : fetch_opcode s = 0x00EE) (hsp : s.stack_ptr = 0) :
    emulate_instruction s rnd = .error .stack_out_of_bounds := by
  rw [emulate_group_0 s rnd hpc (by omega)]
  simp [exec_0, decode_NN, hop, hsp]

/-- C5, witness: ROM `00EE` on a fresh machine. -/
theorem C5_return_on_empty_stack_witness :
    (machine_with_rom [0x00, 0xEE]).PC + 1 < RAM_SIZE ∧
    fetch_opcode (machine_with_rom [0x00, 0xEE]) = 0x00EE ∧
    (machine_with_rom [0x00, 0xEE]).stack_ptr = 0 ∧
    emulate_instruction (machine_with_rom [0x00, 0xEE]) 3 = .error .stack_out_of_bounds :=
  ⟨by decide, by decide, by decide,
    C5_return_on_empty_stack (machine_with_rom [0x00, 0xEE]) 3 (by decide) (by decide)
      (by decide)⟩

/-- C6, counterexample: ROM `2200` on a fresh machine.  Twelve cycles fill the
stack and leave the machine Running with 2200 next; the thirteenth cycle has no
defined result: it stores the return address in `stack[12]`. -/
theorem C6_counterexample :
    ∃ s12, run_cycles 12 (machine_with_rom recursion_rom) (fun _ => 0) = .ok s12 ∧
      s12.stack_ptr = 12 ∧ s12.state = .RUNNING ∧ fetch_opcode s12 = 0x2200 ∧
      emulate_instruction s12 0 = .error .stack_out_of_bounds :=
  ⟨_, rfl, by decide, by decide, by decide, rfl⟩

/-- C6, amended: for every machine state whose call stack already holds 12 return
addresses, the cycle on 2NNN is not guarded: it stores the return address in the
cell past the end of the 12-entry stack, so the cycle has no defined result; no
transition to the Halted state is made (no overflow policy is implemented). -/
theorem C6_call_on_full_stack (s : chip8_t) (rnd NNN : Nat) (hpc : s.PC + 1 < RAM_SIZE)
    (hN : NNN < 4096) (hop : fetch_opcode s = 0x2000 + NNN)
    (hsp : s.stack_ptr = STACK_SIZE) :
    emulate_instruction s rnd = .error .stack_out_of_bounds := by
  rw [emulate_group_2 s rnd hpc (by omega)]
  simp [exec_2, hsp]

/-- C6, witness: ROM `2200` entered with the stack pointer at `stack[12]`. -/
theorem C6_call_on_full_stack_witness :
    ({ machine_with_rom recursion_rom with stack_ptr := 12 } : chip8_t).PC + 1 < RAM_SIZE ∧
    0x200 < 4096 ∧
    fetch_opcode { machine_with_rom recursion_rom with stack_ptr := 12 } = 0x2000 + 0x200 ∧
    ({ machine_with_rom recursion_rom with stack_ptr := 12 } : chip8_t).stack_ptr = STACK_SIZE ∧
    emulate_instruction { machine_with_rom recursion_rom with stack_ptr := 12 } 0 =
      .error .stack_out_of_bounds :=
  ⟨by decide, by decide, by decide, by decide,
    C6_call_on_full_stack { machine_with_rom recursion_rom with stack_ptr := 12 } 0 0x200
      (by decide) (by decide) (by decide) (by decide)⟩

/-! ## C7: opcodes outside the table -/

/-- C7, the code at two opcodes outside the table.  ROM `9011` with V0 = 1, V1 = 0:
the cycle advances PC by 4 (the skip is taken whatever N is).  ROM `D001 01E0`:
after the draw cell 0 of the framebuffer is on, and the cycle on `01E0` clears it
(group 0 is selected on the low byte alone). -/
theorem C7_outside_table_has_effect :
    (fetch_opcode skip_ne_state = 0x9011 ∧
      ∃ s', emulate_instruction skip_ne_state 0 = .ok s' ∧ s'.PC = skip_ne_state.PC + 4) ∧
    (∃ s1 s2, emulate_instruction (machine_with_rom draw_then_01E0_rom) 0 = .ok s1 ∧
      fetch_opcode s1 = 0x01E0 ∧ s1.display 0 = 128 ∧
      emulate_instruction s1 0 = .ok s2 ∧ s2.PC = s1.PC + 2 ∧ s2.display 0 = 0) :=
  ⟨⟨by decide, _, rfl, by decide⟩, ⟨_, _, rfl, by decide, by decide, rfl, by decide, by decide⟩⟩

/-! ## The sprite loops of DXYN -/

theorem draw_frame_refl (c : chip8_t) : draw_frame c c :=
  ⟨rfl, rfl, rfl, rfl, fun _ _ => rfl, rfl, rfl, rfl, rfl, rfl, rfl, rfl⟩

theorem draw_frame_trans {a b c : chip8_t} (h1 : draw_frame a b) (h2 : draw_frame b c) :
    draw_frame a c := by
  obtain ⟨a1, a2, a3, a4, a5, a6, a7, a8, a9, a10, a11, a12⟩ := h1
  obtain ⟨b1, b2, b3, b4, b5, b6, b7, b8, b9, b10, b11, b12⟩ := h2
  exact ⟨b1.trans a1, b2.trans a2, b3.trans a3, b4.trans a4,
    fun i hi => (b5 i hi).trans (a5 i hi), b6.trans a6, b7.trans a7, b8.trans a8,
    b9.trans a9, b10.trans a10, b11.trans a11, b12.trans a12⟩

theorem draw_row_succ (sd Y j X : Nat) (c : chip8_t) (hY : Y < 32) (hX : X < 64) :
    draw_row sd Y (j + 1) X c =
      if X + 1 ≥ 64 then .ok (draw_pixel sd Y j X c)
      else draw_row sd Y j (X + 1) (draw_pixel sd Y j X c) := by
  have h1 : Y * 64 + X < 64 * 32 := by omega
  have h2 : (X + 1) % 256 = X + 1 := by omega
  simp only [draw_row, WINDOW_WIDTH, DISPLAY_SIZE, h1, h2, not_true, if_false]

theorem draw_pixel_frame (sd Y j X : Nat) (c : chip8_t) :
    draw_frame c (draw_pixel sd Y j X c) := by
  unfold draw_pixel
  simp only
  split_ifs <;> simp [draw_frame, set_at]
  all_goals (intro i hi; simp [hi])

theorem draw_pixel_display (sd Y j X : Nat) (c : chip8_t) (k : Nat) :
    (draw_pixel sd Y j X c).display k =
      if k = Y * 64 + X then (c.display k ^^^ (sd &&& (1 <<< j))) % 256 else c.display k := by
  unfold draw_pixel
  simp only [WINDOW_WIDTH]
  split_ifs <;> simp_all [set_at]

theorem draw_pixel_VF (sd Y j X : Nat) (c : chip8_t) :
    (draw_pixel sd Y j X c).V 0xF =
      if sd &&& (1 <<< j) ≠ 0 ∧ c.display (Y * 64 + X) ≠ 0 then 1 else c.V 0xF := by
  unfold draw_pixel
  simp only [WINDOW_WIDTH]
  split_ifs <;> simp_all [set_at]

/-- The row loop started at column `X` with `n` bits left: it returns, keeps the
frame, XORs bit `n - 1 - (x - X)` into each cell `x` of row `Y` with
`X ≤ x < min (X + n) 64`, and sets VF when one of those cells was on under a set bit. -/
theorem draw_row_spec (sd Y : Nat) (hY : Y < 32) :
    ∀ (n X : Nat) (c : chip8_t), X < 64 →
      ∃ c', draw_row sd Y n X c = .ok c' ∧ draw_frame c c' ∧
        (∀ k, (k / 64 = Y ∧ X ≤ k % 64 ∧ k % 64 < X + n →
                c'.display k = (c.display k ^^^ (sd &&& (1 <<< (n - 1 - (k % 64 - X))))) % 256) ∧
              (¬ (k / 64 = Y ∧ X ≤ k % 64 ∧ k % 64 < X + n) → c'.display k = c.display k)) ∧
        ((∃ k, (k / 64 = Y ∧ X ≤ k % 64 ∧ k % 64 < X + n) ∧
                sd &&& (1 <<< (n - 1 - (k % 64 - X))) ≠ 0 ∧ c.display k ≠ 0) → c'.V 0xF = 1) ∧
        ((¬ ∃ k, (k / 64 = Y ∧ X ≤ k % 64 ∧ k % 64 < X + n) ∧
                sd &&& (1 <<< (n - 1 - (k % 64 - X))) ≠ 0 ∧ c.display k ≠ 0) →
          c'.V 0xF = c.V 0xF) := by
  intro n
  induction n with
  | zero =>
    intro X c hX
    refine ⟨c, rfl, draw_frame_refl c, ?_, ?_, ?_⟩
    · intro k; constructor
      · intro h; omega
      · intro _; rfl
    · rintro ⟨k, h, _⟩; omega
    · intro _; rfl
  | succ n ih =>
    intro X c hX
    rw [draw_row_succ sd Y n X c hY hX]
    by_cases hedge : X + 1 ≥ 64
    · rw [if_pos hedge]
      refine ⟨_, rfl, draw_pixel_frame sd Y n X c, ?_, ?_, ?_⟩
      · intro k; constructor
        · intro h
          have hk : k = Y * 64 + X := by omega
          have he : n + 1 - 1 - (k % 64 - X) = n := by omega
          rw [draw_pixel_display, if_pos hk, he]
        · intro h
          have hk : k ≠ Y * 64 + X := by omega
          rw [draw_pixel_display, if_neg hk]
      · rintro ⟨k, h, hb, hd⟩
        have hk : k = Y * 64 + X := by omega
        have he : n + 1 - 1 - (k % 64 - X) = n := by omega
        rw [he] at hb; rw [hk] at hd
        rw [draw_pixel_VF, if_pos ⟨hb, hd⟩]
      · intro hne
        rw [draw_pixel_VF, if_neg]
        intro ⟨hb, hd⟩
        exact hne ⟨Y * 64 + X, by omega, by
          have he : n + 1 - 1 - ((Y * 64 + X) % 64 - X) = n := by omega
          rw [he]; exact hb, hd⟩
    · rw [if_neg hedge]
      obtain ⟨c', hok, hfr, hdisp, hset, hkeep⟩ := ih (X + 1) (draw_pixel sd Y n X c) (by omega)
      refine ⟨c', hok, draw_frame_trans (draw_pixel_frame sd Y n X c) hfr, ?_, ?_, ?_⟩
      · intro k; constructor
        · intro h
          by_cases hk : k = Y * 64 + X
          · have he : n + 1 - 1 - (k % 64 - X) = n := by omega
            rw [(hdisp k).2 (by omega), draw_pixel_display, if_pos hk, he]
          · have he : n + 1 - 1 - (k % 64 - X) = n - 1 - (k % 64 - (X + 1)) := by omega
            rw [(hdisp k).1 (by omega), draw_pixel_display, if_neg hk, he]
        · intro h
          have hk : k ≠ Y * 64 + X := by omega
          rw [(hdisp k).2 (by omega), draw_pixel_display, if_neg hk]
      · rintro ⟨k, h, hb, hd⟩
        by_cases hk : k = Y * 64 + X
        · have he : n + 1 - 1 - (k % 64 - X) = n := by omega
          rw [he] at hb; rw [hk] at hd
          have hp : (draw_pixel sd Y n X c).V 0xF = 1 := by
            rw [draw_pixel_VF, if_pos ⟨hb, hd⟩]
          by_cases hex : ∃ k, (k / 64 = Y ∧ X + 1 ≤ k % 64 ∧ k % 64 < X + 1 + n) ∧
                sd &&& (1 <<< (n - 1 - (k % 64 - (X + 1)))) ≠ 0 ∧
                (draw_pixel sd Y n X c).display k ≠ 0
          · exact hset hex
          · rw [hkeep hex, hp]
        · have he : n + 1 - 1 - (k % 64 - X) = n - 1 - (k % 64 - (X + 1)) := by omega
          rw [he] at hb
          refine hset ⟨k, by omega, hb, ?_⟩
          rw [draw_pixel_display, if_neg hk]; exact hd
      · intro hne
        have hex : ¬ ∃ k, (k / 64 = Y ∧ X + 1 ≤ k % 64 ∧ k % 64 < X + 1 + n) ∧
                sd &&& (1 <<< (n - 1 - (k % 64 - (X + 1)))) ≠ 0 ∧
                (draw_pixel sd Y n X c).display k ≠ 0 := by
          rintro ⟨k, h, hb, hd⟩
          have hk : k ≠ Y * 64 + X := by omega
          have he : n + 1 - 1 - (k % 64 - X) = n - 1 - (k % 64 - (X + 1)) := by omega
          rw [draw_pixel_display, if_neg hk] at hd
          exact hne ⟨k, by omega, by rw [he]; exact hb, hd⟩
        rw [hkeep hex, draw_pixel_VF, if_neg]
        intro ⟨hb, hd⟩
        exact hne ⟨Y * 64 + X, by omega, by
          have he : n + 1 - 1 - ((Y * 64 + X) % 64 - X) = n := by omega
          rw [he]; exact hb, hd⟩

theorem draw_sprite_succ (x0 r i Y : Nat) (c : chip8_t) (hY : Y < 32)
    (hmem : c.I + i < RAM_SIZE) :
    draw_sprite x0 (r + 1) i Y c =
      match draw_row (c.ram (c.I + i)) Y 8 x0 c with
      | .error e => .error e
      | .ok c1 => if Y + 1 ≥ 32 then .ok c1 else draw_sprite x0 r (i + 1) (Y + 1) c1 := by
  have h2 : (Y + 1) % 256 = Y + 1 := by omega
  simp only [draw_sprite, WINDOW_HEIGHT, hmem, h2, not_true, if_false]

/-- The sprite loop with `r` rows left, at sprite row `i` and screen row `Y`, when
the rows it reads lie inside memory: it returns, keeps the frame, XORs the sprite
bits into the clipped rectangle and sets VF on a collision. -/
theorem draw_sprite_spec (x0 : Nat) (hx0 : x0 < 64) :
    ∀ (r i Y : Nat) (c : chip8_t), Y < 32 →
      (∀ t, t < r → Y + t < 32 → c.I + i + t < RAM_SIZE) →
      ∃ c', draw_sprite x0 r i Y c = .ok c' ∧ draw_frame c c' ∧
        (∀ k,
          ((Y ≤ k / 64 ∧ k / 64 < Y + r ∧ k / 64 < 32 ∧ x0 ≤ k % 64 ∧ k % 64 < x0 + 8) →
            c'.display k = (c.display k ^^^
              (c.ram (c.I + i + (k / 64 - Y)) &&& (1 <<< (7 - (k % 64 - x0))))) % 256) ∧
          (¬ (Y ≤ k / 64 ∧ k / 64 < Y + r ∧ k / 64 < 32 ∧ x0 ≤ k % 64 ∧ k % 64 < x0 + 8) →
            c'.display k = c.display k)) ∧
        ((∃ k, (Y ≤ k / 64 ∧ k / 64 < Y + r ∧ k / 64 < 32 ∧ x0 ≤ k % 64 ∧ k % 64 < x0 + 8) ∧
            c.ram (c.I + i + (k / 64 - Y)) &&& (1 <<< (7 - (k % 64 - x0))) ≠ 0 ∧
            c.display k ≠ 0) → c'.V 0xF = 1) ∧
        ((¬ ∃ k, (Y ≤ k / 64 ∧ k / 64 < Y + r ∧ k / 64 < 32 ∧ x0 ≤ k % 64 ∧ k % 64 < x0 + 8) ∧
            c.ram (c.I + i + (k / 64 - Y)) &&& (1 <<< (7 - (k % 64 - x0))) ≠ 0 ∧
            c.display k ≠ 0) → c'.V 0xF = c.V 0xF) := by
  intro r
  induction r with
  | zero =>
    intro i Y c hY _
    refine ⟨c, rfl, draw_frame_refl c, ?_, ?_, ?_⟩
    · intro k; constructor
      · intro h; omega
      · intro _; rfl
    · rintro ⟨k, h, _⟩; omega
    · intro _; rfl
  | succ r ih =>
    intro i Y c hY hmem
    have hm0 : c.I + i < RAM_SIZE := by have := hmem 0 (by omega) (by omega); omega
    rw [draw_sprite_succ x0 r i Y c hY hm0]
    obtain ⟨c1, hok1, hfr1, hdisp1, hset1, hkeep1⟩ :=
      draw_row_spec (c.ram (c.I + i)) Y hY 8 x0 c hx0
    rw [hok1]
    simp only
    have hram1 : c1.ram = c.ram := hfr1.2.1
    have hI1 : c1.I = c.I := hfr1.2.2.2.2.2.1
    by_cases hedge : Y + 1 ≥ 32
    · rw [if_pos hedge]
      refine ⟨c1, rfl, hfr1, ?_, ?_, ?_⟩
      · intro k; constructor
        · intro h
          have e1 : k / 64 - Y = 0 := by omega
          rw [(hdisp1 k).1 (by omega), e1]; rfl
        · intro h
          exact (hdisp1 k).2 (by omega)
      · rintro ⟨k, h, hb, hd⟩
        have e1 : k / 64 - Y = 0 := by omega
        rw [e1] at hb
        exact hset1 ⟨k, by omega, hb, hd⟩
      · intro hne
        apply hkeep1
        rintro ⟨k, h, hb, hd⟩
        exact hne ⟨k, by omega, by
          have e1 : k / 64 - Y = 0 := by omega
          rw [e1]; exact hb, hd⟩
    · rw [if_neg hedge]
      obtain ⟨c', hok, hfr, hdisp, hset, hkeep⟩ := ih (i + 1) (Y + 1) c1 (by omega) (by
        intro t ht hyt
        have := hmem (t + 1) (by omega) (by omega)
        rw [hI1]; omega)
      rw [hram1, hI1] at hdisp hset hkeep
      refine ⟨c', hok, draw_frame_trans hfr1 hfr, ?_, ?_, ?_⟩
      · intro k; constructor
        · intro h
          by_cases hrow : k / 64 = Y
          · have e1 : k / 64 - Y = 0 := by omega
            rw [(hdisp k).2 (by omega), (hdisp1 k).1 (by omega), e1]; rfl
          · have e1 : c.I + (i + 1) + (k / 64 - (Y + 1)) = c.I + i + (k / 64 - Y) := by omega
            rw [(hdisp k).1 (by omega), (hdisp1 k).2 (by omega), e1]
        · intro h
          rw [(hdisp k).2 (by omega), (hdisp1 k).2 (by omega)]
      · rintro ⟨k, h, hb, hd⟩
        by_cases hrow : k / 64 = Y
        · have e1 : k / 64 - Y = 0 := by omega
          rw [e1] at hb
          have hp : c1.V 0xF = 1 := hset1 ⟨k, by omega, hb, hd⟩
          by_cases hex : ∃ k, (Y + 1 ≤ k / 64 ∧ k / 64 < Y + 1 + r ∧ k / 64 < 32 ∧
              x0 ≤ k % 64 ∧ k % 64 < x0 + 8) ∧
              c.ram (c.I + (i + 1) + (k / 64 - (Y + 1))) &&& (1 <<< (7 - (k % 64 - x0))) ≠ 0 ∧
              c1.display k ≠ 0
          · exact hset hex
          · rw [hkeep hex, hp]
        · have e1 : c.I + i + (k / 64 - Y) = c.I + (i + 1) + (k / 64 - (Y + 1)) := by omega
          rw [e1] at hb
          refine hset ⟨k, by omega, hb, ?_⟩
          rw [(hdisp1 k).2 (by omega)]; exact hd
      · intro hne
        have hex : ¬ ∃ k, (Y + 1 ≤ k / 64 ∧ k / 64 < Y + 1 + r ∧ k / 64 < 32 ∧
              x0 ≤ k % 64 ∧ k % 64 < x0 + 8) ∧
              c.ram (c.I + (i + 1) + (k / 64 - (Y + 1))) &&& (1 <<< (7 - (k % 64 - x0))) ≠ 0 ∧
              c1.display k ≠ 0 := by
          rintro ⟨k, h, hb, hd⟩
          have e1 : c.I + (i + 1) + (k / 64 - (Y + 1)) = c.I + i + (k / 64 - Y) := by omega
          rw [e1] at hb
          rw [(hdisp1 k).2 (by omega)] at hd
          exact hne ⟨k, by omega, hb, hd⟩
        rw [hkeep hex]
        apply hkeep1
        rintro ⟨k, h, hb, hd⟩
        exact hne ⟨k, by omega, by
          have e1 : k / 64 - Y = 0 := by omega
          rw [e1]; exact hb, hd⟩


/-- The sprite loop when one of the rows it reads lies outside memory: the read
is the only fault. -/
theorem draw_sprite_fault (x0 : Nat) (hx0 : x0 < 64) :
    ∀ (r i Y : Nat) (c : chip8_t), Y < 32 →
      (∃ t, t < r ∧ Y + t < 32 ∧ ¬ c.I + i + t < RAM_SIZE) →
      draw_sprite x0 r i Y c = .error .ram_out_of_bounds := by
  intro r
  induction r with
  | zero => rintro i Y c _ ⟨t, ht, _⟩; omega
  | succ r ih =>
    rintro i Y c hY ⟨t, ht, hyt, hbad⟩
    by_cases hm0 : c.I + i < RAM_SIZE
    · rw [draw_sprite_succ x0 r i Y c hY hm0]
      obtain ⟨c1, hok1, hfr1, -⟩ := draw_row_spec (c.ram (c.I + i)) Y hY 8 x0 c hx0
      rw [hok1]
      simp only
      have hI1 : c1.I = c.I := hfr1.2.2.2.2.2.1
      have ht0 : t ≠ 0 := by rintro rfl; exact hbad (by omega)
      rw [if_neg (by omega)]
      exact ih (i + 1) (Y + 1) c1 (by omega) ⟨t - 1, by omega, by omega, by rw [hI1]; omega⟩
    · simp [draw_sprite, hm0]

theorem bit_set_iff (sd j : Nat) : sd &&& (1 <<< j) ≠ 0 ↔ sd.testBit j = true := by
  rw [Nat.one_shiftLeft, Nat.and_two_pow]
  cases sd.testBit j <;> simp

theorem emulate_group_D (s : chip8_t) (rnd : Nat) (hpc : s.PC + 1 < RAM_SIZE)
    (hop : fetch_opcode s / 4096 % 16 = 0xD) :
    emulate_instruction s rnd =
      exec_D { s with PC := (s.PC + 2) % 65536, inst := decode (fetch_opcode s) } := by
  simp [emulate_instruction, hpc, dispatch_nibble, decode_opcode, hop]

/-- The cycle on DXYN is the sprite loop run on the fetched machine with VF reset. -/
theorem emulate_DXYN (s : chip8_t) (rnd X Y N : Nat) (hpc : s.PC + 1 < RAM_SIZE)
    (hX : X < 16) (hY : Y < 16) (hN : N < 16)
    (hop : fetch_opcode s = 0xD000 + X * 256 + Y * 16 + N) :
    emulate_instruction s rnd =
      draw_sprite (s.V X % 64) N 0 (s.V Y % 32)
        { s with PC := (s.PC + 2) % 65536, inst := decode (fetch_opcode s),
                 V := set_at s.V 0xF 0 } := by
  have hNd : fetch_opcode s % 16 = N := by omega
  have hXd : fetch_opcode s / 256 % 16 = X := by omega
  have hYd : fetch_opcode s / 16 % 16 = Y := by omega
  rw [emulate_group_D s rnd hpc (by omega)]
  simp only [exec_D, decode_N, decode_X, decode_Y, hNd, hXd, hYd, WINDOW_WIDTH, WINDOW_HEIGHT]

/-- The cycle on DXYN when the sprite rows it reads lie inside memory, in terms of
the state before the cycle; `k` is a framebuffer index, row `k / 64`, column `k % 64`. -/
theorem DXYN_defined (s : chip8_t) (rnd X Y N x0 y0 : Nat) (hpc : s.PC + 1 < RAM_SIZE)
    (hX : X < 16) (hY : Y < 16) (hN : N < 16)
    (hop : fetch_opcode s = 0xD000 + X * 256 + Y * 16 + N)
    (hx0 : x0 = s.V X % 64) (hy0 : y0 = s.V Y % 32)
    (hmem : ∀ t, t < N → y0 + t < 32 → s.I + t < RAM_SIZE) :
    ∃ s', emulate_instruction s rnd = .ok s' ∧
      s'.ram = s.ram ∧ s'.I = s.I ∧ (∀ i, i ≠ 0xF → s'.V i = s.V i) ∧
      (∀ k,
        ((y0 ≤ k / 64 ∧ k / 64 < y0 + N ∧ k / 64 < 32 ∧ x0 ≤ k % 64 ∧ k % 64 < x0 + 8) →
          s'.display k = (s.display k ^^^
            (s.ram (s.I + (k / 64 - y0)) &&& (1 <<< (7 - (k % 64 - x0))))) % 256) ∧
        (¬ (y0 ≤ k / 64 ∧ k / 64 < y0 + N ∧ k / 64 < 32 ∧ x0 ≤ k % 64 ∧ k % 64 < x0 + 8) →
          s'.display k = s.display k)) ∧
      ((∃ k, (y0 ≤ k / 64 ∧ k / 64 < y0 + N ∧ k / 64 < 32 ∧ x0 ≤ k % 64 ∧ k % 64 < x0 + 8) ∧
          (s.ram (s.I + (k / 64 - y0))).testBit (7 - (k % 64 - x0)) = true ∧
          s.display k ≠ 0) → s'.V 0xF = 1) ∧
      ((¬ ∃ k, (y0 ≤ k / 64 ∧ k / 64 < y0 + N ∧ k / 64 < 32 ∧ x0 ≤ k % 64 ∧ k % 64 < x0 + 8) ∧
          (s.ram (s.I + (k / 64 - y0))).testBit (7 - (k % 64 - x0)) = true ∧
          s.display k ≠ 0) → s'.V 0xF = 0) := by
  subst hx0 hy0
  rw [emulate_DXYN s rnd X Y N hpc hX hY hN hop]
  obtain ⟨s', hok, hfr, hdisp, hset, hkeep⟩ :=
    draw_sprite_spec (s.V X % 64) (by omega) N 0 (s.V Y % 32)
      { s with PC := (s.PC + 2) % 65536, inst := decode (fetch_opcode s),
               V := set_at s.V 0xF 0 } (by omega) (by
        intro t ht hyt
        have := hmem t ht hyt
        simpa using this)
  simp only [Nat.add_zero, bit_set_iff] at hdisp hset hkeep
  refine ⟨s', hok, hfr.2.1, hfr.2.2.2.2.2.1, ?_, hdisp, hset, ?_⟩
  · intro i hi
    rw [hfr.2.2.2.2.1 i hi]
    simp [set_at, hi]
  · intro hne
    rw [hkeep hne]
    simp [set_at]

/-- The cycle on DXYN when a sprite row it reads lies outside memory. -/
theorem DXYN_fault (s : chip8_t) (rnd X Y N y0 : Nat) (hpc : s.PC + 1 < RAM_SIZE)
    (hX : X < 16) (hY : Y < 16) (hN : N < 16)
    (hop : fetch_opcode s = 0xD000 + X * 256 + Y * 16 + N)
    (hy0 : y0 = s.V Y % 32)
    (hmem : ¬ ∀ t, t < N → y0 + t < 32 → s.I + t < RAM_SIZE) :
    emulate_instruction s rnd = .error .ram_out_of_bounds := by
  subst hy0
  rw [emulate_DXYN s rnd X Y N hpc hX hY hN hop]
  push_neg at hmem
  obtain ⟨t, ht, hyt, hbad⟩ := hmem
  exact draw_sprite_fault (s.V X % 64) (by omega) N 0 (s.V Y % 32) _ (by omega)
    ⟨t, ht, hyt, by simpa using hbad⟩


/-! ## C2, C9, C10: DXYN -/

/-- C9: for every machine state and every DXYN whose sprite rows memory[I..I+N) lie
inside memory, the cycle ends with VF = 1 if some pixel (x, y) of the clipped
sprite region, x0 <= x < min(x0+8, 64), y0 <= y < min(y0+N, 32), has its sprite
bit 7-(x-x0) of memory[I+(y-y0)] set and was on (non-zero) before the draw, and
with VF = 0 otherwise; x0 = VX mod 64, y0 = VY mod 32. -/
theorem C9_collision_flag (s : chip8_t) (rnd X Y N x0 y0 : Nat) (hpc : s.PC + 1 < RAM_SIZE)
    (hX : X < 16) (hY : Y < 16) (hN : N < 16)
    (hop : fetch_opcode s = 0xD000 + X * 256 + Y * 16 + N)
    (hx0 : x0 = s.V X % 64) (hy0 : y0 = s.V Y % 32)
    (hmem : s.I + N ≤ RAM_SIZE) :
    ∃ s', emulate_instruction s rnd = .ok s' ∧
      ((∃ x y, x0 ≤ x ∧ x < min (x0 + 8) 64 ∧ y0 ≤ y ∧ y < min (y0 + N) 32 ∧
          (s.ram (s.I + (y - y0))).testBit (7 - (x - x0)) = true ∧
          s.display (y * 64 + x) ≠ 0) → s'.V 0xF = 1) ∧
      ((¬ ∃ x y, x0 ≤ x ∧ x < min (x0 + 8) 64 ∧ y0 ≤ y ∧ y < min (y0 + N) 32 ∧
          (s.ram (s.I + (y - y0))).testBit (7 - (x - x0)) = true ∧
          s.display (y * 64 + x) ≠ 0) → s'.V 0xF = 0) := by
  obtain ⟨s', hok, -, -, -, -, hset, hclear⟩ :=
    DXYN_defined s rnd X Y N x0 y0 hpc hX hY hN hop hx0 hy0 (by intro t ht _; omega)
  refine ⟨s', hok, ?_, ?_⟩
  · rintro ⟨x, y, hx1, hx2, hy1, hy2, hbit, hon⟩
    have e1 : (y * 64 + x) / 64 = y := by omega
    have e2 : (y * 64 + x) % 64 = x := by omega
    exact hset ⟨y * 64 + x, by omega, by rw [e1, e2]; exact hbit, hon⟩
  · intro hne
    apply hclear
    rintro ⟨k, hc, hbit, hon⟩
    have e : k / 64 * 64 + k % 64 = k := by omega
    exact hne ⟨k % 64, k / 64, by omega, by omega, by omega, by omega, hbit, by rw [e]; exact hon⟩

/-- C10: for every machine state and every DXYN, with x0 = VX mod 64 and
y0 = VY mod 32.  The cycle returns a state exactly when the sprite rows it reads
(rows t < N with y0 + t < 32) lie inside memory, and its only possible fault is
that read: no framebuffer index outside 0..2047 is ever used.  Whenever it
returns, every framebuffer cell (x, y) outside the rectangle
x0 <= x < min(x0+8, 64), y0 <= y < min(y0+N, 32) is unchanged, every cell index
from 2048 on is unchanged, and memory, I and the registers other than VF are
unchanged. -/
theorem C10_draw_clipped_frame (s : chip8_t) (rnd X Y N x0 y0 : Nat)
    (hpc : s.PC + 1 < RAM_SIZE) (hX : X < 16) (hY : Y < 16) (hN : N < 16)
    (hop : fetch_opcode s = 0xD000 + X * 256 + Y * 16 + N)
    (hx0 : x0 = s.V X % 64) (hy0 : y0 = s.V Y % 32) :
    ((∃ s', emulate_instruction s rnd = .ok s') ↔
      (∀ t, t < N → y0 + t < 32 → s.I + t < RAM_SIZE)) ∧
    (∀ e, emulate_instruction s rnd = .error e → e = .ram_out_of_bounds) ∧
    (∀ s', emulate_instruction s rnd = .ok s' →
      (∀ x y, x < 64 → y < 32 →
        ¬ (x0 ≤ x ∧ x < min (x0 + 8) 64 ∧ y0 ≤ y ∧ y < min (y0 + N) 32) →
        s'.display (y * 64 + x) = s.display (y * 64 + x)) ∧
      (∀ k, DISPLAY_SIZE ≤ k → s'.display k = s.display k) ∧
      s'.ram = s.ram ∧ s'.I = s.I ∧ (∀ i, i ≠ 0xF → s'.V i = s.V i)) := by
  have hD : DISPLAY_SIZE = 2048 := rfl
  by_cases hmem : ∀ t, t < N → y0 + t < 32 → s.I + t < RAM_SIZE
  · obtain ⟨s1, hok, hram, hI, hV, hdisp, -, -⟩ :=
      DXYN_defined s rnd X Y N x0 y0 hpc hX hY hN hop hx0 hy0 hmem
    refine ⟨⟨fun _ => hmem, fun _ => ⟨s1, hok⟩⟩, ?_, ?_⟩
    · intro e he; rw [hok] at he; cases he
    · intro s' hs'
      rw [hok] at hs'
      injection hs' with hs'
      subst hs'
      refine ⟨?_, ?_, hram, hI, hV⟩
      · intro x y hx hy hout
        have e1 : (y * 64 + x) / 64 = y := by omega
        have e2 : (y * 64 + x) % 64 = x := by omega
        exact (hdisp (y * 64 + x)).2 (by rw [e1, e2]; omega)
      · intro k hk
        exact (hdisp k).2 (by omega)
  · have herr := DXYN_fault s rnd X Y N y0 hpc hX hY hN hop hy0 hmem
    refine ⟨⟨?_, fun h => absurd h hmem⟩, ?_, ?_⟩
    · rintro ⟨s', hs'⟩; rw [herr] at hs'; cases hs'
    · intro e he; rw [herr] at he; injection he with he; exact he.symm
    · intro s' hs'; rw [herr] at hs'; cases hs'


/-- C2, the code at a failing input: ROM `A20A 6001 D011 D111 0000 C0` on a fresh
machine.  After three cycles pixel (1, 0) is on (cell value 128) and `D111` is
next, with x0 = 0, y0 = 0 and bit 7-(1-0) = 6 of memory[I] set.  The pixel was on
and its sprite bit is set, so it should end off; the cycle leaves the cell at 192,
which is on: the cell is XORed with the masked bit 64, not with 0 or 1. -/
theorem C2_pixel_not_toggled :
    ∃ s3 s4, run_cycles 3 (machine_with_rom overlap_rom) (fun _ => 0) = .ok s3 ∧
      fetch_opcode s3 = 0xD111 ∧ s3.V 1 % 64 = 0 ∧ s3.V 1 % 32 = 0 ∧ s3.I + 1 ≤ RAM_SIZE ∧
      s3.display (0 * 64 + 1) = 128 ∧ (s3.ram (s3.I + (0 - 0))).testBit (7 - (1 - 0)) = true ∧
      emulate_instruction s3 0 = .ok s4 ∧ s4.display (0 * 64 + 1) = 192 :=
  ⟨_, _, rfl, by decide, by decide, by decide, by decide, by decide, by decide, rfl, by decide⟩

/-- C9, witness: the second draw of ROM `D005 D005` (glyph 0 already on screen). -/
theorem C9_collision_flag_witness :
    glyph_redraw_state.PC + 1 < RAM_SIZE ∧
    fetch_opcode glyph_redraw_state = 0xD000 + 0 * 256 + 0 * 16 + 5 ∧
    0 = glyph_redraw_state.V 0 % 64 ∧ 0 = glyph_redraw_state.V 0 % 32 ∧
    glyph_redraw_state.I + 5 ≤ RAM_SIZE ∧
    ∃ s', emulate_instruction glyph_redraw_state 0 = .ok s' ∧
      ((∃ x y, 0 ≤ x ∧ x < min (0 + 8) 64 ∧ 0 ≤ y ∧ y < min (0 + 5) 32 ∧
          (glyph_redraw_state.ram (glyph_redraw_state.I + (y - 0))).testBit (7 - (x - 0)) = true ∧
          glyph_redraw_state.display (y * 64 + x) ≠ 0) → s'.V 0xF = 1) ∧
      ((¬ ∃ x y, 0 ≤ x ∧ x < min (0 + 8) 64 ∧ 0 ≤ y ∧ y < min (0 + 5) 32 ∧
          (glyph_redraw_state.ram (glyph_redraw_state.I + (y - 0))).testBit (7 - (x - 0)) = true ∧
          glyph_redraw_state.display (y * 64 + x) ≠ 0) → s'.V 0xF = 0) :=
  ⟨by decide, by decide, by decide, by decide, by decide,
    C9_collision_flag glyph_redraw_state 0 0 0 5 0 0 (by decide) (by decide) (by decide)
      (by decide) (by decide) (by decide) (by decide) (by decide)⟩

/-- C10, witness: ROM `D005` on a fresh machine. -/
theorem C10_draw_clipped_frame_witness :
    glyph_draw_state.PC + 1 < RAM_SIZE ∧
    fetch_opcode glyph_draw_state = 0xD000 + 0 * 256 + 0 * 16 + 5 ∧
    0 = glyph_draw_state.V 0 % 64 ∧ 0 = glyph_draw_state.V 0 % 32 ∧
    ((∃ s', emulate_instruction glyph_draw_state 0 = .ok s') ↔
      (∀ t, t < 5 → 0 + t < 32 → glyph_draw_state.I + t < RAM_SIZE)) ∧
    (∀ e, emulate_instruction glyph_draw_state 0 = .error e → e = .ram_out_of_bounds) ∧
    (∀ s', emulate_instruction glyph_draw_state 0 = .ok s' →
      (∀ x y, x < 64 → y < 32 →
        ¬ (0 ≤ x ∧ x < min (0 + 8) 64 ∧ 0 ≤ y ∧ y < min (0 + 5) 32) →
        s'.display (y * 64 + x) = glyph_draw_state.display (y * 64 + x)) ∧
      (∀ k, DISPLAY_SIZE ≤ k → s'.display k = glyph_draw_state.display k) ∧
      s'.ram = glyph_draw_state.ram ∧ s'.I = glyph_draw_state.I ∧
      (∀ i, i ≠ 0xF → s'.V i = glyph_draw_state.V i)) :=
  ⟨by decide, by decide, by decide, by decide,
    C10_draw_clipped_frame glyph_draw_state 0 0 0 5 0 0 (by decide) (by decide) (by decide)
      (by decide) (by decide) (by decide) (by decide)⟩

/-! ## What no cycle writes -/

theorem draw_sprite_frame_of_ok (x0 r i Y : Nat) (c c' : chip8_t) (hx0 : x0 < 64)
    (hY : Y < 32) (h : draw_sprite x0 r i Y c = .ok c') : draw_frame c c' := by
  by_cases hmem : ∀ t, t < r → Y + t < 32 → c.I + i + t < RAM_SIZE
  · obtain ⟨c1, hok, hfr, -⟩ := draw_sprite_spec x0 hx0 r i Y c hY hmem
    rw [hok] at h
    injection h with h
    subst h
    exact hfr
  · push_neg at hmem
    obtain ⟨t, ht, hyt, hbad⟩ := hmem
    rw [draw_sprite_fault x0 hx0 r i Y c hY ⟨t, ht, hyt, by omega⟩] at h
    cases h

theorem same_controller_refl (c : chip8_t) : same_controller c c := ⟨rfl, rfl, rfl⟩

theorem reg_dump_controller : ∀ (n i : Nat) (c c' : chip8_t), reg_dump n i c = .ok c' →
    same_controller c c' := by
  intro n
  induction n with
  | zero => intro i c c' h; simp only [reg_dump] at h; cases h; exact same_controller_refl c
  | succ n ih =>
    intro i c c' h
    simp only [reg_dump] at h
    split_ifs at h
    have := ih _ _ _ h
    exact this

theorem reg_load_controller : ∀ (n i : Nat) (c c' : chip8_t), reg_load n i c = .ok c' →
    same_controller c c' := by
  intro n
  induction n with
  | zero => intro i c c' h; simp only [reg_load] at h; cases h; exact same_controller_refl c
  | succ n ih =>
    intro i c c' h
    simp only [reg_load] at h
    split_ifs at h
    have := ih _ _ _ h
    exact this

theorem exec_0_controller (c c' : chip8_t) (h : exec_0 c = .ok c') : same_controller c c' := by
  unfold exec_0 at h
  split_ifs at h <;> (cases h; exact ⟨rfl, rfl, rfl⟩)

theorem exec_2_controller (c c' : chip8_t) (h : exec_2 c = .ok c') : same_controller c c' := by
  unfold exec_2 at h
  split_ifs at h
  cases h; exact ⟨rfl, rfl, rfl⟩

theorem exec_8_controller (c c' : chip8_t) (h : exec_8 c = .ok c') : same_controller c c' := by
  have key : ∃ V, exec_8 c = .ok { c with V := V } := by
    unfold exec_8
    simp only
    by_cases h0 : c.inst.N = 0
    · rw [if_pos h0]; exact ⟨_, rfl⟩
    rw [if_neg h0]
    by_cases h1 : c.inst.N = 1
    · rw [if_pos h1]; exact ⟨_, rfl⟩
    rw [if_neg h1]
    by_cases h2 : c.inst.N = 2
    · rw [if_pos h2]; exact ⟨_, rfl⟩
    rw [if_neg h2]
    by_cases h3 : c.inst.N = 3
    · rw [if_pos h3]; exact ⟨_, rfl⟩
    rw [if_neg h3]
    by_cases h4 : c.inst.N = 4
    · rw [if_pos h4]; exact ⟨_, rfl⟩
    rw [if_neg h4]
    by_cases h5 : c.inst.N = 5
    · rw [if_pos h5]; exact ⟨_, rfl⟩
    rw [if_neg h5]
    by_cases h6 : c.inst.N = 6
    · rw [if_pos h6]; exact ⟨_, rfl⟩
    rw [if_neg h6]
    by_cases h7 : c.inst.N = 7
    · rw [if_pos h7]; exact ⟨_, rfl⟩
    rw [if_neg h7]
    by_cases hE : c.inst.N = 0xE
    · rw [if_pos hE]; exact ⟨_, rfl⟩
    rw [if_neg hE]
    exact ⟨c.V, rfl⟩
  obtain ⟨V, hV⟩ := key
  rw [hV] at h
  cases h
  exact ⟨rfl, rfl, rfl⟩

theorem exec_simple_controller (op : Nat) (c : chip8_t) (rnd : Nat) :
    same_controller c (exec_simple op c rnd) := by
  have key : ∃ V I PC, exec_simple op c rnd = { c with V := V, I := I, PC := PC } := by
    unfold exec_simple
    simp only
    by_cases h1 : op = 0x01
    · rw [if_pos h1]; exact ⟨_, _, _, rfl⟩
    rw [if_neg h1]
    by_cases h3 : op = 0x03
    · rw [if_pos h3]; split_ifs <;> exact ⟨_, _, _, rfl⟩
    rw [if_neg h3]
    by_cases h4 : op = 0x04
    · rw [if_pos h4]; split_ifs <;> exact ⟨_, _, _, rfl⟩
    rw [if_neg h4]
    by_cases h5 : op = 0x05
    · rw [if_pos h5]; split_ifs <;> exact ⟨_, _, _, rfl⟩
    rw [if_neg h5]
    by_cases h6 : op = 0x06
    · rw [if_pos h6]; exact ⟨_, _, _, rfl⟩
    rw [if_neg h6]
    by_cases h7 : op = 0x07
    · rw [if_pos h7]; exact ⟨_, _, _, rfl⟩
    rw [if_neg h7]
    by_cases h9 : op = 0x09
    · rw [if_pos h9]; split_ifs <;> exact ⟨_, _, _, rfl⟩
    rw [if_neg h9]
    by_cases hA : op = 0x0A
    · rw [if_pos hA]; exact ⟨_, _, _, rfl⟩
    rw [if_neg hA]
    by_cases hB : op = 0x0B
    · rw [if_pos hB]; exact ⟨_, _, _, rfl⟩
    rw [if_neg hB]
    by_cases hC : op = 0x0C
    · rw [if_pos hC]; exact ⟨_, _, _, rfl⟩
    rw [if_neg hC]
    exact ⟨c.V, c.I, c.PC, rfl⟩
  obtain ⟨V, I, PC, h⟩ := key
  rw [h]
  exact ⟨rfl, rfl, rfl⟩

theorem exec_D_controller (c c' : chip8_t) (h : exec_D c = .ok c') : same_controller c c' := by
  unfold exec_D at h
  have hfr := draw_sprite_frame_of_ok _ _ _ _ _ _
    (Nat.mod_lt _ (by decide)) (Nat.mod_lt _ (by decide)) h
  exact ⟨hfr.1, hfr.2.2.2.2.2.2.2.2.2.1, hfr.2.2.2.2.2.2.2.2.2.2.1⟩

theorem exec_E_controller (c c' : chip8_t) (h : exec_E c = .ok c') : same_controller c c' := by
  unfold exec_E at h
  split_ifs at h <;> (cases h; exact ⟨rfl, rfl, rfl⟩)

theorem exec_F_controller (c c' : chip8_t) (h : exec_F c = .ok c') : same_controller c c' := by
  unfold exec_F at h
  simp only at h
  by_cases h0A : c.inst.NN = 0x0A
  · rw [if_pos h0A] at h
    split at h <;> (cases h; exact ⟨rfl, rfl, rfl⟩)
  rw [if_neg h0A] at h
  by_cases h1E : c.inst.NN = 0x1E
  · rw [if_pos h1E] at h; cases h; exact ⟨rfl, rfl, rfl⟩
  rw [if_neg h1E] at h
  by_cases h07 : c.inst.NN = 0x07
  · rw [if_pos h07] at h; cases h; exact ⟨rfl, rfl, rfl⟩
  rw [if_neg h07] at h
  by_cases h15 : c.inst.NN = 0x15
  · rw [if_pos h15] at h; cases h; exact ⟨rfl, rfl, rfl⟩
  rw [if_neg h15] at h
  by_cases h18 : c.inst.NN = 0x18
  · rw [if_pos h18] at h; cases h; exact ⟨rfl, rfl, rfl⟩
  rw [if_neg h18] at h
  by_cases h29 : c.inst.NN = 0x29
  · rw [if_pos h29] at h; cases h; exact ⟨rfl, rfl, rfl⟩
  rw [if_neg h29] at h
  by_cases h33 : c.inst.NN = 0x33
  · rw [if_pos h33] at h
    split_ifs at h
    cases h; exact ⟨rfl, rfl, rfl⟩
  rw [if_neg h33] at h
  by_cases h55 : c.inst.NN = 0x55
  · rw [if_pos h55] at h; exact reg_dump_controller _ _ _ _ h
  rw [if_neg h55] at h
  by_cases h65 : c.inst.NN = 0x65
  · rw [if_pos h65] at h; exact reg_load_controller _ _ _ _ h
  rw [if_neg h65] at h
  cases h; exact ⟨rfl, rfl, rfl⟩

/-- No opcode writes the controller state, the keypad or the ROM name. -/
theorem emulate_instruction_controller (s s' : chip8_t) (rnd : Nat)
    (h : emulate_instruction s rnd = .ok s') : same_controller s s' := by
  unfold emulate_instruction at h
  simp only at h
  split_ifs at h
  · have := exec_0_controller _ _ h; exact this
  · have := exec_2_controller _ _ h; exact this
  · have := exec_8_controller _ _ h; exact this
  · have := exec_D_controller _ _ h; exact this
  · have := exec_E_controller _ _ h; exact this
  · have := exec_F_controller _ _ h; exact this
  · injection h with h
    subst h
    have := exec_simple_controller ((decode (fetch_opcode s)).opcode >>> 12 &&& 0x0F)
      { s with PC := (s.PC + 2) % 65536, inst := decode (fetch_opcode s) } rnd
    exact this

theorem update_timers_controller (c : chip8_t) : same_controller c (update_timers c) :=
  ⟨rfl, rfl, rfl⟩

/-! ## C8: a quit request during input draining -/

/-- Entered with the state QUIT, the loop ends at once. -/
theorem main_loop_quit (ips : Nat) (ticks : List (List SDL_Event × (Nat → Nat)))
    (c : chip8_t) (pending : List SDL_Event) (h : c.state = .QUIT) :
    main_loop ips ticks c pending = .ok (some c) := by
  cases ticks with
  | nil => simp [main_loop, h]
  | cons t ticks => obtain ⟨a, r⟩ := t; simp [main_loop, h]

/-- The opcodes outside the table that the code does skip: group 0 with a low byte
other than E0 and EE, 5XYN with N != 0, 8XYN with N in 8..D or F, EXNN with NN not
9E or A1, FXNN with NN outside the table.  The cycle only advances PC by 2 (and
records the decoded instruction). -/
theorem unlisted_opcode_skipped (s : chip8_t) (rnd : Nat) (hpc : s.PC + 1 < RAM_SIZE)
    (h : (fetch_opcode s / 4096 % 16 = 0 ∧ fetch_opcode s % 256 ≠ 0xE0 ∧
            fetch_opcode s % 256 ≠ 0xEE) ∨
         (fetch_opcode s / 4096 % 16 = 5 ∧ fetch_opcode s % 16 ≠ 0) ∨
         (fetch_opcode s / 4096 % 16 = 8 ∧ 8 ≤ fetch_opcode s % 16 ∧
            fetch_opcode s % 16 ≠ 0xE) ∨
         (fetch_opcode s / 4096 % 16 = 0xE ∧ fetch_opcode s % 256 ≠ 0x9E ∧
            fetch_opcode s % 256 ≠ 0xA1) ∨
         (fetch_opcode s / 4096 % 16 = 0xF ∧ fetch_opcode s % 256 ≠ 0x07 ∧
            fetch_opcode s % 256 ≠ 0x0A ∧ fetch_opcode s % 256 ≠ 0x15 ∧
            fetch_opcode s % 256 ≠ 0x18 ∧ fetch_opcode s % 256 ≠ 0x1E ∧
            fetch_opcode s % 256 ≠ 0x29 ∧ fetch_opcode s % 256 ≠ 0x33 ∧
            fetch_opcode s % 256 ≠ 0x55 ∧ fetch_opcode s % 256 ≠ 0x65)) :
    emulate_instruction s rnd =
      .ok { s with PC := s.PC + 2, inst := decode (fetch_opcode s) } := by
  have hR : RAM_SIZE = 4096 := rfl
  have hp : (s.PC + 2) % 65536 = s.PC + 2 := by omega
  rcases h with ⟨hg, h1, h2⟩ | ⟨hg, h1⟩ | ⟨hg, h1, h2⟩ | ⟨hg, h1, h2⟩ |
    ⟨hg, h1, h2, h3, h4, h5, h6, h7, h8, h9⟩
  · rw [emulate_group_0 s rnd hpc hg]
    simp [exec_0, decode_NN, h1, h2, hp]
  · simp [emulate_instruction, hpc, dispatch_nibble, decode_opcode, hg, exec_simple,
      decode_N, h1, hp]
  · rw [emulate_group_8 s rnd hpc hg]
    have e0 : fetch_opcode s % 16 ≠ 0 := by omega
    have e1 : fetch_opcode s % 16 ≠ 1 := by omega
    have e2 : fetch_opcode s % 16 ≠ 2 := by omega
    have e3 : fetch_opcode s % 16 ≠ 3 := by omega
    have e4 : fetch_opcode s % 16 ≠ 4 := by omega
    have e5 : fetch_opcode s % 16 ≠ 5 := by omega
    have e6 : fetch_opcode s % 16 ≠ 6 := by omega
    have e7 : fetch_opcode s % 16 ≠ 7 := by omega
    simp [exec_8, decode_N, e0, e1, e2, e3, e4, e5, e6, e7, h2, hp]
  · simp [emulate_instruction, hpc, dispatch_nibble, decode_opcode, hg, exec_E,
      decode_NN, h1, h2, hp]
  · simp [emulate_instruction, hpc, dispatch_nibble, decode_opcode, hg, exec_F,
      decode_NN, h1, h2, h3, h4, h5, h6, h7, h8, h9, hp]

/-! ## Dispatch lemmas for group F and the plain groups -/

theorem emulate_group_F (s : chip8_t) (rnd : Nat) (hpc : s.PC + 1 < RAM_SIZE)
    (hop : fetch_opcode s / 4096 % 16 = 0xF) :
    emulate_instruction s rnd =
      exec_F { s with PC := (s.PC + 2) % 65536, inst := decode (fetch_opcode s) } := by
  simp [emulate_instruction, hpc, dispatch_nibble, decode_opcode, hop]

/-- The cycle on an opcode of a group without a case function of its own. -/
theorem emulate_group_simple (s : chip8_t) (rnd : Nat) (hpc : s.PC + 1 < RAM_SIZE)
    (h0 : fetch_opcode s / 4096 % 16 ≠ 0) (h2 : fetch_opcode s / 4096 % 16 ≠ 2)
    (h8 : fetch_opcode s / 4096 % 16 ≠ 8) (hD : fetch_opcode s / 4096 % 16 ≠ 0xD)
    (hE : fetch_opcode s / 4096 % 16 ≠ 0xE) (hF : fetch_opcode s / 4096 % 16 ≠ 0xF) :
    emulate_instruction s rnd =
      .ok (exec_simple (fetch_opcode s / 4096 % 16)
        { s with PC := (s.PC + 2) % 65536, inst := decode (fetch_opcode s) } rnd) := by
  simp [emulate_instruction, hpc, dispatch_nibble, decode_opcode, h0, h2, h8, hD, hE, hF]

/-! ## C16: 6XNN and 7XNN -/

/-- C16: for every machine state and every register index X (0xF included), 6XNN
ends with VX = NN and 7XNN ends with VX = (VX + NN) mod 256 (VX before the cycle);
both advance PC by 2 and leave every other register (VF too when X is not 0xF),
memory, I, the stack, both timers and the framebuffer unchanged. -/
theorem C16_load_and_add_immediate (s : chip8_t) (rnd X NN : Nat)
    (hpc : s.PC + 1 < RAM_SIZE) (hX : X < 16) (hNN : NN < 256) :
    (fetch_opcode s = 0x6000 + X * 256 + NN →
      ∃ s', emulate_instruction s rnd = .ok s' ∧ s'.V X = NN ∧
        (∀ i, i ≠ X → s'.V i = s.V i) ∧ s'.PC = s.PC + 2 ∧
        s'.ram = s.ram ∧ s'.I = s.I ∧ s'.stack = s.stack ∧ s'.stack_ptr = s.stack_ptr ∧
        s'.delay_timer = s.delay_timer ∧ s'.sound_timer = s.sound_timer ∧
        s'.display = s.display) ∧
    (fetch_opcode s = 0x7000 + X * 256 + NN →
      ∃ s', emulate_instruction s rnd = .ok s' ∧ s'.V X = (s.V X + NN) % 256 ∧
        (∀ i, i ≠ X → s'.V i = s.V i) ∧ s'.PC = s.PC + 2 ∧
        s'.ram = s.ram ∧ s'.I = s.I ∧ s'.stack = s.stack ∧ s'.stack_ptr = s.stack_ptr ∧
        s'.delay_timer = s.delay_timer ∧ s'.sound_timer = s.sound_timer ∧
        s'.display = s.display) := by
  have hR : RAM_SIZE = 4096 := rfl
  have hp : (s.PC + 2) % 65536 = s.PC + 2 := by omega
  constructor
  · intro hop
    have hg : fetch_opcode s / 4096 % 16 = 6 := by omega
    have hXd : fetch_opcode s / 256 % 16 = X := by omega
    have hNd : fetch_opcode s % 256 = NN := by omega
    have heq : emulate_instruction s rnd = .ok
        { s with PC := s.PC + 2, inst := decode (fetch_opcode s), V := set_at s.V X NN } := by
      rw [emulate_group_simple s rnd hpc (by omega) (by omega) (by omega) (by omega)
        (by omega) (by omega), hg]
      simp [exec_simple, decode_X, decode_NN, hXd, hNd, hp]
    refine ⟨_, heq, set_at_same _ _ _, fun i hi => set_at_other _ _ _ _ hi,
      rfl, rfl, rfl, rfl, rfl, rfl, rfl, rfl⟩
  · intro hop
    have hg : fetch_opcode s / 4096 % 16 = 7 := by omega
    have hXd : fetch_opcode s / 256 % 16 = X := by omega
    have hNd : fetch_opcode s % 256 = NN := by omega
    have heq : emulate_instruction s rnd = .ok
        { s with PC := s.PC + 2, inst := decode (fetch_opcode s),
                 V := set_at s.V X ((s.V X + NN) % 256) } := by
      rw [emulate_group_simple s rnd hpc (by omega) (by omega) (by omega) (by omega)
        (by omega) (by omega), hg]
      simp [exec_simple, decode_X, decode_NN, hXd, hNd, hp]
    refine ⟨_, heq, set_at_same _ _ _, fun i hi => set_at_other _ _ _ _ hi,
      rfl, rfl, rfl, rfl, rfl, rfl, rfl, rfl⟩

/-- C16, witness: ROM `6005 7003 00EE` on a fresh machine: the first cycle gives
V0 = 0x05, the second V0 = 0x08. -/
theorem C16_load_and_add_immediate_witness :
    ((machine_with_rom underflow_rom).PC + 1 < RAM_SIZE ∧
      fetch_opcode (machine_with_rom underflow_rom) = 0x6000 + 0 * 256 + 5 ∧
      ∃ s', emulate_instruction (machine_with_rom underflow_rom) 0 = .ok s' ∧ s'.V 0 = 5 ∧
        (∀ i, i ≠ 0 → s'.V i = (machine_with_rom underflow_rom).V i) ∧
        s'.PC = (machine_with_rom underflow_rom).PC + 2 ∧
        s'.ram = (machine_with_rom underflow_rom).ram ∧
        s'.I = (machine_with_rom underflow_rom).I ∧
        s'.stack = (machine_with_rom underflow_rom).stack ∧
        s'.stack_ptr = (machine_with_rom underflow_rom).stack_ptr ∧
        s'.delay_timer = (machine_with_rom underflow_rom).delay_timer ∧
        s'.sound_timer = (machine_with_rom underflow_rom).sound_timer ∧
        s'.display = (machine_with_rom underflow_rom).display) ∧
    ((after_cycle (machine_with_rom underflow_rom) 0).PC + 1 < RAM_SIZE ∧
      fetch_opcode (after_cycle (machine_with_rom underflow_rom) 0) = 0x7000 + 0 * 256 + 3 ∧
      (after_cycle (machine_with_rom underflow_rom) 0).V 0 = 5 ∧
      (5 + 3) % 256 = 8 ∧
      ∃ s', emulate_instruction (after_cycle (machine_with_rom underflow_rom) 0) 0 = .ok s' ∧
        s'.V 0 = ((after_cycle (machine_with_rom underflow_rom) 0).V 0 + 3) % 256 ∧
        (∀ i, i ≠ 0 → s'.V i = (after_cycle (machine_with_rom underflow_rom) 0).V i) ∧
        s'.PC = (after_cycle (machine_with_rom underflow_rom) 0).PC + 2 ∧
        s'.ram = (after_cycle (machine_with_rom underflow_rom) 0).ram ∧
        s'.I = (after_cycle (machine_with_rom underflow_rom) 0).I ∧
        s'.stack = (after_cycle (machine_with_rom underflow_rom) 0).stack ∧
        s'.stack_ptr = (after_cycle (machine_with_rom underflow_rom) 0).stack_ptr ∧
        s'.delay_timer = (after_cycle (machine_with_rom underflow_rom) 0).delay_timer ∧
        s'.sound_timer = (after_cycle (machine_with_rom underflow_rom) 0).sound_timer ∧
        s'.display = (after_cycle (machine_with_rom underflow_rom) 0).display) :=
  ⟨⟨by decide, by decide,
      (C16_load_and_add_immediate (machine_with_rom underflow_rom) 0 0 5
        (by decide) (by decide) (by decide)).1 (by decide)⟩,
    ⟨by decide, by decide, by decide, by decide,
      (C16_load_and_add_immediate (after_cycle (machine_with_rom underflow_rom) 0) 0 0 3
        (by decide) (by decide) (by decide)).2 (by decide)⟩⟩

/-! ## C17: FX33 -/

/-- C17: for every machine state with I + 2 < 4096 and every register value VX (a
byte), FX33 writes memory[I] = VX div 100, memory[I+1] = (VX div 10) mod 10 and
memory[I+2] = VX mod 10, so that 100*memory[I] + 10*memory[I+1] + memory[I+2] = VX
and each of the three bytes is a decimal digit; no other memory byte, no
register and not I is changed. -/
theorem C17_bcd (s : chip8_t) (rnd X : Nat) (hpc : s.PC + 1 < RAM_SIZE) (hX : X < 16)
    (hop : fetch_opcode s = 0xF033 + X * 256) (hI : s.I + 2 < RAM_SIZE)
    (hVX : s.V X < 256) :
    ∃ s', emulate_instruction s rnd = .ok s' ∧
      s'.ram s.I = s.V X / 100 ∧ s'.ram (s.I + 1) = s.V X / 10 % 10 ∧
      s'.ram (s.I + 2) = s.V X % 10 ∧
      100 * s'.ram s.I + 10 * s'.ram (s.I + 1) + s'.ram (s.I + 2) = s.V X ∧
      s'.ram s.I < 10 ∧ s'.ram (s.I + 1) < 10 ∧ s'.ram (s.I + 2) < 10 ∧
      (∀ k, k ≠ s.I → k ≠ s.I + 1 → k ≠ s.I + 2 → s'.ram k = s.ram k) ∧
      s'.V = s.V ∧ s'.I = s.I := by
  have hg : fetch_opcode s / 4096 % 16 = 0xF := by omega
  have hXd : fetch_opcode s / 256 % 16 = X := by omega
  have hNd : fetch_opcode s % 256 = 0x33 := by omega
  have heq : emulate_instruction s rnd = .ok
      { s with PC := (s.PC + 2) % 65536, inst := decode (fetch_opcode s),
               ram := set_at (set_at (set_at s.ram (s.I + 2) (s.V X % 10))
                        (s.I + 1) (s.V X / 10 % 10)) s.I (s.V X / 10 / 10) } := by
    rw [emulate_group_F s rnd hpc hg]
    simp only [exec_F, decode_X, decode_NN, hXd, hNd]
    simp [hI]
  have e100 : s.V X / 10 / 10 = s.V X / 100 := by omega
  refine ⟨_, heq, ?_, ?_, ?_, ?_, ?_, ?_, ?_, ?_, rfl, rfl⟩
  · simp [set_at, e100]
  · simp [set_at]
  · simp [set_at]
  · simp only [set_at]; simp; omega
  · simp only [set_at]; simp; omega
  · simp only [set_at]; simp; omega
  · simp only [set_at]; simp; omega
  · intro k h0 h1 h2
    simp [set_at, h0, h1, h2]

/-- C17, witness: ROM `F033` with V0 = 234 and I = 0x300 writes 2, 3, 4. -/
theorem C17_bcd_witness :
    bcd_state.PC + 1 < RAM_SIZE ∧ fetch_opcode bcd_state = 0xF033 + 0 * 256 ∧
    bcd_state.I + 2 < RAM_SIZE ∧ bcd_state.V 0 < 256 ∧ bcd_state.V 0 = 234 ∧
    234 / 100 = 2 ∧ 234 / 10 % 10 = 3 ∧ 234 % 10 = 4 ∧
    ∃ s', emulate_instruction bcd_state 0 = .ok s' ∧
      s'.ram bcd_state.I = bcd_state.V 0 / 100 ∧
      s'.ram (bcd_state.I + 1) = bcd_state.V 0 / 10 % 10 ∧
      s'.ram (bcd_state.I + 2) = bcd_state.V 0 % 10 ∧
      100 * s'.ram bcd_state.I + 10 * s'.ram (bcd_state.I + 1) + s'.ram (bcd_state.I + 2) =
        bcd_state.V 0 ∧
      s'.ram bcd_state.I < 10 ∧ s'.ram (bcd_state.I + 1) < 10 ∧
      s'.ram (bcd_state.I + 2) < 10 ∧
      (∀ k, k ≠ bcd_state.I → k ≠ bcd_state.I + 1 → k ≠ bcd_state.I + 2 →
        s'.ram k = bcd_state.ram k) ∧
      s'.V = bcd_state.V ∧ s'.I = bcd_state.I :=
  ⟨by decide, by decide, by decide, by decide, by decide, by decide, by decide, by decide,
    C17_bcd bcd_state 0 0 (by decide) (by decide) (by decide) (by decide) (by decide)⟩

/-! ## C20: 8XY6 and 8XYE -/

/-- C20, counterexample.  ROM `8006` (Y = X = 0) with V0 = 3: VY is V0 and ends as 1,
not 3.  ROM `81FE` (Y = 0xF) with V1 = 0x81 and VF = 0: VY is VF and ends as 1,
not 0. -/
theorem C20_counterexample :
    (fetch_opcode shift_same_register_state = 0x8006 + 0 * 256 + 0 * 16 ∧
      shift_same_register_state.V 0 = 3 ∧
      ∃ s', emulate_instruction shift_same_register_state 0 = .ok s' ∧ s'.V 0 = 1) ∧
    (fetch_opcode shift_flag_register_state = 0x800E + 1 * 256 + 0xF * 16 ∧
      shift_flag_register_state.V 0xF = 0 ∧
      ∃ s', emulate_instruction shift_flag_register_state 0 = .ok s' ∧ s'.V 0xF = 1) :=
  ⟨⟨by decide, by decide, _, rfl, by decide⟩, ⟨by decide, by decide, _, rfl, by decide⟩⟩

/-- C20, amended: for every machine state, every X other than 0xF and every Y,
8XY6 ends with VF = bit 0 of the old VX and VX = old VX div 2, and 8XYE ends with
VF = bit 7 of the old VX and VX = (2 * old VX) mod 256; VY does not enter the
result, and every register other than VX and VF is unchanged (so VY is unchanged
when Y is neither X nor 0xF). -/
theorem C20_shift (s : chip8_t) (rnd X Y : Nat) (hpc : s.PC + 1 < RAM_SIZE)
    (hX : X < 16) (hY : Y < 16) (hXF : X ≠ 0xF) :
    (fetch_opcode s = 0x8006 + X * 256 + Y * 16 →
      ∃ s', emulate_instruction s rnd = .ok s' ∧
        s'.V 0xF = s.V X % 2 ∧ s'.V X = s.V X / 2 ∧
        (∀ i, i ≠ X → i ≠ 0xF → s'.V i = s.V i)) ∧
    (fetch_opcode s = 0x800E + X * 256 + Y * 16 →
      ∃ s', emulate_instruction s rnd = .ok s' ∧
        s'.V 0xF = s.V X / 128 % 2 ∧ s'.V X = (2 * s.V X) % 256 ∧
        (∀ i, i ≠ X → i ≠ 0xF → s'.V i = s.V i)) := by
  have land1 : ∀ v : Nat, v &&& 1 = v % 2 := fun v => Nat.and_pow_two_sub_one_eq_mod v 1
  have shr1 : ∀ v : Nat, v >>> 1 = v / 2 := fun v => Nat.shiftRight_eq_div_pow v 1
  have hi : ∀ v : Nat, (v &&& 0x80) >>> 7 = v / 128 % 2 := by
    intro v
    have h1 : v &&& 0x80 = (v.testBit 7).toNat * 2 ^ 7 := Nat.and_two_pow v 7
    rw [h1, Nat.shiftRight_eq_div_pow, Nat.testBit_to_div_mod]
    by_cases hb : v / 2 ^ 7 % 2 = 1
    · have : v / 128 % 2 = 1 := hb
      simp [hb, this]
    · have h0 : v / 2 ^ 7 % 2 = 0 := by omega
      have : v / 128 % 2 = 0 := h0
      simp [h0, this]
  have shl1 : ∀ v : Nat, v <<< 1 = 2 * v := by
    intro v; rw [Nat.shiftLeft_eq]; omega
  constructor
  · intro hop
    have hN : fetch_opcode s % 16 = 6 := by omega
    have hXd : fetch_opcode s / 256 % 16 = X := by omega
    rw [emulate_group_8 s rnd hpc (by omega)]
    simp only [exec_8, decode_N, decode_X, decode_Y, hN, hXd]
    simp [set_at, hXF, Ne.symm hXF, land1, shr1]
    intro i h1 h2
    simp [h1, h2]
  · intro hop
    have hN : fetch_opcode s % 16 = 0xE := by omega
    have hXd : fetch_opcode s / 256 % 16 = X := by omega
    rw [emulate_group_8 s rnd hpc (by omega)]
    simp only [exec_8, decode_N, decode_X, decode_Y, hN, hXd]
    simp [set_at, hXF, Ne.symm hXF, hi, shl1]
    intro i h1 h2
    simp [h1, h2]

/-- C20, witness: ROM `8016` with V0 = 0x85, V1 = 9 gives VF = 1, V0 = 0x42, V1 = 9. -/
theorem C20_shift_witness :
    shift_right_state.PC + 1 < RAM_SIZE ∧
    fetch_opcode shift_right_state = 0x8006 + 0 * 256 + 1 * 16 ∧
    shift_right_state.V 0 = 0x85 ∧ 0x85 % 2 = 1 ∧ 0x85 / 2 = 0x42 ∧
    ∃ s', emulate_instruction shift_right_state 0 = .ok s' ∧
      s'.V 0xF = shift_right_state.V 0 % 2 ∧ s'.V 0 = shift_right_state.V 0 / 2 ∧
      (∀ i, i ≠ 0 → i ≠ 0xF → s'.V i = shift_right_state.V i) :=
  ⟨by decide, by decide, by decide, by decide, by decide,
    (C20_shift shift_right_state 0 0 1 (by decide) (by decide) (by decide) (by decide)).1
      (by decide)⟩

/-! ## C18 and C19: FX55 and FX65 -/

/-- The register dump loop with `n` registers left from register `i`, when the
cells it writes lie inside memory: it returns, changes memory only, and stores
registers `i .. i+n-1` at `I+i .. I+i+n-1`. -/
theorem reg_dump_spec : ∀ (n i : Nat) (c : chip8_t),
    (∀ t, t < n → c.I + i + t < RAM_SIZE) →
    ∃ c', reg_dump n i c = .ok c' ∧ c' = { c with ram := c'.ram } ∧
      (∀ k, (c.I + i ≤ k ∧ k < c.I + i + n → c'.ram k = c.V (k - c.I)) ∧
            (¬ (c.I + i ≤ k ∧ k < c.I + i + n) → c'.ram k = c.ram k)) := by
  intro n
  induction n with
  | zero =>
    intro i c _
    refine ⟨c, rfl, rfl, fun k => ⟨fun h => by omega, fun _ => rfl⟩⟩
  | succ n ih =>
    intro i c hmem
    have h0 : c.I + i < RAM_SIZE := by have := hmem 0 (by omega); omega
    obtain ⟨c', hok, hfr, hram⟩ :=
      ih (i + 1) { c with ram := set_at c.ram (c.I + i) (c.V i) } (by
        intro t ht
        have := hmem (t + 1) (by omega)
        show c.I + (i + 1) + t < RAM_SIZE
        omega)
    refine ⟨c', by simp only [reg_dump, h0, not_true, if_false]; exact hok, ?_, ?_⟩
    · rw [hfr]
    · intro k
      have hk := hram k
      simp only at hk
      constructor
      · intro h
        by_cases hki : k = c.I + i
        · rw [hk.2 (by omega)]
          subst hki
          simp [set_at]
        · rw [hk.1 (by omega)]
      · intro h
        rw [hk.2 (by omega)]
        simp [set_at]
        intro hki; omega

/-- The register load loop with `n` registers left from register `i`, when the
cells it reads lie inside memory: it returns, changes registers only, and loads
registers `i .. i+n-1` from `I+i .. I+i+n-1`. -/
theorem reg_load_spec : ∀ (n i : Nat) (c : chip8_t),
    (∀ t, t < n → c.I + i + t < RAM_SIZE) →
    ∃ c', reg_load n i c = .ok c' ∧ c' = { c with V := c'.V } ∧
      (∀ k, (i ≤ k ∧ k < i + n → c'.V k = c.ram (c.I + k)) ∧
            (¬ (i ≤ k ∧ k < i + n) → c'.V k = c.V k)) := by
  intro n
  induction n with
  | zero =>
    intro i c _
    refine ⟨c, rfl, rfl, fun k => ⟨fun h => by omega, fun _ => rfl⟩⟩
  | succ n ih =>
    intro i c hmem
    have h0 : c.I + i < RAM_SIZE := by have := hmem 0 (by omega); omega
    obtain ⟨c', hok, hfr, hV⟩ :=
      ih (i + 1) { c with V := set_at c.V i (c.ram (c.I + i)) } (by
        intro t ht
        have := hmem (t + 1) (by omega)
        show c.I + (i + 1) + t < RAM_SIZE
        omega)
    refine ⟨c', by simp only [reg_load, h0, not_true, if_false]; exact hok, ?_, ?_⟩
    · rw [hfr]
    · intro k
      have hk := hV k
      simp only at hk
      constructor
      · intro h
        by_cases hki : k = i
        · rw [hk.2 (by omega)]
          subst hki
          simp [set_at]
        · rw [hk.1 (by omega)]
      · intro h
        rw [hk.2 (by omega)]
        simp [set_at]
        intro hki; omega

/-- The cycle on FX55 with I + X inside memory, in terms of memory cells `k`. -/
theorem FX55_cycle (s : chip8_t) (rnd X : Nat) (hpc : s.PC + 1 < RAM_SIZE) (hX : X < 16)
    (hop : fetch_opcode s = 0xF055 + X * 256) (hI : s.I + X < RAM_SIZE) :
    ∃ s', emulate_instruction s rnd = .ok s' ∧
      s' = { s with PC := (s.PC + 2) % 65536, inst := decode (fetch_opcode s),
                    ram := s'.ram } ∧
      (∀ k, (s.I ≤ k ∧ k < s.I + (X + 1) → s'.ram k = s.V (k - s.I)) ∧
            (¬ (s.I ≤ k ∧ k < s.I + (X + 1)) → s'.ram k = s.ram k)) := by
  have hg : fetch_opcode s / 4096 % 16 = 0xF := by omega
  have hXd : fetch_opcode s / 256 % 16 = X := by omega
  have hNd : fetch_opcode s % 256 = 0x55 := by omega
  obtain ⟨s', hok, hfr, hram⟩ := reg_dump_spec (X + 1) 0
    { s with PC := (s.PC + 2) % 65536, inst := decode (fetch_opcode s) } (by
      intro t ht
      show s.I + 0 + t < RAM_SIZE
      omega)
  simp only [Nat.add_zero] at hram
  refine ⟨s', ?_, hfr, hram⟩
  rw [emulate_group_F s rnd hpc hg]
  simp only [exec_F, decode_X, decode_NN, hXd, hNd]
  simpa using hok

/-- The cycle on FX65 with I + X inside memory, in terms of registers `k`. -/
theorem FX65_cycle (s : chip8_t) (rnd X : Nat) (hpc : s.PC + 1 < RAM_SIZE) (hX : X < 16)
    (hop : fetch_opcode s = 0xF065 + X * 256) (hI : s.I + X < RAM_SIZE) :
    ∃ s', emulate_instruction s rnd = .ok s' ∧
      s' = { s with PC := (s.PC + 2) % 65536, inst := decode (fetch_opcode s),
                    V := s'.V } ∧
      (∀ k, (k < X + 1 → s'.V k = s.ram (s.I + k)) ∧ (¬ k < X + 1 → s'.V k = s.V k)) := by
  have hg : fetch_opcode s / 4096 % 16 = 0xF := by omega
  have hXd : fetch_opcode s / 256 % 16 = X := by omega
  have hNd : fetch_opcode s % 256 = 0x65 := by omega
  obtain ⟨s', hok, hfr, hV⟩ := reg_load_spec (X + 1) 0
    { s with PC := (s.PC + 2) % 65536, inst := decode (fetch_opcode s) } (by
      intro t ht
      show s.I + 0 + t < RAM_SIZE
      omega)
  refine ⟨s', ?_, hfr, ?_⟩
  · rw [emulate_group_F s rnd hpc hg]
    simp only [exec_F, decode_X, decode_NN, hXd, hNd]
    simpa using hok
  · intro k
    have hk := hV k
    constructor
    · intro h; exact hk.1 (by omega)
    · intro h; exact hk.2 (by omega)

/-- C18: for every machine state with I + X < 4096, FX55 ends with
memory[I + i] = Vi for every i in 0..X inclusive, every memory byte outside
[I, I+X] unchanged, every register V0..VF unchanged and I unchanged. -/
theorem C18_register_dump (s : chip8_t) (rnd X : Nat) (hpc : s.PC + 1 < RAM_SIZE)
    (hX : X < 16) (hop : fetch_opcode s = 0xF055 + X * 256) (hI : s.I + X < RAM_SIZE) :
    ∃ s', emulate_instruction s rnd = .ok s' ∧
      (∀ i, i ≤ X → s'.ram (s.I + i) = s.V i) ∧
      (∀ k, ¬ (s.I ≤ k ∧ k ≤ s.I + X) → s'.ram k = s.ram k) ∧
      (∀ i, s'.V i = s.V i) ∧ s'.I = s.I := by
  obtain ⟨s', hok, hfr, hram⟩ := FX55_cycle s rnd X hpc hX hop hI
  refine ⟨s', hok, ?_, ?_, ?_, ?_⟩
  · intro i hi
    have e : s.I + i - s.I = i := by omega
    rw [(hram (s.I + i)).1 (by omega), e]
  · intro k hk
    exact (hram k).2 (by omega)
  · intro i; rw [hfr]
  · rw [hfr]

/-- C18, witness: ROM `F255 F265` with V0..V3 = 1, 2, 3, 4 and I = 0x300. -/
theorem C18_register_dump_witness :
    dump_load_state.PC + 1 < RAM_SIZE ∧ fetch_opcode dump_load_state = 0xF055 + 2 * 256 ∧
    dump_load_state.I + 2 < RAM_SIZE ∧
    ∃ s', emulate_instruction dump_load_state 0 = .ok s' ∧
      (∀ i, i ≤ 2 → s'.ram (dump_load_state.I + i) = dump_load_state.V i) ∧
      (∀ k, ¬ (dump_load_state.I ≤ k ∧ k ≤ dump_load_state.I + 2) →
        s'.ram k = dump_load_state.ram k) ∧
      (∀ i, s'.V i = dump_load_state.V i) ∧ s'.I = dump_load_state.I :=
  ⟨by decide, by decide, by decide,
    C18_register_dump dump_load_state 0 2 (by decide) (by decide) (by decide) (by decide)⟩

/-- C19: for every machine state with I + X < 4096, FX65 ends with
Vi = memory[I + i] for every i in 0..X inclusive, registers V(X+1)..VF
unchanged, memory unchanged and I unchanged.  Consequently, when FX55 is executed
and the next cycle executes FX65 with the same X, that second cycle leaves every
register as it was before the FX55. -/
theorem C19_register_load (s : chip8_t) (rnd X : Nat) (hpc : s.PC + 1 < RAM_SIZE)
    (hX : X < 16) (hI : s.I + X < RAM_SIZE) :
    (fetch_opcode s = 0xF065 + X * 256 →
      ∃ s', emulate_instruction s rnd = .ok s' ∧
        (∀ i, i ≤ X → s'.V i = s.ram (s.I + i)) ∧
        (∀ i, X < i → s'.V i = s.V i) ∧
        s'.ram = s.ram ∧ s'.I = s.I) ∧
    (fetch_opcode s = 0xF055 + X * 256 →
      ∃ s1, emulate_instruction s rnd = .ok s1 ∧
        ∀ r2, s1.PC + 1 < RAM_SIZE → fetch_opcode s1 = 0xF065 + X * 256 →
          ∃ s2, emulate_instruction s1 r2 = .ok s2 ∧ (∀ i, s2.V i = s.V i) ∧
            s2.I = s.I) := by
  constructor
  · intro hop
    obtain ⟨s', hok, hfr, hV⟩ := FX65_cycle s rnd X hpc hX hop hI
    refine ⟨s', hok, ?_, ?_, ?_, ?_⟩
    · intro i hi; exact (hV i).1 (by omega)
    · intro i hi; exact (hV i).2 (by omega)
    · rw [hfr]
    · rw [hfr]
  · intro hop
    obtain ⟨s1, hok1, hfr1, hram1⟩ := FX55_cycle s rnd X hpc hX hop hI
    have hI1 : s1.I = s.I := by rw [hfr1]
    have hV1 : s1.V = s.V := by rw [hfr1]
    refine ⟨s1, hok1, ?_⟩
    intro r2 hpc1 hop1
    obtain ⟨s2, hok2, hfr2, hV2⟩ := FX65_cycle s1 r2 X hpc1 hX hop1 (by rw [hI1]; exact hI)
    refine ⟨s2, hok2, ?_, ?_⟩
    · intro i
      by_cases hi : i < X + 1
      · have e : s.I + i - s.I = i := by omega
        rw [(hV2 i).1 hi, hI1, (hram1 (s.I + i)).1 (by omega), e]
      · rw [(hV2 i).2 hi, hV1]
    · rw [hfr2]; exact hI1

/-- C19, witness: ROM `F265` on a fresh machine with V3 = 7 loads V0..V2 from the
font; ROM `F255 F265` with V0..V3 = 1, 2, 3, 4 and I = 0x300 dumps, and the
machine after that cycle has `F265` next. -/
theorem C19_register_load_witness :
    (load_state.PC + 1 < RAM_SIZE ∧ load_state.I + 2 < RAM_SIZE ∧
      fetch_opcode load_state = 0xF065 + 2 * 256 ∧
      ∃ s', emulate_instruction load_state 0 = .ok s' ∧
        (∀ i, i ≤ 2 → s'.V i = load_state.ram (load_state.I + i)) ∧
        (∀ i, 2 < i → s'.V i = load_state.V i) ∧
        s'.ram = load_state.ram ∧ s'.I = load_state.I) ∧
    (dump_load_state.PC + 1 < RAM_SIZE ∧ dump_load_state.I + 2 < RAM_SIZE ∧
      fetch_opcode dump_load_state = 0xF055 + 2 * 256 ∧
      ∃ s1, emulate_instruction dump_load_state 0 = .ok s1 ∧
        ∀ r2, s1.PC + 1 < RAM_SIZE → fetch_opcode s1 = 0xF065 + 2 * 256 →
          ∃ s2, emulate_instruction s1 r2 = .ok s2 ∧
            (∀ i, s2.V i = dump_load_state.V i) ∧ s2.I = dump_load_state.I) ∧
    (after_cycle dump_load_state 0).PC + 1 < RAM_SIZE ∧
    fetch_opcode (after_cycle dump_load_state 0) = 0xF065 + 2 * 256 :=
  ⟨⟨by decide, by decide, by decide,
      (C19_register_load load_state 0 2 (by decide) (by decide) (by decide)).1 (by decide)⟩,
    ⟨by decide, by decide, by decide,
      (C19_register_load dump_load_state 0 2 (by decide) (by decide) (by decide)).2
        (by decide)⟩,
    by decide, by decide⟩

/-! ## What a cycle writes to memory -/

/-- Group 8 writes registers only. -/
theorem exec_8_writes (c : chip8_t) : ∃ V, exec_8 c = .ok { c with V := V } := by
  unfold exec_8
  simp only
  by_cases h0 : c.inst.N = 0
  · rw [if_pos h0]; exact ⟨_, rfl⟩
  rw [if_neg h0]
  by_cases h1 : c.inst.N = 1
  · rw [if_pos h1]; exact ⟨_, rfl⟩
  rw [if_neg h1]
  by_cases h2 : c.inst.N = 2
  · rw [if_pos h2]; exact ⟨_, rfl⟩
  rw [if_neg h2]
  by_cases h3 : c.inst.N = 3
  · rw [if_pos h3]; exact ⟨_, rfl⟩
  rw [if_neg h3]
  by_cases h4 : c.inst.N = 4
  · rw [if_pos h4]; exact ⟨_, rfl⟩
  rw [if_neg h4]
  by_cases h5 : c.inst.N = 5
  · rw [if_pos h5]; exact ⟨_, rfl⟩
  rw [if_neg h5]
  by_cases h6 : c.inst.N = 6
  · rw [if_pos h6]; exact ⟨_, rfl⟩
  rw [if_neg h6]
  by_cases h7 : c.inst.N = 7
  · rw [if_pos h7]; exact ⟨_, rfl⟩
  rw [if_neg h7]
  by_cases hE : c.inst.N = 0xE
  · rw [if_pos hE]; exact ⟨_, rfl⟩
  rw [if_neg hE]
  exact ⟨c.V, rfl⟩

/-- The groups without a case function of their own write V, I and PC only. -/
theorem exec_simple_writes (op : Nat) (c : chip8_t) (rnd : Nat) :
    ∃ V I PC, exec_simple op c rnd = { c with V := V, I := I, PC := PC } := by
  unfold exec_simple
  simp only
  by_cases h1 : op = 0x01
  · rw [if_pos h1]; exact ⟨_, _, _, rfl⟩
  rw [if_neg h1]
  by_cases h3 : op = 0x03
  · rw [if_pos h3]; split_ifs <;> exact ⟨_, _, _, rfl⟩
  rw [if_neg h3]
  by_cases h4 : op = 0x04
  · rw [if_pos h4]; split_ifs <;> exact ⟨_, _, _, rfl⟩
  rw [if_neg h4]
  by_cases h5 : op = 0x05
  · rw [if_pos h5]; split_ifs <;> exact ⟨_, _, _, rfl⟩
  rw [if_neg h5]
  by_cases h6 : op = 0x06
  · rw [if_pos h6]; exact ⟨_, _, _, rfl⟩
  rw [if_neg h6]
  by_cases h7 : op = 0x07
  · rw [if_pos h7]; exact ⟨_, _, _, rfl⟩
  rw [if_neg h7]
  by_cases h9 : op = 0x09
  · rw [if_pos h9]; split_ifs <;> exact ⟨_, _, _, rfl⟩
  rw [if_neg h9]
  by_cases hA : op = 0x0A
  · rw [if_pos hA]; exact ⟨_, _, _, rfl⟩
  rw [if_neg hA]
  by_cases hB : op = 0x0B
  · rw [if_pos hB]; exact ⟨_, _, _, rfl⟩
  rw [if_neg hB]
  by_cases hC : op = 0x0C
  · rw [if_pos hC]; exact ⟨_, _, _, rfl⟩
  rw [if_neg hC]
  exact ⟨c.V, c.I, c.PC, rfl⟩

theorem reg_dump_ram_of_ok : ∀ (n i : Nat) (c c' : chip8_t), reg_dump n i c = .ok c' →
    c'.I = c.I ∧ ∀ k, ¬ (c.I + i ≤ k ∧ k < c.I + i + n) → c'.ram k = c.ram k := by
  intro n
  induction n with
  | zero => intro i c c' h; simp only [reg_dump] at h; cases h; exact ⟨rfl, fun _ _ => rfl⟩
  | succ n ih =>
    intro i c c' h
    simp only [reg_dump] at h
    split_ifs at h
    have := ih _ _ _ h
    simp only at this
    refine ⟨this.1, ?_⟩
    intro k hk
    rw [this.2 k (by omega)]
    simp [set_at]
    intro hki; omega

theorem reg_load_ram_of_ok : ∀ (n i : Nat) (c c' : chip8_t), reg_load n i c = .ok c' →
    c'.ram = c.ram := by
  intro n
  induction n with
  | zero => intro i c c' h; simp only [reg_load] at h; cases h; rfl
  | succ n ih =>
    intro i c c' h
    simp only [reg_load] at h
    split_ifs at h
    have := ih _ _ _ h
    exact this

theorem exec_0_ram (c c' : chip8_t) (h : exec_0 c = .ok c') : c'.ram = c.ram := by
  unfold exec_0 at h
  split_ifs at h <;> (cases h; rfl)

theorem exec_2_ram (c c' : chip8_t) (h : exec_2 c = .ok c') : c'.ram = c.ram := by
  unfold exec_2 at h
  split_ifs at h
  cases h; rfl

theorem exec_8_ram (c c' : chip8_t) (h : exec_8 c = .ok c') : c'.ram = c.ram := by
  obtain ⟨V, hV⟩ := exec_8_writes c
  rw [hV] at h
  cases h
  rfl

theorem exec_D_ram (c c' : chip8_t) (h : exec_D c = .ok c') : c'.ram = c.ram := by
  unfold exec_D at h
  exact (draw_sprite_frame_of_ok _ _ _ _ _ _
    (Nat.mod_lt _ (by decide)) (Nat.mod_lt _ (by decide)) h).2.1

theorem exec_E_ram (c c' : chip8_t) (h : exec_E c = .ok c') : c'.ram = c.ram := by
  unfold exec_E at h
  split_ifs at h <;> (cases h; rfl)

theorem exec_simple_ram (op : Nat) (c : chip8_t) (rnd : Nat) :
    (exec_simple op c rnd).ram = c.ram := by
  obtain ⟨V, I, PC, h⟩ := exec_simple_writes op c rnd
  rw [h]

/-- Group F writes memory only in FX33 (cells I..I+2) and FX55 (cells I..I+X). -/
theorem exec_F_ram (c c' : chip8_t) (h : exec_F c = .ok c') (k : Nat)
    (hk : ¬ ((c.inst.NN = 0x33 ∧ c.I ≤ k ∧ k ≤ c.I + 2) ∨
             (c.inst.NN = 0x55 ∧ c.I ≤ k ∧ k ≤ c.I + c.inst.X))) :
    c'.ram k = c.ram k := by
  unfold exec_F at h
  simp only at h
  by_cases h0A : c.inst.NN = 0x0A
  · rw [if_pos h0A] at h
    split at h <;> (cases h; rfl)
  rw [if_neg h0A] at h
  by_cases h1E : c.inst.NN = 0x1E
  · rw [if_pos h1E] at h; cases h; rfl
  rw [if_neg h1E] at h
  by_cases h07 : c.inst.NN = 0x07
  · rw [if_pos h07] at h; cases h; rfl
  rw [if_neg h07] at h
  by_cases h15 : c.inst.NN = 0x15
  · rw [if_pos h15] at h; cases h; rfl
  rw [if_neg h15] at h
  by_cases h18 : c.inst.NN = 0x18
  · rw [if_pos h18] at h; cases h; rfl
  rw [if_neg h18] at h
  by_cases h29 : c.inst.NN = 0x29
  · rw [if_pos h29] at h; cases h; rfl
  rw [if_neg h29] at h
  by_cases h33 : c.inst.NN = 0x33
  · rw [if_pos h33] at h
    split_ifs at h
    cases h
    have h1 : k ≠ c.I := by intro e; exact hk (Or.inl ⟨h33, by omega, by omega⟩)
    have h2 : k ≠ c.I + 1 := by intro e; exact hk (Or.inl ⟨h33, by omega, by omega⟩)
    have h3 : k ≠ c.I + 2 := by intro e; exact hk (Or.inl ⟨h33, by omega, by omega⟩)
    simp [set_at, h1, h2, h3]
  rw [if_neg h33] at h
  by_cases h55 : c.inst.NN = 0x55
  · rw [if_pos h55] at h
    refine (reg_dump_ram_of_ok _ _ _ _ h).2 k ?_
    intro hr
    exact hk (Or.inr ⟨h55, by omega, by omega⟩)
  rw [if_neg h55] at h
  by_cases h65 : c.inst.NN = 0x65
  · rw [if_pos h65] at h
    rw [reg_load_ram_of_ok _ _ _ _ h]
  rw [if_neg h65] at h
  cases h; rfl

/-- The only memory cells a cycle can change: I..I+2 in FX33, I..I+X in FX55. -/
theorem emulate_instruction_ram (s s' : chip8_t) (rnd : Nat)
    (h : emulate_instruction s rnd = .ok s') (k : Nat)
    (hk : ¬ (fetch_opcode s / 4096 % 16 = 0xF ∧
      ((fetch_opcode s % 256 = 0x33 ∧ s.I ≤ k ∧ k ≤ s.I + 2) ∨
       (fetch_opcode s % 256 = 0x55 ∧ s.I ≤ k ∧ k ≤ s.I + fetch_opcode s / 256 % 16)))) :
    s'.ram k = s.ram k := by
  unfold emulate_instruction at h
  simp only [dispatch_nibble, decode_opcode] at h
  split_ifs at h with hpc h0 h2 h8 hD hE hF
  · have := exec_0_ram _ _ h; rw [this]
  · have := exec_2_ram _ _ h; rw [this]
  · have := exec_8_ram _ _ h; rw [this]
  · have := exec_D_ram _ _ h; rw [this]
  · have := exec_E_ram _ _ h; rw [this]
  · have := exec_F_ram _ _ h k (by
      simp only [decode_NN, decode_X]
      intro hh
      exact hk ⟨hF, hh⟩)
    rw [this]
  · injection h with h
    subst h
    rw [exec_simple_ram]

/-! ## C13: the glyph table under execution -/

/-- C13, counterexample: ROM `F033` on a fresh machine (I = 0, V0 = 0).  Byte 0 of
memory is the first glyph byte 0xF0 before the cycle and 0 after it, in a state
reached from a created machine. -/
theorem C13_counterexample :
    fetch_opcode bcd_on_font_state = 0xF033 ∧
    bcd_on_font_state.ram 0 = 0xF0 ∧ font.getD 0 0 = 0xF0 ∧
    ∃ s', emulate_instruction bcd_on_font_state 0 = .ok s' ∧ s'.ram 0 = 0 :=
  ⟨by decide, by decide, by decide, _, rfl, by decide⟩

/-- C13, amended: for every machine state and every opcode, a cycle that returns
changes a memory byte k only if the opcode is FX33 and k is one of I, I+1, I+2,
or the opcode is FX55 and k lies in [I, I+X]; so it leaves memory bytes [0, 80)
unchanged whenever the opcode is neither FX33 nor FX55, or I is 80 or more. -/
theorem C13_glyph_bytes_kept (s s' : chip8_t) (rnd : Nat)
    (h : emulate_instruction s rnd = .ok s') :
    (∀ k, s'.ram k ≠ s.ram k →
      fetch_opcode s / 4096 % 16 = 0xF ∧
      ((fetch_opcode s % 256 = 0x33 ∧ s.I ≤ k ∧ k ≤ s.I + 2) ∨
       (fetch_opcode s % 256 = 0x55 ∧ s.I ≤ k ∧ k ≤ s.I + fetch_opcode s / 256 % 16))) ∧
    ((¬ (fetch_opcode s / 4096 % 16 = 0xF ∧
          (fetch_opcode s % 256 = 0x33 ∨ fetch_opcode s % 256 = 0x55)) ∨ 80 ≤ s.I) →
      ∀ k, k < 80 → s'.ram k = s.ram k) := by
  constructor
  · intro k hne
    by_contra hcon
    exact hne (emulate_instruction_ram s s' rnd h k hcon)
  · intro hsafe k hk
    apply emulate_instruction_ram s s' rnd h k
    rintro ⟨hF, h33 | h55⟩
    · rcases hsafe with hno | hI
      · exact hno ⟨hF, Or.inl h33.1⟩
      · omega
    · rcases hsafe with hno | hI
      · exact hno ⟨hF, Or.inr h55.1⟩
      · omega

/-- C13, witness: ROM `F033` with V0 = 234 and I = 0x300: bytes [0, 80) are kept. -/
theorem C13_glyph_bytes_kept_witness :
    emulate_instruction bcd_state 0 = .ok (after_cycle bcd_state 0) ∧
    (∀ k, (after_cycle bcd_state 0).ram k ≠ bcd_state.ram k →
      fetch_opcode bcd_state / 4096 % 16 = 0xF ∧
      ((fetch_opcode bcd_state % 256 = 0x33 ∧ bcd_state.I ≤ k ∧ k ≤ bcd_state.I + 2) ∨
       (fetch_opcode bcd_state % 256 = 0x55 ∧ bcd_state.I ≤ k ∧
          k ≤ bcd_state.I + fetch_opcode bcd_state / 256 % 16))) ∧
    80 ≤ bcd_state.I ∧
    (∀ k, k < 80 → (after_cycle bcd_state 0).ram k = bcd_state.ram k) :=
  ⟨rfl, (C13_glyph_bytes_kept bcd_state (after_cycle bcd_state 0) 0 rfl).1, by decide,
    (C13_glyph_bytes_kept bcd_state (after_cycle bcd_state 0) 0 rfl).2 (Or.inr (by decide))⟩

/-! ## C14 and C15: machine creation -/

/-- C14, counterexample: the empty program (length 0 <= 3584) on a zeroed machine.
`init_chip8` fails (the one-item read of size 0 yields 0 items), the state is not
Running and PC is not 0x200. -/
theorem C14_counterexample :
    ([] : List Nat).length ≤ 3584 ∧
    (init_chip8 zero_chip8 "rom" (some [])).1 = false ∧
    (init_chip8 zero_chip8 "rom" (some [])).2.state ≠ .RUNNING ∧
    (init_chip8 zero_chip8 "rom" (some [])).2.PC ≠ 0x200 :=
  ⟨by decide, by decide, by decide, by decide⟩

/-- C14, amended: for every program byte sequence of length len with
1 <= len <= 3584, `init_chip8` on a zeroed machine succeeds and yields
memory[0x200 + i] = byte i for all i < len, memory[0..80) = the glyph table, every
other memory byte 0, PC = 0x200, state Running, an empty call stack, and all
registers, I, timers, key states and framebuffer cells zero. -/
theorem C14_init_loads_program (bytes : List Nat) (rom_name : String)
    (h1 : 1 ≤ bytes.length) (h2 : bytes.length ≤ 3584) :
    (init_chip8 zero_chip8 rom_name (some bytes)).1 = true ∧
    (∀ i, i < bytes.length →
      (init_chip8 zero_chip8 rom_name (some bytes)).2.ram (0x200 + i) = bytes.getD i 0) ∧
    (∀ k, k < 80 → (init_chip8 zero_chip8 rom_name (some bytes)).2.ram k = font.getD k 0) ∧
    (∀ k, 80 ≤ k → ¬ (0x200 ≤ k ∧ k < 0x200 + bytes.length) →
      (init_chip8 zero_chip8 rom_name (some bytes)).2.ram k = 0) ∧
    (init_chip8 zero_chip8 rom_name (some bytes)).2.PC = 0x200 ∧
    (init_chip8 zero_chip8 rom_name (some bytes)).2.state = .RUNNING ∧
    (init_chip8 zero_chip8 rom_name (some bytes)).2.stack_ptr = 0 ∧
    (∀ i, (init_chip8 zero_chip8 rom_name (some bytes)).2.V i = 0) ∧
    (init_chip8 zero_chip8 rom_name (some bytes)).2.I = 0 ∧
    (init_chip8 zero_chip8 rom_name (some bytes)).2.delay_timer = 0 ∧
    (init_chip8 zero_chip8 rom_name (some bytes)).2.sound_timer = 0 ∧
    (∀ i, (init_chip8 zero_chip8 rom_name (some bytes)).2.keypad i = false) ∧
    (∀ k, (init_chip8 zero_chip8 rom_name (some bytes)).2.display k = 0) := by
  have hlen : font.length = 80 := by decide
  have hn1 : ¬ bytes.length > RAM_SIZE - 0x200 := by
    have : RAM_SIZE = 4096 := rfl
    omega
  have hn2 : ¬ bytes.length = 0 := by omega
  have heq : init_chip8 zero_chip8 rom_name (some bytes) =
      (true, { zero_chip8 with
        ram := copy_at (copy_at zero_chip8.ram 0 font) 0x200 bytes,
        state := .RUNNING, PC := 0x200, rom_name := rom_name, stack_ptr := 0 }) := by
    unfold init_chip8
    simp only
    rw [if_neg hn1, if_neg hn2]
  rw [heq]
  refine ⟨rfl, ?_, ?_, ?_, rfl, rfl, rfl, fun _ => rfl, rfl, rfl, rfl, fun _ => rfl,
    fun _ => rfl⟩
  · intro i hi
    simp only [copy_at]
    have e : 0x200 + i - 0x200 = i := by omega
    rw [if_pos (by omega), e]
  · intro k hk
    simp only [copy_at]
    rw [if_neg (by omega), if_pos (by omega)]
    rfl
  · intro k hk hout
    simp only [copy_at]
    rw [if_neg (by omega), if_neg (by omega)]
    rfl

/-- C14, witness: the three-opcode program `6005 7003 00EE`. -/
theorem C14_init_loads_program_witness :
    1 ≤ underflow_rom.length ∧ underflow_rom.length ≤ 3584 ∧
    (init_chip8 zero_chip8 "rom" (some underflow_rom)).1 = true ∧
    (∀ i, i < underflow_rom.length →
      (init_chip8 zero_chip8 "rom" (some underflow_rom)).2.ram (0x200 + i) =
        underflow_rom.getD i 0) ∧
    (∀ k, k < 80 →
      (init_chip8 zero_chip8 "rom" (some underflow_rom)).2.ram k = font.getD k 0) ∧
    (∀ k, 80 ≤ k → ¬ (0x200 ≤ k ∧ k < 0x200 + underflow_rom.length) →
      (init_chip8 zero_chip8 "rom" (some underflow_rom)).2.ram k = 0) ∧
    (init_chip8 zero_chip8 "rom" (some underflow_rom)).2.PC = 0x200 ∧
    (init_chip8 zero_chip8 "rom" (some underflow_rom)).2.state = .RUNNING ∧
    (init_chip8 zero_chip8 "rom" (some underflow_rom)).2.stack_ptr = 0 ∧
    (∀ i, (init_chip8 zero_chip8 "rom" (some underflow_rom)).2.V i = 0) ∧
    (init_chip8 zero_chip8 "rom" (some underflow_rom)).2.I = 0 ∧
    (init_chip8 zero_chip8 "rom" (some underflow_rom)).2.delay_timer = 0 ∧
    (init_chip8 zero_chip8 "rom" (some underflow_rom)).2.sound_timer = 0 ∧
    (∀ i, (init_chip8 zero_chip8 "rom" (some underflow_rom)).2.keypad i = false) ∧
    (∀ k, (init_chip8 zero_chip8 "rom" (some underflow_rom)).2.display k = 0) :=
  ⟨by decide, by decide,
    C14_init_loads_program underflow_rom "rom" (by decide) (by decide)⟩

/-- C15: for every program byte sequence of length greater than 3584, `init_chip8`
fails, leaves every memory byte from 80 on as it was (so no program byte is
written to memory[0x200..4096)), and leaves the controller state as it was; on
the zeroed machine of `main` the state is therefore not Running. -/
theorem C15_init_rejects_oversized (c : chip8_t) (bytes : List Nat) (rom_name : String)
    (h : bytes.length > 3584) :
    (init_chip8 c rom_name (some bytes)).1 = false ∧
    (∀ k, 80 ≤ k → (init_chip8 c rom_name (some bytes)).2.ram k = c.ram k) ∧
    (init_chip8 c rom_name (some bytes)).2.state = c.state ∧
    (init_chip8 zero_chip8 rom_name (some bytes)).2.state ≠ .RUNNING := by
  have hlen : font.length = 80 := by decide
  have hn1 : ∀ c : chip8_t, init_chip8 c rom_name (some bytes) =
      (false, { c with ram := copy_at c.ram 0 font }) := by
    intro c
    have : bytes.length > RAM_SIZE - 0x200 := by
      have : RAM_SIZE = 4096 := rfl
      omega
    unfold init_chip8
    simp only
    rw [if_pos this]
  rw [hn1 c, hn1 zero_chip8]
  refine ⟨rfl, ?_, rfl, by decide⟩
  intro k hk
  simp only [copy_at]
  rw [if_neg (by omega)]

/-- C15, witness: a program of 3585 zero bytes. -/
theorem C15_init_rejects_oversized_witness :
    (List.replicate 3585 0).length > 3584 ∧
    (init_chip8 zero_chip8 "rom" (some (List.replicate 3585 0))).1 = false ∧
    (∀ k, 80 ≤ k →
      (init_chip8 zero_chip8 "rom" (some (List.replicate 3585 0))).2.ram k =
        zero_chip8.ram k) ∧
    (init_chip8 zero_chip8 "rom" (some (List.replicate 3585 0))).2.state =
      zero_chip8.state ∧
    (init_chip8 zero_chip8 "rom" (some (List.replicate 3585 0))).2.state ≠ .RUNNING :=
  ⟨by rw [List.length_replicate]; decide,
    C15_init_rejects_oversized zero_chip8 (List.replicate 3585 0) "rom"
      (by rw [List.length_replicate]; decide)⟩

/-! ## C11 and C12: drawing the same sprite twice -/

/-- A masked sprite bit is a byte. -/
theorem sprite_mask_lt (b j : Nat) (hj : j ≤ 7) : b &&& (1 <<< j) < 256 := by
  have h1 : b &&& (1 <<< j) ≤ 1 <<< j := Nat.and_le_right
  have h2 : 1 <<< j = 2 ^ j := Nat.one_shiftLeft j
  have h3 : 2 ^ j ≤ 2 ^ 7 := Nat.pow_le_pow_right (by decide) hj
  omega

/-- XORing a byte cell twice with the same byte mask gives the cell back. -/
theorem xor_twice (d m : Nat) (hd : d < 256) (hm : m < 256) :
    ((d ^^^ m) % 256 ^^^ m) % 256 = d := by
  have h1 : d ^^^ m < 2 ^ 8 := Nat.xor_lt_two_pow (by simpa using hd) (by simpa using hm)
  have h2 : (d ^^^ m) % 256 = d ^^^ m := Nat.mod_eq_of_lt (by simpa using h1)
  rw [h2, Nat.xor_assoc, Nat.xor_self, Nat.xor_zero]
  exact Nat.mod_eq_of_lt hd

/-- The cycle on DXYN advances PC by 2. -/
theorem DXYN_PC (s s' : chip8_t) (rnd X Y N : Nat) (hpc : s.PC + 1 < RAM_SIZE)
    (hX : X < 16) (hY : Y < 16) (hN : N < 16)
    (hop : fetch_opcode s = 0xD000 + X * 256 + Y * 16 + N)
    (h : emulate_instruction s rnd = .ok s') : s'.PC = s.PC + 2 := by
  have hR : RAM_SIZE = 4096 := rfl
  rw [emulate_DXYN s rnd X Y N hpc hX hY hN hop] at h
  have hfr := draw_sprite_frame_of_ok _ _ _ _ _ _
    (Nat.mod_lt _ (by decide)) (Nat.mod_lt _ (by decide)) h
  have := hfr.2.2.2.2.2.2.1
  simp only at this
  rw [this]
  omega

/-- Two cycles on the same DXYN, X and Y other than 0xF, rows inside memory: both
return, and the second draw is described by the same rectangle and sprite bits
as the first. -/
theorem DXYN_twice (s : chip8_t) (r1 r2 X Y N x0 y0 : Nat)
    (hpc : s.PC + 3 < RAM_SIZE) (hX : X < 16) (hY : Y < 16) (hN : N < 16)
    (hXF : X ≠ 0xF) (hYF : Y ≠ 0xF)
    (hop : fetch_opcode s = 0xD000 + X * 256 + Y * 16 + N)
    (hop2 : fetch_opcode { s with PC := s.PC + 2 } = 0xD000 + X * 256 + Y * 16 + N)
    (hx0 : x0 = s.V X % 64) (hy0 : y0 = s.V Y % 32)
    (hmem : s.I + N ≤ RAM_SIZE) :
    ∃ s1 s2, emulate_instruction s r1 = .ok s1 ∧ emulate_instruction s1 r2 = .ok s2 ∧
      (∀ k,
        ((y0 ≤ k / 64 ∧ k / 64 < y0 + N ∧ k / 64 < 32 ∧ x0 ≤ k % 64 ∧ k % 64 < x0 + 8) →
          s1.display k = (s.display k ^^^
            (s.ram (s.I + (k / 64 - y0)) &&& (1 <<< (7 - (k % 64 - x0))))) % 256 ∧
          s2.display k = (s1.display k ^^^
            (s.ram (s.I + (k / 64 - y0)) &&& (1 <<< (7 - (k % 64 - x0))))) % 256) ∧
        (¬ (y0 ≤ k / 64 ∧ k / 64 < y0 + N ∧ k / 64 < 32 ∧ x0 ≤ k % 64 ∧ k % 64 < x0 + 8) →
          s2.display k = s.display k)) ∧
      ((∃ k, (y0 ≤ k / 64 ∧ k / 64 < y0 + N ∧ k / 64 < 32 ∧ x0 ≤ k % 64 ∧ k % 64 < x0 + 8) ∧
          (s.ram (s.I + (k / 64 - y0))).testBit (7 - (k % 64 - x0)) = true ∧
          s1.display k ≠ 0) → s2.V 0xF = 1) ∧
      ((¬ ∃ k, (y0 ≤ k / 64 ∧ k / 64 < y0 + N ∧ k / 64 < 32 ∧ x0 ≤ k % 64 ∧ k % 64 < x0 + 8) ∧
          (s.ram (s.I + (k / 64 - y0))).testBit (7 - (k % 64 - x0)) = true ∧
          s1.display k ≠ 0) → s2.V 0xF = 0) := by
  have hR : RAM_SIZE = 4096 := rfl
  obtain ⟨s1, hok1, hram1, hI1, hV1, hdisp1, -, -⟩ :=
    DXYN_defined s r1 X Y N x0 y0 (by omega) hX hY hN hop hx0 hy0 (by intro t ht _; omega)
  have hPC1 : s1.PC = s.PC + 2 := DXYN_PC s s1 r1 X Y N (by omega) hX hY hN hop hok1
  have hf1 : fetch_opcode s1 = 0xD000 + X * 256 + Y * 16 + N := by
    rw [← hop2]
    simp only [fetch_opcode, hram1, hPC1]
  obtain ⟨s2, hok2, -, -, -, hdisp2, hset2, hclr2⟩ :=
    DXYN_defined s1 r2 X Y N x0 y0 (by omega) hX hY hN hf1
      (by rw [hV1 X hXF]; exact hx0) (by rw [hV1 Y hYF]; exact hy0)
      (by intro t ht _; rw [hI1]; omega)
  rw [hram1, hI1] at hdisp2 hset2 hclr2
  refine ⟨s1, s2, hok1, hok2, ?_, hset2, hclr2⟩
  intro k
  constructor
  · intro h
    exact ⟨(hdisp1 k).1 h, (hdisp2 k).1 h⟩
  · intro h
    rw [(hdisp2 k).2 h, (hdisp1 k).2 h]

/-- C11: for every machine state (display cells are bytes) and every DXYN with X and
Y other than 0xF whose sprite rows lie inside memory, two cycles in a row on the
same DXYN both return and leave every framebuffer cell as it was before the first
draw. -/
theorem C11_double_draw_restores (s : chip8_t) (r1 r2 X Y N : Nat)
    (hcells : ∀ k, k < DISPLAY_SIZE → s.display k < 256)
    (hpc : s.PC + 3 < RAM_SIZE) (hX : X < 16) (hY : Y < 16) (hN : N < 16)
    (hXF : X ≠ 0xF) (hYF : Y ≠ 0xF)
    (hop : fetch_opcode s = 0xD000 + X * 256 + Y * 16 + N)
    (hop2 : fetch_opcode { s with PC := s.PC + 2 } = 0xD000 + X * 256 + Y * 16 + N)
    (hmem : s.I + N ≤ RAM_SIZE) :
    ∃ s1 s2, emulate_instruction s r1 = .ok s1 ∧ emulate_instruction s1 r2 = .ok s2 ∧
      ∀ k, s2.display k = s.display k := by
  obtain ⟨s1, s2, hok1, hok2, hdisp, -, -⟩ :=
    DXYN_twice s r1 r2 X Y N (s.V X % 64) (s.V Y % 32) hpc hX hY hN hXF hYF hop hop2 rfl rfl hmem
  refine ⟨s1, s2, hok1, hok2, ?_⟩
  intro k
  by_cases hin : s.V Y % 32 ≤ k / 64 ∧ k / 64 < s.V Y % 32 + N ∧ k / 64 < 32 ∧
      s.V X % 64 ≤ k % 64 ∧ k % 64 < s.V X % 64 + 8
  · obtain ⟨e1, e2⟩ := (hdisp k).1 hin
    rw [e2, e1]
    have hD : DISPLAY_SIZE = 2048 := rfl
    exact xor_twice _ _ (hcells k (by omega)) (sprite_mask_lt _ _ (by omega))
  · exact (hdisp k).2 hin

/-- C11, witness: ROM `D005 D005 D005` on a fresh machine (glyph 0 at (0, 0)). -/
theorem C11_double_draw_restores_witness :
    (∀ k, k < DISPLAY_SIZE → (machine_with_rom glyph_rom3).display k < 256) ∧
    (machine_with_rom glyph_rom3).PC + 3 < RAM_SIZE ∧
    fetch_opcode (machine_with_rom glyph_rom3) = 0xD000 + 0 * 256 + 0 * 16 + 5 ∧
    fetch_opcode { machine_with_rom glyph_rom3 with
      PC := (machine_with_rom glyph_rom3).PC + 2 } = 0xD000 + 0 * 256 + 0 * 16 + 5 ∧
    (machine_with_rom glyph_rom3).I + 5 ≤ RAM_SIZE ∧
    ∃ s1 s2, emulate_instruction (machine_with_rom glyph_rom3) 0 = .ok s1 ∧
      emulate_instruction s1 0 = .ok s2 ∧
      ∀ k, s2.display k = (machine_with_rom glyph_rom3).display k :=
  ⟨fun _ _ => (by decide : (0 : Nat) < 256), by decide, by decide, by decide, by decide,
    C11_double_draw_restores (machine_with_rom glyph_rom3) 0 0 0 0 5
      (fun _ _ => (by decide : (0 : Nat) < 256)) (by decide) (by decide) (by decide) (by decide)
      (by decide) (by decide) (by decide) (by decide) (by decide)⟩

/-- C12, counterexample: glyph 0 is already on the screen at (0, 0) and `D005`
(X = 0, Y = 0, bit 7 of the first sprite row set, at the on-screen pixel (0, 0)) is
executed twice in a row: the first draw erases the glyph (VF = 1) and the second
cycle ends with VF = 0. -/
theorem C12_counterexample :
    fetch_opcode glyph_drawn_state = 0xD005 ∧
    glyph_drawn_state.V 0 % 64 = 0 ∧ glyph_drawn_state.V 0 % 32 = 0 ∧
    (glyph_drawn_state.ram (glyph_drawn_state.I + (0 - 0))).testBit (7 - (0 - 0)) = true ∧
    ∃ s1 s2, emulate_instruction glyph_drawn_state 0 = .ok s1 ∧
      fetch_opcode s1 = 0xD005 ∧
      emulate_instruction s1 0 = .ok s2 ∧ s1.V 0xF = 1 ∧ s2.V 0xF = 0 :=
  ⟨by decide, by decide, by decide, by decide, _, _, rfl, by decide, rfl, by decide, by decide⟩

/-- C12, amended: for every machine state and every DXYN with X and Y other than 0xF
whose sprite rows lie inside memory and whose sprite has a set bit at a pixel
(x, y) of the clipped on-screen region that is off before the first draw, two
cycles in a row on the same DXYN both return and the second ends with VF = 1. -/
theorem C12_second_draw_collides (s : chip8_t) (r1 r2 X Y N x y : Nat)
    (hpc : s.PC + 3 < RAM_SIZE) (hX : X < 16) (hY : Y < 16) (hN : N < 16)
    (hXF : X ≠ 0xF) (hYF : Y ≠ 0xF)
    (hop : fetch_opcode s = 0xD000 + X * 256 + Y * 16 + N)
    (hop2 : fetch_opcode { s with PC := s.PC + 2 } = 0xD000 + X * 256 + Y * 16 + N)
    (hmem : s.I + N ≤ RAM_SIZE)
    (hx : s.V X % 64 ≤ x ∧ x < min (s.V X % 64 + 8) 64)
    (hy : s.V Y % 32 ≤ y ∧ y < min (s.V Y % 32 + N) 32)
    (hbit : (s.ram (s.I + (y - s.V Y % 32))).testBit (7 - (x - s.V X % 64)) = true)
    (hoff : s.display (y * 64 + x) = 0) :
    ∃ s1 s2, emulate_instruction s r1 = .ok s1 ∧ emulate_instruction s1 r2 = .ok s2 ∧
      s2.V 0xF = 1 := by
  obtain ⟨s1, s2, hok1, hok2, hdisp, hset, -⟩ :=
    DXYN_twice s r1 r2 X Y N (s.V X % 64) (s.V Y % 32) hpc hX hY hN hXF hYF hop hop2 rfl rfl hmem
  have e1 : (y * 64 + x) / 64 = y := by omega
  have e2 : (y * 64 + x) % 64 = x := by omega
  have hin : s.V Y % 32 ≤ (y * 64 + x) / 64 ∧ (y * 64 + x) / 64 < s.V Y % 32 + N ∧
      (y * 64 + x) / 64 < 32 ∧ s.V X % 64 ≤ (y * 64 + x) % 64 ∧
      (y * 64 + x) % 64 < s.V X % 64 + 8 := by rw [e1, e2]; omega
  refine ⟨s1, s2, hok1, hok2, hset ⟨y * 64 + x, hin, ?_, ?_⟩⟩
  · rw [e1, e2]; exact hbit
  · rw [((hdisp (y * 64 + x)).1 hin).1, hoff, e1, e2, Nat.zero_xor]
    have hm := sprite_mask_lt (s.ram (s.I + (y - s.V Y % 32))) (7 - (x - s.V X % 64)) (by omega)
    rw [Nat.mod_eq_of_lt hm]
    exact (bit_set_iff _ _).2 hbit

/-- C12, witness: ROM `D005 D005 D005` on a fresh machine: the pixel (0, 0) is off
and bit 7 of the first row of glyph 0 is set. -/
theorem C12_second_draw_collides_witness :
    (machine_with_rom glyph_rom3).PC + 3 < RAM_SIZE ∧
    fetch_opcode (machine_with_rom glyph_rom3) = 0xD000 + 0 * 256 + 0 * 16 + 5 ∧
    fetch_opcode { machine_with_rom glyph_rom3 with
      PC := (machine_with_rom glyph_rom3).PC + 2 } = 0xD000 + 0 * 256 + 0 * 16 + 5 ∧
    (machine_with_rom glyph_rom3).I + 5 ≤ RAM_SIZE ∧
    ((machine_with_rom glyph_rom3).V 0 % 64 ≤ 0 ∧
      0 < min ((machine_with_rom glyph_rom3).V 0 % 64 + 8) 64) ∧
    ((machine_with_rom glyph_rom3).V 0 % 32 ≤ 0 ∧
      0 < min ((machine_with_rom glyph_rom3).V 0 % 32 + 5) 32) ∧
    ((machine_with_rom glyph_rom3).ram ((machine_with_rom glyph_rom3).I +
      (0 - (machine_with_rom glyph_rom3).V 0 % 32))).testBit
        (7 - (0 - (machine_with_rom glyph_rom3).V 0 % 64)) = true ∧
    (machine_with_rom glyph_rom3).display (0 * 64 + 0) = 0 ∧
    ∃ s1 s2, emulate_instruction (machine_with_rom glyph_rom3) 0 = .ok s1 ∧
      emulate_instruction s1 0 = .ok s2 ∧ s2.V 0xF = 1 :=
  ⟨by decide, by decide, by decide, by decide, by decide, by decide, by decide, by decide,
    C12_second_draw_collides (machine_with_rom glyph_rom3) 0 0 0 0 5 0 0
      (by decide) (by decide) (by decide) (by decide) (by decide) (by decide)
      (by decide) (by decide) (by decide) (by decide) (by decide) (by decide) (by decide)⟩

/-! ## Dispatch lemma for group E -/

theorem emulate_group_E (s : chip8_t) (rnd : Nat) (hpc : s.PC + 1 < RAM_SIZE)
    (hop : fetch_opcode s / 4096 % 16 = 0xE) :
    emulate_instruction s rnd =
      exec_E { s with PC := (s.PC + 2) % 65536, inst := decode (fetch_opcode s) } := by
  simp [emulate_instruction, hpc, dispatch_nibble, decode_opcode, hop]

/-! ## C21: 8XY0 to 8XY3 -/

/-- C21: for every machine state and all register indices X, Y: 8XY0 ends with
VX = VY, and 8XY1, 8XY2, 8XY3 end with VX = VX OR VY, VX AND VY, VX XOR VY (bitwise,
on the values before the cycle); every register other than VX, VF included when
X is not 0xF, is unchanged. -/
theorem C21_assign_and_bitwise (s : chip8_t) (rnd X Y : Nat) (hpc : s.PC + 1 < RAM_SIZE)
    (hX : X < 16) (hY : Y < 16) :
    (fetch_opcode s = 0x8000 + X * 256 + Y * 16 →
      ∃ s', emulate_instruction s rnd = .ok s' ∧ s'.V X = s.V Y ∧
        (∀ i, i ≠ X → s'.V i = s.V i)) ∧
    (fetch_opcode s = 0x8001 + X * 256 + Y * 16 →
      ∃ s', emulate_instruction s rnd = .ok s' ∧ s'.V X = s.V X ||| s.V Y ∧
        (∀ i, i ≠ X → s'.V i = s.V i)) ∧
    (fetch_opcode s = 0x8002 + X * 256 + Y * 16 →
      ∃ s', emulate_instruction s rnd = .ok s' ∧ s'.V X = s.V X &&& s.V Y ∧
        (∀ i, i ≠ X → s'.V i = s.V i)) ∧
    (fetch_opcode s = 0x8003 + X * 256 + Y * 16 →
      ∃ s', emulate_instruction s rnd = .ok s' ∧ s'.V X = s.V X ^^^ s.V Y ∧
        (∀ i, i ≠ X → s'.V i = s.V i)) := by
  refine ⟨?_, ?_, ?_, ?_⟩
  · intro hop
    have hN : fetch_opcode s % 16 = 0 := by omega
    have hXd : fetch_opcode s / 256 % 16 = X := by omega
    have hYd : fetch_opcode s / 16 % 16 = Y := by omega
    have heq : emulate_instruction s rnd = .ok
        { s with PC := (s.PC + 2) % 65536, inst := decode (fetch_opcode s),
                 V := set_at s.V X (s.V Y) } := by
      rw [emulate_group_8 s rnd hpc (by omega)]
      simp only [exec_8, decode_N, decode_X, decode_Y, hN, hXd, hYd]
      simp
    exact ⟨_, heq, set_at_same _ _ _, fun i hi => set_at_other _ _ _ _ hi⟩
  · intro hop
    have hN : fetch_opcode s % 16 = 1 := by omega
    have hXd : fetch_opcode s / 256 % 16 = X := by omega
    have hYd : fetch_opcode s / 16 % 16 = Y := by omega
    have heq : emulate_instruction s rnd = .ok
        { s with PC := (s.PC + 2) % 65536, inst := decode (fetch_opcode s),
                 V := set_at s.V X (s.V X ||| s.V Y) } := by
      rw [emulate_group_8 s rnd hpc (by omega)]
      simp only [exec_8, decode_N, decode_X, decode_Y, hN, hXd, hYd]
      simp
    exact ⟨_, heq, set_at_same _ _ _, fun i hi => set_at_other _ _ _ _ hi⟩
  · intro hop
    have hN : fetch_opcode s % 16 = 2 := by omega
    have hXd : fetch_opcode s / 256 % 16 = X := by omega
    have hYd : fetch_opcode s / 16 % 16 = Y := by omega
    have heq : emulate_instruction s rnd = .ok
        { s with PC := (s.PC + 2) % 65536, inst := decode (fetch_opcode s),
                 V := set_at s.V X (s.V X &&& s.V Y) } := by
      rw [emulate_group_8 s rnd hpc (by omega)]
      simp only [exec_8, decode_N, decode_X, decode_Y, hN, hXd, hYd]
      simp
    exact ⟨_, heq, set_at_same _ _ _, fun i hi => set_at_other _ _ _ _ hi⟩
  · intro hop
    have hN : fetch_opcode s % 16 = 3 := by omega
    have hXd : fetch_opcode s / 256 % 16 = X := by omega
    have hYd : fetch_opcode s / 16 % 16 = Y := by omega
    have heq : emulate_instruction s rnd = .ok
        { s with PC := (s.PC + 2) % 65536, inst := decode (fetch_opcode s),
                 V := set_at s.V X (s.V X ^^^ s.V Y) } := by
      rw [emulate_group_8 s rnd hpc (by omega)]
      simp only [exec_8, decode_N, decode_X, decode_Y, hN, hXd, hYd]
      simp
    exact ⟨_, heq, set_at_same _ _ _, fun i hi => set_at_other _ _ _ _ hi⟩

/-- C21, witness: ROMs `8010`, `8011`, `8012`, `8013` entered with V0 = 0x0C and
V1 = 0x0A end with V0 = 0x0A, 0x0E, 0x08, 0x06. -/
theorem C21_assign_and_bitwise_witness :
    ((machine_with_regs [0x80, 0x10] 0x0C 0x0A).PC + 1 < RAM_SIZE ∧
      fetch_opcode (machine_with_regs [0x80, 0x10] 0x0C 0x0A) = 0x8000 + 0 * 256 + 1 * 16 ∧
      (machine_with_regs [0x80, 0x10] 0x0C 0x0A).V 1 = 0x0A ∧
      ∃ s', emulate_instruction (machine_with_regs [0x80, 0x10] 0x0C 0x0A) 0 = .ok s' ∧
        s'.V 0 = (machine_with_regs [0x80, 0x10] 0x0C 0x0A).V 1 ∧
        (∀ i, i ≠ 0 → s'.V i = (machine_with_regs [0x80, 0x10] 0x0C 0x0A).V i)) ∧
    (fetch_opcode (machine_with_regs [0x80, 0x11] 0x0C 0x0A) = 0x8001 + 0 * 256 + 1 * 16 ∧
      (machine_with_regs [0x80, 0x11] 0x0C 0x0A).V 0 |||
        (machine_with_regs [0x80, 0x11] 0x0C 0x0A).V 1 = 0x0E ∧
      ∃ s', emulate_instruction (machine_with_regs [0x80, 0x11] 0x0C 0x0A) 0 = .ok s' ∧
        s'.V 0 = (machine_with_regs [0x80, 0x11] 0x0C 0x0A).V 0 |||
          (machine_with_regs [0x80, 0x11] 0x0C 0x0A).V 1 ∧
        (∀ i, i ≠ 0 → s'.V i = (machine_with_regs [0x80, 0x11] 0x0C 0x0A).V i)) ∧
    (fetch_opcode (machine_with_regs [0x80, 0x12] 0x0C 0x0A) = 0x8002 + 0 * 256 + 1 * 16 ∧
      (machine_with_regs [0x80, 0x12] 0x0C 0x0A).V 0 &&&
        (machine_with_regs [0x80, 0x12] 0x0C 0x0A).V 1 = 0x08 ∧
      ∃ s', emulate_instruction (machine_with_regs [0x80, 0x12] 0x0C 0x0A) 0 = .ok s' ∧
        s'.V 0 = (machine_with_regs [0x80, 0x12] 0x0C 0x0A).V 0 &&&
          (machine_with_regs [0x80, 0x12] 0x0C 0x0A).V 1 ∧
        (∀ i, i ≠ 0 → s'.V i = (machine_with_regs [0x80, 0x12] 0x0C 0x0A).V i)) ∧
    (fetch_opcode (machine_with_regs [0x80, 0x13] 0x0C 0x0A) = 0x8003 + 0 * 256 + 1 * 16 ∧
      (machine_with_regs [0x80, 0x13] 0x0C 0x0A).V 0 ^^^
        (machine_with_regs [0x80, 0x13] 0x0C 0x0A).V 1 = 0x06 ∧
      ∃ s', emulate_instruction (machine_with_regs [0x80, 0x13] 0x0C 0x0A) 0 = .ok s' ∧
        s'.V 0 = (machine_with_regs [0x80, 0x13] 0x0C 0x0A).V 0 ^^^
          (machine_with_regs [0x80, 0x13] 0x0C 0x0A).V 1 ∧
        (∀ i, i ≠ 0 → s'.V i = (machine_with_regs [0x80, 0x13] 0x0C 0x0A).V i)) :=
  ⟨⟨by decide, by decide, by decide,
      (C21_assign_and_bitwise (machine_with_regs [0x80, 0x10] 0x0C 0x0A) 0 0 1
        (by decide) (by decide) (by decide)).1 (by decide)⟩,
    ⟨by decide, by decide,
      (C21_assign_and_bitwise (machine_with_regs [0x80, 0x11] 0x0C 0x0A) 0 0 1
        (by decide) (by decide) (by decide)).2.1 (by decide)⟩,
    ⟨by decide, by decide,
      (C21_assign_and_bitwise (machine_with_regs [0x80, 0x12] 0x0C 0x0A) 0 0 1
        (by decide) (by decide) (by decide)).2.2.1 (by decide)⟩,
    ⟨by decide, by decide,
      (C21_assign_and_bitwise (machine_with_regs [0x80, 0x13] 0x0C 0x0A) 0 0 1
        (by decide) (by decide) (by decide)).2.2.2 (by decide)⟩⟩

/-! ## C22: the conditional skips 3XNN, 4XNN, 5XY0, 9XY0 -/

/-- The cycle on each conditional-skip opcode: it returns, PC advances by 4 when
the condition holds and by 2 otherwise, and nothing else changes. -/
theorem skip_cycle (s : chip8_t) (rnd X Y NN : Nat) (hpc : s.PC + 1 < RAM_SIZE)
    (hX : X < 16) (hY : Y < 16) (hNN : NN < 256) :
    (fetch_opcode s = 0x3000 + X * 256 + NN →
      ∃ s', emulate_instruction s rnd = .ok s' ∧
        s'.PC = (if s.V X = NN then s.PC + 4 else s.PC + 2) ∧ same_except_PC s s') ∧
    (fetch_opcode s = 0x4000 + X * 256 + NN →
      ∃ s', emulate_instruction s rnd = .ok s' ∧
        s'.PC = (if s.V X ≠ NN then s.PC + 4 else s.PC + 2) ∧ same_except_PC s s') ∧
    (fetch_opcode s = 0x5000 + X * 256 + Y * 16 →
      ∃ s', emulate_instruction s rnd = .ok s' ∧
        s'.PC = (if s.V X = s.V Y then s.PC + 4 else s.PC + 2) ∧ same_except_PC s s') ∧
    (fetch_opcode s = 0x9000 + X * 256 + Y * 16 →
      ∃ s', emulate_instruction s rnd = .ok s' ∧
        s'.PC = (if s.V X ≠ s.V Y then s.PC + 4 else s.PC + 2) ∧ same_except_PC s s') := by
  have hR : RAM_SIZE = 4096 := rfl
  have hp : (s.PC + 2) % 65536 = s.PC + 2 := by omega
  have hp4 : (s.PC + 2 + 2) % 65536 = s.PC + 4 := by omega
  refine ⟨?_, ?_, ?_, ?_⟩
  · intro hop
    have hg : fetch_opcode s / 4096 % 16 = 3 := by omega
    have hXd : fetch_opcode s / 256 % 16 = X := by omega
    have hNd : fetch_opcode s % 256 = NN := by omega
    have heq : emulate_instruction s rnd = .ok
        { s with PC := (if s.V X = NN then s.PC + 4 else s.PC + 2),
                 inst := decode (fetch_opcode s) } := by
      rw [emulate_group_simple s rnd hpc (by omega) (by omega) (by omega) (by omega)
        (by omega) (by omega), hg]
      by_cases hc : s.V X = NN
      · simp [exec_simple, decode_X, decode_NN, hXd, hNd, hp, hp4, hc]
      · simp [exec_simple, decode_X, decode_NN, hXd, hNd, hp, hp4, hc]
    exact ⟨_, heq, rfl, rfl, rfl, rfl, rfl, rfl, rfl, rfl, rfl, rfl, rfl, rfl⟩
  · intro hop
    have hg : fetch_opcode s / 4096 % 16 = 4 := by omega
    have hXd : fetch_opcode s / 256 % 16 = X := by omega
    have hNd : fetch_opcode s % 256 = NN := by omega
    have heq : emulate_instruction s rnd = .ok
        { s with PC := (if s.V X ≠ NN then s.PC + 4 else s.PC + 2),
                 inst := decode (fetch_opcode s) } := by
      rw [emulate_group_simple s rnd hpc (by omega) (by omega) (by omega) (by omega)
        (by omega) (by omega), hg]
      by_cases hc : s.V X = NN
      · simp [exec_simple, decode_X, decode_NN, hXd, hNd, hp, hp4, hc]
      · simp [exec_simple, decode_X, decode_NN, hXd, hNd, hp, hp4, hc]
    exact ⟨_, heq, rfl, rfl, rfl, rfl, rfl, rfl, rfl, rfl, rfl, rfl, rfl, rfl⟩
  · intro hop
    have hg : fetch_opcode s / 4096 % 16 = 5 := by omega
    have hXd : fetch_opcode s / 256 % 16 = X := by omega
    have hYd : fetch_opcode s / 16 % 16 = Y := by omega
    have hN : fetch_opcode s % 16 = 0 := by omega
    have heq : emulate_instruction s rnd = .ok
        { s with PC := (if s.V X = s.V Y then s.PC + 4 else s.PC + 2),
                 inst := decode (fetch_opcode s) } := by
      rw [emulate_group_simple s rnd hpc (by omega) (by omega) (by omega) (by omega)
        (by omega) (by omega), hg]
      by_cases hc : s.V X = s.V Y
      · simp [exec_simple, decode_X, decode_Y, decode_N, hXd, hYd, hN, hp, hp4, hc]
      · simp [exec_simple, decode_X, decode_Y, decode_N, hXd, hYd, hN, hp, hp4, hc]
    exact ⟨_, heq, rfl, rfl, rfl, rfl, rfl, rfl, rfl, rfl, rfl, rfl, rfl, rfl⟩
  · intro hop
    have hg : fetch_opcode s / 4096 % 16 = 9 := by omega
    have hXd : fetch_opcode s / 256 % 16 = X := by omega
    have hYd : fetch_opcode s / 16 % 16 = Y := by omega
    have heq : emulate_instruction s rnd = .ok
        { s with PC := (if s.V X ≠ s.V Y then s.PC + 4 else s.PC + 2),
                 inst := decode (fetch_opcode s) } := by
      rw [emulate_group_simple s rnd hpc (by omega) (by omega) (by omega) (by omega)
        (by omega) (by omega), hg]
      by_cases hc : s.V X = s.V Y
      · simp [exec_simple, decode_X, decode_Y, hXd, hYd, hp, hp4, hc]
      · simp [exec_simple, decode_X, decode_Y, hXd, hYd, hp, hp4, hc]
    exact ⟨_, heq, rfl, rfl, rfl, rfl, rfl, rfl, rfl, rfl, rfl, rfl, rfl, rfl⟩

/-- C22: for every machine state, each conditional-skip opcode ends with
PC = old PC + 4 when its condition holds and PC = old PC + 2 otherwise, and
changes nothing else: 3XNN skips iff VX = NN, 4XNN iff VX is not NN, 5XY0 iff
VX = VY, 9XY0 iff VX is not VY.  So for two machines with the same operand values,
one at 3XNN and one at 4XNN (resp. 5XY0 and 9XY0), exactly one of the two skips. -/
theorem C22_conditional_skips (s : chip8_t) (rnd X Y NN : Nat) (hpc : s.PC + 1 < RAM_SIZE)
    (hX : X < 16) (hY : Y < 16) (hNN : NN < 256) :
    (fetch_opcode s = 0x3000 + X * 256 + NN →
      ∃ s', emulate_instruction s rnd = .ok s' ∧
        s'.PC = (if s.V X = NN then s.PC + 4 else s.PC + 2) ∧ same_except_PC s s') ∧
    (fetch_opcode s = 0x4000 + X * 256 + NN →
      ∃ s', emulate_instruction s rnd = .ok s' ∧
        s'.PC = (if s.V X ≠ NN then s.PC + 4 else s.PC + 2) ∧ same_except_PC s s') ∧
    (fetch_opcode s = 0x5000 + X * 256 + Y * 16 →
      ∃ s', emulate_instruction s rnd = .ok s' ∧
        s'.PC = (if s.V X = s.V Y then s.PC + 4 else s.PC + 2) ∧ same_except_PC s s') ∧
    (fetch_opcode s = 0x9000 + X * 256 + Y * 16 →
      ∃ s', emulate_instruction s rnd = .ok s' ∧
        s'.PC = (if s.V X ≠ s.V Y then s.PC + 4 else s.PC + 2) ∧ same_except_PC s s') ∧
    (∀ (t : chip8_t) (r : Nat), t.PC + 1 < RAM_SIZE → t.V X = s.V X →
      fetch_opcode s = 0x3000 + X * 256 + NN → fetch_opcode t = 0x4000 + X * 256 + NN →
      ∃ s' t', emulate_instruction s rnd = .ok s' ∧ emulate_instruction t r = .ok t' ∧
        ((s'.PC = s.PC + 4 ∧ t'.PC = t.PC + 2) ∨ (s'.PC = s.PC + 2 ∧ t'.PC = t.PC + 4))) ∧
    (∀ (t : chip8_t) (r : Nat), t.PC + 1 < RAM_SIZE → t.V X = s.V X → t.V Y = s.V Y →
      fetch_opcode s = 0x5000 + X * 256 + Y * 16 →
      fetch_opcode t = 0x9000 + X * 256 + Y * 16 →
      ∃ s' t', emulate_instruction s rnd = .ok s' ∧ emulate_instruction t r = .ok t' ∧
        ((s'.PC = s.PC + 4 ∧ t'.PC = t.PC + 2) ∨ (s'.PC = s.PC + 2 ∧ t'.PC = t.PC + 4))) := by
  obtain ⟨h3, h4, h5, h9⟩ := skip_cycle s rnd X Y NN hpc hX hY hNN
  refine ⟨h3, h4, h5, h9, ?_, ?_⟩
  · intro t r htpc hV hs ht
    obtain ⟨s', hs1, hs2, -⟩ := h3 hs
    obtain ⟨t', ht1, ht2, -⟩ := (skip_cycle t r X Y NN htpc hX hY hNN).2.1 ht
    refine ⟨s', t', hs1, ht1, ?_⟩
    rw [hs2, ht2, hV]
    by_cases hc : s.V X = NN
    · left; simp [hc]
    · right; simp [hc]
  · intro t r htpc hVX hVY hs ht
    obtain ⟨s', hs1, hs2, -⟩ := h5 hs
    obtain ⟨t', ht1, ht2, -⟩ := (skip_cycle t r X Y NN htpc hX hY hNN).2.2.2 ht
    refine ⟨s', t', hs1, ht1, ?_⟩
    rw [hs2, ht2, hVX, hVY]
    by_cases hc : s.V X = s.V Y
    · left; simp [hc]
    · right; simp [hc]

/-- C22, witness: ROMs `3005` and `4005` entered with V0 = 5 (the first skips, the
second does not), ROMs `5010` and `9010` entered with V0 = 5, V1 = 6 (the second
skips, the first does not). -/
theorem C22_conditional_skips_witness :
    ((machine_with_regs [0x30, 0x05] 5 6).PC + 1 < RAM_SIZE ∧
      fetch_opcode (machine_with_regs [0x30, 0x05] 5 6) = 0x3000 + 0 * 256 + 5 ∧
      ∃ s', emulate_instruction (machine_with_regs [0x30, 0x05] 5 6) 0 = .ok s' ∧
        s'.PC = (if (machine_with_regs [0x30, 0x05] 5 6).V 0 = 5
          then (machine_with_regs [0x30, 0x05] 5 6).PC + 4
          else (machine_with_regs [0x30, 0x05] 5 6).PC + 2) ∧
        same_except_PC (machine_with_regs [0x30, 0x05] 5 6) s') ∧
    ((machine_with_regs [0x90, 0x10] 5 6).PC + 1 < RAM_SIZE ∧
      fetch_opcode (machine_with_regs [0x90, 0x10] 5 6) = 0x9000 + 0 * 256 + 1 * 16 ∧
      ∃ s', emulate_instruction (machine_with_regs [0x90, 0x10] 5 6) 0 = .ok s' ∧
        s'.PC = (if (machine_with_regs [0x90, 0x10] 5 6).V 0 ≠
            (machine_with_regs [0x90, 0x10] 5 6).V 1
          then (machine_with_regs [0x90, 0x10] 5 6).PC + 4
          else (machine_with_regs [0x90, 0x10] 5 6).PC + 2) ∧
        same_except_PC (machine_with_regs [0x90, 0x10] 5 6) s') ∧
    ((machine_with_regs [0x40, 0x05] 5 6).PC + 1 < RAM_SIZE ∧
      (machine_with_regs [0x40, 0x05] 5 6).V 0 = (machine_with_regs [0x30, 0x05] 5 6).V 0 ∧
      fetch_opcode (machine_with_regs [0x40, 0x05] 5 6) = 0x4000 + 0 * 256 + 5 ∧
      ∃ s' t', emulate_instruction (machine_with_regs [0x30, 0x05] 5 6) 0 = .ok s' ∧
        emulate_instruction (machine_with_regs [0x40, 0x05] 5 6) 0 = .ok t' ∧
        ((s'.PC = (machine_with_regs [0x30, 0x05] 5 6).PC + 4 ∧
            t'.PC = (machine_with_regs [0x40, 0x05] 5 6).PC + 2) ∨
          (s'.PC = (machine_with_regs [0x30, 0x05] 5 6).PC + 2 ∧
            t'.PC = (machine_with_regs [0x40, 0x05] 5 6).PC + 4))) ∧
    ((machine_with_regs [0x50, 0x10] 5 6).PC + 1 < RAM_SIZE ∧
      fetch_opcode (machine_with_regs [0x50, 0x10] 5 6) = 0x5000 + 0 * 256 + 1 * 16 ∧
      (machine_with_regs [0x90, 0x10] 5 6).V 0 = (machine_with_regs [0x50, 0x10] 5 6).V 0 ∧
      (machine_with_regs [0x90, 0x10] 5 6).V 1 = (machine_with_regs [0x50, 0x10] 5 6).V 1 ∧
      ∃ s' t', emulate_instruction (machine_with_regs [0x50, 0x10] 5 6) 0 = .ok s' ∧
        emulate_instruction (machine_with_regs [0x90, 0x10] 5 6) 0 = .ok t' ∧
        ((s'.PC = (machine_with_regs [0x50, 0x10] 5 6).PC + 4 ∧
            t'.PC = (machine_with_regs [0x90, 0x10] 5 6).PC + 2) ∨
          (s'.PC = (machine_with_regs [0x50, 0x10] 5 6).PC + 2 ∧
            t'.PC = (machine_with_regs [0x90, 0x10] 5 6).PC + 4))) :=
  ⟨⟨by decide, by decide,
      (C22_conditional_skips (machine_with_regs [0x30, 0x05] 5 6) 0 0 1 5
        (by decide) (by decide) (by decide) (by decide)).1 (by decide)⟩,
    ⟨by decide, by decide,
      (C22_conditional_skips (machine_with_regs [0x90, 0x10] 5 6) 0 0 1 5
        (by decide) (by decide) (by decide) (by decide)).2.2.2.1 (by decide)⟩,
    ⟨by decide, by decide, by decide,
      (C22_conditional_skips (machine_with_regs [0x30, 0x05] 5 6) 0 0 1 5
        (by decide) (by decide) (by decide) (by decide)).2.2.2.2.1
        (machine_with_regs [0x40, 0x05] 5 6) 0 (by decide) (by decide) (by decide)
        (by decide)⟩,
    ⟨by decide, by decide, by decide, by decide,
      (C22_conditional_skips (machine_with_regs [0x50, 0x10] 5 6) 0 0 1 5
        (by decide) (by decide) (by decide) (by decide)).2.2.2.2.2
        (machine_with_regs [0x90, 0x10] 5 6) 0 (by decide) (by decide) (by decide)
        (by decide) (by decide)⟩⟩

/-! ## C23: the jumps 1NNN and BNNN -/

/-- C23: for every machine state, 1NNN ends with PC = NNN and BNNN ends with
PC = V0 + NNN (the sum of the byte V0 and the 12-bit NNN, not reduced to 12 bits);
neither result depends on the advanced PC, and nothing but PC changes: no
register, memory, stack, timer or framebuffer cell. -/
theorem C23_jumps (s : chip8_t) (rnd NNN : Nat) (hpc : s.PC + 1 < RAM_SIZE)
    (hNNN : NNN < 4096) :
    (fetch_opcode s = 0x1000 + NNN →
      ∃ s', emulate_instruction s rnd = .ok s' ∧ s'.PC = NNN ∧ same_except_PC s s') ∧
    (fetch_opcode s = 0xB000 + NNN → s.V 0 < 256 →
      ∃ s', emulate_instruction s rnd = .ok s' ∧ s'.PC = s.V 0 + NNN ∧
        same_except_PC s s') := by
  constructor
  · intro hop
    have hg : fetch_opcode s / 4096 % 16 = 1 := by omega
    have hNd : fetch_opcode s % 4096 = NNN := by omega
    have heq : emulate_instruction s rnd = .ok
        { s with PC := NNN, inst := decode (fetch_opcode s) } := by
      rw [emulate_group_simple s rnd hpc (by omega) (by omega) (by omega) (by omega)
        (by omega) (by omega), hg]
      simp [exec_simple, decode_NNN, hNd]
    exact ⟨_, heq, rfl, rfl, rfl, rfl, rfl, rfl, rfl, rfl, rfl, rfl, rfl, rfl⟩
  · intro hop hV0
    have hg : fetch_opcode s / 4096 % 16 = 0xB := by omega
    have hNd : fetch_opcode s % 4096 = NNN := by omega
    have hsum : (s.V 0 + NNN) % 65536 = s.V 0 + NNN := by omega
    have heq : emulate_instruction s rnd = .ok
        { s with PC := s.V 0 + NNN, inst := decode (fetch_opcode s) } := by
      rw [emulate_group_simple s rnd hpc (by omega) (by omega) (by omega) (by omega)
        (by omega) (by omega), hg]
      simp [exec_simple, decode_NNN, hNd, hsum]
    exact ⟨_, heq, rfl, rfl, rfl, rfl, rfl, rfl, rfl, rfl, rfl, rfl, rfl, rfl⟩

/-- C23, witness: ROM `1234` ends with PC = 0x234; ROM `BFFF` entered with
V0 = 0xFF ends with PC = 0x10FE, above the 12-bit range. -/
theorem C23_jumps_witness :
    ((machine_with_regs [0x12, 0x34] 0 0).PC + 1 < RAM_SIZE ∧
      fetch_opcode (machine_with_regs [0x12, 0x34] 0 0) = 0x1000 + 0x234 ∧
      ∃ s', emulate_instruction (machine_with_regs [0x12, 0x34] 0 0) 0 = .ok s' ∧
        s'.PC = 0x234 ∧ same_except_PC (machine_with_regs [0x12, 0x34] 0 0) s') ∧
    ((machine_with_regs [0xBF, 0xFF] 0xFF 0).PC + 1 < RAM_SIZE ∧
      fetch_opcode (machine_with_regs [0xBF, 0xFF] 0xFF 0) = 0xB000 + 0xFFF ∧
      (machine_with_regs [0xBF, 0xFF] 0xFF 0).V 0 < 256 ∧
      (machine_with_regs [0xBF, 0xFF] 0xFF 0).V 0 + 0xFFF = 0x10FE ∧
      ∃ s', emulate_instruction (machine_with_regs [0xBF, 0xFF] 0xFF 0) 0 = .ok s' ∧
        s'.PC = (machine_with_regs [0xBF, 0xFF] 0xFF 0).V 0 + 0xFFF ∧
        same_except_PC (machine_with_regs [0xBF, 0xFF] 0xFF 0) s') :=
  ⟨⟨by decide, by decide,
      (C23_jumps (machine_with_regs [0x12, 0x34] 0 0) 0 0x234 (by decide) (by decide)).1
        (by decide)⟩,
    ⟨by decide, by decide, by decide, by decide,
      (C23_jumps (machine_with_regs [0xBF, 0xFF] 0xFF 0) 0 0xFFF (by decide) (by decide)).2
        (by decide) (by decide)⟩⟩

/-! ## C24: FX1E and ANNN -/

/-- C24: for every machine state and every X, FX1E ends with
I = (I + VX) mod 65536 and leaves every register V0..VF (no overflow flag is
written to VF) and all memory unchanged; ANNN ends with I = NNN. -/
theorem C24_index_register (s : chip8_t) (rnd X NNN : Nat) (hpc : s.PC + 1 < RAM_SIZE)
    (hX : X < 16) (hNNN : NNN < 4096) :
    (fetch_opcode s = 0xF01E + X * 256 →
      ∃ s', emulate_instruction s rnd = .ok s' ∧ s'.I = (s.I + s.V X) % 65536 ∧
        (∀ i, s'.V i = s.V i) ∧ s'.ram = s.ram) ∧
    (fetch_opcode s = 0xA000 + NNN →
      ∃ s', emulate_instruction s rnd = .ok s' ∧ s'.I = NNN) := by
  constructor
  · intro hop
    have hg : fetch_opcode s / 4096 % 16 = 0xF := by omega
    have hXd : fetch_opcode s / 256 % 16 = X := by omega
    have hNd : fetch_opcode s % 256 = 0x1E := by omega
    have heq : emulate_instruction s rnd = .ok
        { s with PC := (s.PC + 2) % 65536, inst := decode (fetch_opcode s),
                 I := (s.I + s.V X) % 65536 } := by
      rw [emulate_group_F s rnd hpc hg]
      simp only [exec_F, decode_X, decode_NN, hXd, hNd]
      simp
    exact ⟨_, heq, rfl, fun _ => rfl, rfl⟩
  · intro hop
    have hg : fetch_opcode s / 4096 % 16 = 0xA := by omega
    have hNd : fetch_opcode s % 4096 = NNN := by omega
    have heq : emulate_instruction s rnd = .ok
        { s with PC := (s.PC + 2) % 65536, inst := decode (fetch_opcode s), I := NNN } := by
      rw [emulate_group_simple s rnd hpc (by omega) (by omega) (by omega) (by omega)
        (by omega) (by omega), hg]
      simp [exec_simple, decode_NNN, hNd]
    exact ⟨_, heq, rfl⟩

/-- C24, witness: ROM `F01E` entered with I = 0xFFFF and V0 = 2 ends with I = 1 and
VF = 0; ROM `A123` ends with I = 0x123. -/
theorem C24_index_register_witness :
    (index_wrap_state.PC + 1 < RAM_SIZE ∧
      fetch_opcode index_wrap_state = 0xF01E + 0 * 256 ∧
      (index_wrap_state.I + index_wrap_state.V 0) % 65536 = 1 ∧
      index_wrap_state.V 0xF = 0 ∧
      ∃ s', emulate_instruction index_wrap_state 0 = .ok s' ∧
        s'.I = (index_wrap_state.I + index_wrap_state.V 0) % 65536 ∧
        (∀ i, s'.V i = index_wrap_state.V i) ∧ s'.ram = index_wrap_state.ram) ∧
    ((machine_with_regs [0xA1, 0x23] 0 0).PC + 1 < RAM_SIZE ∧
      fetch_opcode (machine_with_regs [0xA1, 0x23] 0 0) = 0xA000 + 0x123 ∧
      ∃ s', emulate_instruction (machine_with_regs [0xA1, 0x23] 0 0) 0 = .ok s' ∧
        s'.I = 0x123) :=
  ⟨⟨by decide, by decide, by decide, by decide,
      (C24_index_register index_wrap_state 0 0 0 (by decide) (by decide) (by decide)).1
        (by decide)⟩,
    ⟨by decide, by decide,
      (C24_index_register (machine_with_regs [0xA1, 0x23] 0 0) 0 0 0x123
        (by decide) (by decide) (by decide)).2 (by decide)⟩⟩

/-! ## C25: FX29 and the glyph table -/

/-- Whatever `init_chip8` returns, memory bytes [0, 80) hold the table `font`. -/
theorem init_chip8_glyphs (c : chip8_t) (rom_name : String) (rom : Option (List Nat))
    (k : Nat) (hk : k < 80) : (init_chip8 c rom_name rom).2.ram k = font.getD k 0 := by
  have hlen : font.length = 80 := by decide
  unfold init_chip8
  cases rom with
  | none =>
    simp only [copy_at]
    rw [if_pos (by omega)]
    rfl
  | some bytes =>
    simp only
    split_ifs
    · simp only [copy_at]
      rw [if_pos (by omega)]
      rfl
    · simp only [copy_at]
      rw [if_pos (by omega)]
      rfl
    · simp only [copy_at]
      rw [if_neg (by omega), if_pos (by omega)]
      rfl

/-- The table `font` of `init_chip8` is the standard glyph table: bytes
5d .. 5d+4 are the standard glyph of digit d. -/
theorem font_standard : ∀ d, d < 16 → ∀ j, j < 5 →
    font.getD (5 * d + j) 0 = (standard_hex_glyph d).getD j 0 := by
  decide

/-- C25: for every machine state, FX29 ends with I = 5 * VX (VX a byte); and when
memory bytes [0, 80) are as `init_chip8` loads them and VX is a digit d in
0x0..0xF, the five bytes memory[I..I+5) after the cycle are the standard
hexadecimal glyph of d and lie inside memory[0, 80). -/
theorem C25_glyph_address (s : chip8_t) (rnd X : Nat) (hpc : s.PC + 1 < RAM_SIZE)
    (hX : X < 16) (hop : fetch_opcode s = 0xF029 + X * 256) (hVX : s.V X < 256) :
    ∃ s', emulate_instruction s rnd = .ok s' ∧ s'.I = 5 * s.V X ∧
      ∀ (rom_name : String) (rom : Option (List Nat)),
        (∀ k, k < 80 → s.ram k = (init_chip8 zero_chip8 rom_name rom).2.ram k) →
        s.V X < 16 →
        s'.I + 5 ≤ 80 ∧
        ∀ j, j < 5 → s'.ram (s'.I + j) = (standard_hex_glyph (s.V X)).getD j 0 := by
  have hg : fetch_opcode s / 4096 % 16 = 0xF := by omega
  have hXd : fetch_opcode s / 256 % 16 = X := by omega
  have hNd : fetch_opcode s % 256 = 0x29 := by omega
  have hI : (s.V X * 5) % 65536 = 5 * s.V X := by omega
  have heq : emulate_instruction s rnd = .ok
      { s with PC := (s.PC + 2) % 65536, inst := decode (fetch_opcode s),
               I := 5 * s.V X } := by
    rw [emulate_group_F s rnd hpc hg]
    simp only [exec_F, decode_X, decode_NN, hXd, hNd]
    simp [hI]
  refine ⟨_, heq, rfl, ?_⟩
  intro rom_name rom hram hd
  refine ⟨?_, ?_⟩
  · show 5 * s.V X + 5 ≤ 80
    omega
  · intro j hj
    show s.ram (5 * s.V X + j) = (standard_hex_glyph (s.V X)).getD j 0
    rw [hram _ (by omega), init_chip8_glyphs _ _ _ _ (by omega)]
    exact font_standard _ hd j hj

/-- C25, witness: ROM `600A F029` after its first cycle (V0 = 0xA): FX29 ends with
I = 50, and memory[50..55) is the glyph of A, `F0 90 F0 90 90`. -/
theorem C25_glyph_address_witness :
    glyph_address_state.PC + 1 < RAM_SIZE ∧
    fetch_opcode glyph_address_state = 0xF029 + 0 * 256 ∧
    glyph_address_state.V 0 < 256 ∧ glyph_address_state.V 0 = 0xA ∧
    (∀ k, k < 80 → glyph_address_state.ram k =
      (init_chip8 zero_chip8 "rom" (some [0x60, 0x0A, 0xF0, 0x29])).2.ram k) ∧
    standard_hex_glyph 0xA = [0xF0, 0x90, 0xF0, 0x90, 0x90] ∧
    ∃ s', emulate_instruction glyph_address_state 0 = .ok s' ∧
      s'.I = 5 * glyph_address_state.V 0 ∧
      ∀ (rom_name : String) (rom : Option (List Nat)),
        (∀ k, k < 80 → glyph_address_state.ram k =
          (init_chip8 zero_chip8 rom_name rom).2.ram k) →
        glyph_address_state.V 0 < 16 →
        s'.I + 5 ≤ 80 ∧
        ∀ j, j < 5 →
          s'.ram (s'.I + j) = (standard_hex_glyph (glyph_address_state.V 0)).getD j 0 :=
  ⟨by decide, by decide, by decide, by decide, fun _ _ => rfl, by decide,
    C25_glyph_address glyph_address_state 0 0 (by decide) (by decide) (by decide)
      (by decide)⟩

/-! ## C26: the key skips EX9E and EXA1 -/

/-- C26: for every machine state with VX at most 0xF, EX9E ends with
PC = old PC + 4 if key VX is pressed and old PC + 2 otherwise, and EXA1 ends with
PC = old PC + 4 if key VX is not pressed and old PC + 2 otherwise; the key looked
up is `keypad[VX]`, indexed by the value of VX, and nothing but PC changes. -/
theorem C26_key_skips (s : chip8_t) (rnd X : Nat) (hpc : s.PC + 1 < RAM_SIZE)
    (hX : X < 16) (hVX : s.V X ≤ 0xF) :
    (fetch_opcode s = 0xE09E + X * 256 →
      ∃ s', emulate_instruction s rnd = .ok s' ∧
        s'.PC = (if s.keypad (s.V X) = true then s.PC + 4 else s.PC + 2) ∧
        same_except_PC s s') ∧
    (fetch_opcode s = 0xE0A1 + X * 256 →
      ∃ s', emulate_instruction s rnd = .ok s' ∧
        s'.PC = (if s.keypad (s.V X) = false then s.PC + 4 else s.PC + 2) ∧
        same_except_PC s s') := by
  have hR : RAM_SIZE = 4096 := rfl
  have hp : (s.PC + 2) % 65536 = s.PC + 2 := by omega
  have hp4 : (s.PC + 2 + 2) % 65536 = s.PC + 4 := by omega
  have hlt : s.V X < 16 := by omega
  constructor
  · intro hop
    have hg : fetch_opcode s / 4096 % 16 = 0xE := by omega
    have hXd : fetch_opcode s / 256 % 16 = X := by omega
    have hNd : fetch_opcode s % 256 = 0x9E := by omega
    have heq : emulate_instruction s rnd = .ok
        { s with PC := (if s.keypad (s.V X) = true then s.PC + 4 else s.PC + 2),
                 inst := decode (fetch_opcode s) } := by
      rw [emulate_group_E s rnd hpc hg]
      simp only [exec_E, decode_X, decode_NN, hXd, hNd]
      by_cases hk : s.keypad (s.V X) = true
      · simp [hlt, hk, hp, hp4]
      · simp [hlt, hk, hp, hp4]
    exact ⟨_, heq, rfl, rfl, rfl, rfl, rfl, rfl, rfl, rfl, rfl, rfl, rfl, rfl⟩
  · intro hop
    have hg : fetch_opcode s / 4096 % 16 = 0xE := by omega
    have hXd : fetch_opcode s / 256 % 16 = X := by omega
    have hNd : fetch_opcode s % 256 = 0xA1 := by omega
    have heq : emulate_instruction s rnd = .ok
        { s with PC := (if s.keypad (s.V X) = false then s.PC + 4 else s.PC + 2),
                 inst := decode (fetch_opcode s) } := by
      rw [emulate_group_E s rnd hpc hg]
      simp only [exec_E, decode_X, decode_NN, hXd, hNd]
      by_cases hk : s.keypad (s.V X) = true
      · simp [hlt, hk, hp, hp4]
      · simp [hlt, hk, hp, hp4]
    exact ⟨_, heq, rfl, rfl, rfl, rfl, rfl, rfl, rfl, rfl, rfl, rfl, rfl, rfl⟩

/-- C26, witness: ROMs `E09E` and `E0A1` entered with V0 = 5 and only key 5 held
down (key 0, the key with index X, is up): EX9E skips, EXA1 does not. -/
theorem C26_key_skips_witness :
    ((machine_with_keys [0xE0, 0x9E] 5 5 5).PC + 1 < RAM_SIZE ∧
      (machine_with_keys [0xE0, 0x9E] 5 5 5).V 0 ≤ 0xF ∧
      fetch_opcode (machine_with_keys [0xE0, 0x9E] 5 5 5) = 0xE09E + 0 * 256 ∧
      (machine_with_keys [0xE0, 0x9E] 5 5 5).keypad 0 = false ∧
      (machine_with_keys [0xE0, 0x9E] 5 5 5).keypad
        ((machine_with_keys [0xE0, 0x9E] 5 5 5).V 0) = true ∧
      ∃ s', emulate_instruction (machine_with_keys [0xE0, 0x9E] 5 5 5) 0 = .ok s' ∧
        s'.PC = (if (machine_with_keys [0xE0, 0x9E] 5 5 5).keypad
            ((machine_with_keys [0xE0, 0x9E] 5 5 5).V 0) = true
          then (machine_with_keys [0xE0, 0x9E] 5 5 5).PC + 4
          else (machine_with_keys [0xE0, 0x9E] 5 5 5).PC + 2) ∧
        same_except_PC (machine_with_keys [0xE0, 0x9E] 5 5 5) s') ∧
    ((machine_with_keys [0xE0, 0xA1] 5 5 5).PC + 1 < RAM_SIZE ∧
      (machine_with_keys [0xE0, 0xA1] 5 5 5).V 0 ≤ 0xF ∧
      fetch_opcode (machine_with_keys [0xE0, 0xA1] 5 5 5) = 0xE0A1 + 0 * 256 ∧
      ∃ s', emulate_instruction (machine_with_keys [0xE0, 0xA1] 5 5 5) 0 = .ok s' ∧
        s'.PC = (if (machine_with_keys [0xE0, 0xA1] 5 5 5).keypad
            ((machine_with_keys [0xE0, 0xA1] 5 5 5).V 0) = false
          then (machine_with_keys [0xE0, 0xA1] 5 5 5).PC + 4
          else (machine_with_keys [0xE0, 0xA1] 5 5 5).PC + 2) ∧
        same_except_PC (machine_with_keys [0xE0, 0xA1] 5 5 5) s') :=
  ⟨⟨by decide, by decide, by decide, by decide, by decide,
      (C26_key_skips (machine_with_keys [0xE0, 0x9E] 5 5 5) 0 0
        (by decide) (by decide) (by decide)).1 (by decide)⟩,
    ⟨by decide, by decide, by decide,
      (C26_key_skips (machine_with_keys [0xE0, 0xA1] 5 5 5) 0 0
        (by decide) (by decide) (by decide)).2 (by decide)⟩⟩

/-! ## C27: FX0A -/

/-- The key scan: either it finds nothing and all `n` keys from `i` on are up, or
it returns the first key from `i` on that is down. -/
theorem first_key_spec (kp : Nat → Bool) : ∀ (n i : Nat),
    (first_key kp n i = none ∧ ∀ t, t < n → kp (i + t) = false) ∨
    (∃ k, first_key kp n i = some k ∧ i ≤ k ∧ k < i + n ∧ kp k = true ∧
      ∀ j, i ≤ j → j < k → kp j = false) := by
  intro n
  induction n with
  | zero =>
    intro i
    left
    exact ⟨rfl, fun t ht => absurd ht (Nat.not_lt_zero t)⟩
  | succ n ih =>
    intro i
    by_cases hk : kp i = true
    · right
      refine ⟨i, ?_, Nat.le_refl i, by omega, hk, ?_⟩
      · simp [first_key, hk]
      · intro j h1 h2; omega
    · have hki : kp i = false := by simpa using hk
      have hstep : first_key kp (n + 1) i = first_key kp n (i + 1) := by
        simp [first_key, hki]
      rcases ih (i + 1) with ⟨hn, hall⟩ | ⟨k, hs, h1, h2, h3, h4⟩
      · left
        refine ⟨by rw [hstep, hn], ?_⟩
        intro t ht
        by_cases ht0 : t = 0
        · subst ht0; exact hki
        · have := hall (t - 1) (by omega)
          have e : i + 1 + (t - 1) = i + t := by omega
          rw [e] at this
          exact this
      · right
        refine ⟨k, by rw [hstep, hs], by omega, by omega, h3, ?_⟩
        intro j hj1 hj2
        by_cases hji : j = i
        · subst hji; exact hki
        · exact h4 j (by omega) hj2

/-- C27: for every machine state, one cycle on FX0A: if no key of the 16 is
pressed, PC after the cycle equals PC before the cycle (the same FX0A is
fetched again) and no register changes; if at least one key is pressed, VX ends
as the smallest pressed key index, the other registers are unchanged and
PC = old PC + 2.  In both cases memory, I, stack, timers and framebuffer are
unchanged. -/
theorem C27_await_key (s : chip8_t) (rnd X : Nat) (hpc : s.PC + 1 < RAM_SIZE)
    (hX : X < 16) (hop : fetch_opcode s = 0xF00A + X * 256) :
    ((∀ k, k < 16 → s.keypad k = false) →
      ∃ s', emulate_instruction s rnd = .ok s' ∧ s'.PC = s.PC ∧
        fetch_opcode s' = fetch_opcode s ∧ same_except_PC s s') ∧
    ((∃ k, k < 16 ∧ s.keypad k = true) →
      ∃ s' k, emulate_instruction s rnd = .ok s' ∧
        k < 16 ∧ s.keypad k = true ∧ (∀ j, j < k → s.keypad j = false) ∧
        s'.V X = k ∧ (∀ i, i ≠ X → s'.V i = s.V i) ∧ s'.PC = s.PC + 2 ∧
        s'.ram = s.ram ∧ s'.I = s.I ∧ s'.stack = s.stack ∧ s'.stack_ptr = s.stack_ptr ∧
        s'.delay_timer = s.delay_timer ∧ s'.sound_timer = s.sound_timer ∧
        s'.display = s.display) := by
  have hR : RAM_SIZE = 4096 := rfl
  have hp : (s.PC + 2) % 65536 = s.PC + 2 := by omega
  have hback2 : to_u16 (s.PC : Int) = s.PC := by
    unfold to_u16; omega
  have hg : fetch_opcode s / 4096 % 16 = 0xF := by omega
  have hXd : fetch_opcode s / 256 % 16 = X := by omega
  have hNd : fetch_opcode s % 256 = 0x0A := by omega
  have hstart : emulate_instruction s rnd =
      match first_key s.keypad 16 0 with
      | some i => .ok { s with PC := s.PC + 2, inst := decode (fetch_opcode s),
                               V := set_at s.V X i }
      | none => .ok { s with PC := s.PC, inst := decode (fetch_opcode s) } := by
    rw [emulate_group_F s rnd hpc hg]
    simp only [exec_F, decode_X, decode_NN, hXd, hNd, hp]
    cases first_key s.keypad 16 0 with
    | none => simp [hback2]
    | some i => simp
  constructor
  · intro hnone
    rcases first_key_spec s.keypad 16 0 with ⟨hn, -⟩ | ⟨k, -, -, h2, h3, -⟩
    · rw [hn] at hstart
      exact ⟨_, hstart, rfl, rfl, rfl, rfl, rfl, rfl, rfl, rfl, rfl, rfl, rfl, rfl, rfl⟩
    · rw [hnone k (by omega)] at h3
      cases h3
  · rintro ⟨k0, hk0, hdown⟩
    rcases first_key_spec s.keypad 16 0 with ⟨-, hall⟩ | ⟨k, hs, -, h2, h3, h4⟩
    · have := hall k0 hk0
      rw [Nat.zero_add, hdown] at this
      cases this
    · rw [hs] at hstart
      exact ⟨_, k, hstart, by omega, h3, fun j hj => h4 j (Nat.zero_le j) hj,
        set_at_same _ _ _, fun i hi => set_at_other _ _ _ _ hi,
        rfl, rfl, rfl, rfl, rfl, rfl, rfl, rfl⟩

/-- C27, witness: ROM `F00A` with no key down keeps PC = 0x200; with keys 3 and 7
down it ends with V0 = 3 and PC = 0x202. -/
theorem C27_await_key_witness :
    ((machine_with_regs [0xF0, 0x0A] 0 0).PC + 1 < RAM_SIZE ∧
      fetch_opcode (machine_with_regs [0xF0, 0x0A] 0 0) = 0xF00A + 0 * 256 ∧
      (∀ k, k < 16 → (machine_with_regs [0xF0, 0x0A] 0 0).keypad k = false) ∧
      ∃ s', emulate_instruction (machine_with_regs [0xF0, 0x0A] 0 0) 0 = .ok s' ∧
        s'.PC = (machine_with_regs [0xF0, 0x0A] 0 0).PC ∧
        fetch_opcode s' = fetch_opcode (machine_with_regs [0xF0, 0x0A] 0 0) ∧
        same_except_PC (machine_with_regs [0xF0, 0x0A] 0 0) s') ∧
    ((machine_with_keys [0xF0, 0x0A] 0 7 3).PC + 1 < RAM_SIZE ∧
      fetch_opcode (machine_with_keys [0xF0, 0x0A] 0 7 3) = 0xF00A + 0 * 256 ∧
      (∃ k, k < 16 ∧ (machine_with_keys [0xF0, 0x0A] 0 7 3).keypad k = true) ∧
      (∃ s', emulate_instruction (machine_with_keys [0xF0, 0x0A] 0 7 3) 0 = .ok s' ∧
        s'.V 0 = 3 ∧ s'.PC = 0x202) ∧
      ∃ s' k, emulate_instruction (machine_with_keys [0xF0, 0x0A] 0 7 3) 0 = .ok s' ∧
        k < 16 ∧ (machine_with_keys [0xF0, 0x0A] 0 7 3).keypad k = true ∧
        (∀ j, j < k → (machine_with_keys [0xF0, 0x0A] 0 7 3).keypad j = false) ∧
        s'.V 0 = k ∧ (∀ i, i ≠ 0 → s'.V i = (machine_with_keys [0xF0, 0x0A] 0 7 3).V i) ∧
        s'.PC = (machine_with_keys [0xF0, 0x0A] 0 7 3).PC + 2 ∧
        s'.ram = (machine_with_keys [0xF0, 0x0A] 0 7 3).ram ∧
        s'.I = (machine_with_keys [0xF0, 0x0A] 0 7 3).I ∧
        s'.stack = (machine_with_keys [0xF0, 0x0A] 0 7 3).stack ∧
        s'.stack_ptr = (machine_with_keys [0xF0, 0x0A] 0 7 3).stack_ptr ∧
        s'.delay_timer = (machine_with_keys [0xF0, 0x0A] 0 7 3).delay_timer ∧
        s'.sound_timer = (machine_with_keys [0xF0, 0x0A] 0 7 3).sound_timer ∧
        s'.display = (machine_with_keys [0xF0, 0x0A] 0 7 3).display) :=
  ⟨⟨by decide, by decide, fun _ _ => rfl,
      (C27_await_key (machine_with_regs [0xF0, 0x0A] 0 0) 0 0
        (by decide) (by decide) (by decide)).1 (fun _ _ => rfl)⟩,
    ⟨by decide, by decide, ⟨7, by decide, by decide⟩, ⟨_, rfl, by decide, by decide⟩,
      (C27_await_key (machine_with_keys [0xF0, 0x0A] 0 7 3) 0 0
        (by decide) (by decide) (by decide)).2 ⟨7, by decide, by decide⟩⟩⟩

/-! ## C28: the timer opcodes FX07, FX15, FX18 -/

/-- C28: for every machine state and every X: FX07 ends with VX = delay timer
(both timers and the other registers unchanged), FX15 ends with
delay timer = VX (sound timer and registers unchanged), FX18 ends with
sound timer = VX (delay timer and registers unchanged). -/
theorem C28_timer_opcodes (s : chip8_t) (rnd X : Nat) (hpc : s.PC + 1 < RAM_SIZE)
    (hX : X < 16) :
    (fetch_opcode s = 0xF007 + X * 256 →
      ∃ s', emulate_instruction s rnd = .ok s' ∧ s'.V X = s.delay_timer ∧
        (∀ i, i ≠ X → s'.V i = s.V i) ∧
        s'.delay_timer = s.delay_timer ∧ s'.sound_timer = s.sound_timer) ∧
    (fetch_opcode s = 0xF015 + X * 256 →
      ∃ s', emulate_instruction s rnd = .ok s' ∧ s'.delay_timer = s.V X ∧
        s'.sound_timer = s.sound_timer ∧ (∀ i, s'.V i = s.V i)) ∧
    (fetch_opcode s = 0xF018 + X * 256 →
      ∃ s', emulate_instruction s rnd = .ok s' ∧ s'.sound_timer = s.V X ∧
        s'.delay_timer = s.delay_timer ∧ (∀ i, s'.V i = s.V i)) := by
  refine ⟨?_, ?_, ?_⟩
  · intro hop
    have hg : fetch_opcode s / 4096 % 16 = 0xF := by omega
    have hXd : fetch_opcode s / 256 % 16 = X := by omega
    have hNd : fetch_opcode s % 256 = 0x07 := by omega
    have heq : emulate_instruction s rnd = .ok
        { s with PC := (s.PC + 2) % 65536, inst := decode (fetch_opcode s),
                 V := set_at s.V X s.delay_timer } := by
      rw [emulate_group_F s rnd hpc hg]
      simp only [exec_F, decode_X, decode_NN, hXd, hNd]
      simp
    exact ⟨_, heq, set_at_same _ _ _, fun i hi => set_at_other _ _ _ _ hi, rfl, rfl⟩
  · intro hop
    have hg : fetch_opcode s / 4096 % 16 = 0xF := by omega
    have hXd : fetch_opcode s / 256 % 16 = X := by omega
    have hNd : fetch_opcode s % 256 = 0x15 := by omega
    have heq : emulate_instruction s rnd = .ok
        { s with PC := (s.PC + 2) % 65536, inst := decode (fetch_opcode s),
                 delay_timer := s.V X } := by
      rw [emulate_group_F s rnd hpc hg]
      simp only [exec_F, decode_X, decode_NN, hXd, hNd]
      simp
    exact ⟨_, heq, rfl, rfl, fun _ => rfl⟩
  · intro hop
    have hg : fetch_opcode s / 4096 % 16 = 0xF := by omega
    have hXd : fetch_opcode s / 256 % 16 = X := by omega
    have hNd : fetch_opcode s % 256 = 0x18 := by omega
    have heq : emulate_instruction s rnd = .ok
        { s with PC := (s.PC + 2) % 65536, inst := decode (fetch_opcode s),
                 sound_timer := s.V X } := by
      rw [emulate_group_F s rnd hpc hg]
      simp only [exec_F, decode_X, decode_NN, hXd, hNd]
      simp
    exact ⟨_, heq, rfl, rfl, fun _ => rfl⟩

/-- C28, witness: ROMs `F007`, `F015`, `F018` entered with V0 = 7, delay timer 9
and sound timer 4. -/
theorem C28_timer_opcodes_witness :
    ((machine_with_timers [0xF0, 0x07] 7 9 4).PC + 1 < RAM_SIZE ∧
      fetch_opcode (machine_with_timers [0xF0, 0x07] 7 9 4) = 0xF007 + 0 * 256 ∧
      (machine_with_timers [0xF0, 0x07] 7 9 4).delay_timer = 9 ∧
      ∃ s', emulate_instruction (machine_with_timers [0xF0, 0x07] 7 9 4) 0 = .ok s' ∧
        s'.V 0 = (machine_with_timers [0xF0, 0x07] 7 9 4).delay_timer ∧
        (∀ i, i ≠ 0 → s'.V i = (machine_with_timers [0xF0, 0x07] 7 9 4).V i) ∧
        s'.delay_timer = (machine_with_timers [0xF0, 0x07] 7 9 4).delay_timer ∧
        s'.sound_timer = (machine_with_timers [0xF0, 0x07] 7 9 4).sound_timer) ∧
    (fetch_opcode (machine_with_timers [0xF0, 0x15] 7 9 4) = 0xF015 + 0 * 256 ∧
      (machine_with_timers [0xF0, 0x15] 7 9 4).V 0 = 7 ∧
      ∃ s', emulate_instruction (machine_with_timers [0xF0, 0x15] 7 9 4) 0 = .ok s' ∧
        s'.delay_timer = (machine_with_timers [0xF0, 0x15] 7 9 4).V 0 ∧
        s'.sound_timer = (machine_with_timers [0xF0, 0x15] 7 9 4).sound_timer ∧
        (∀ i, s'.V i = (machine_with_timers [0xF0, 0x15] 7 9 4).V i)) ∧
    (fetch_opcode (machine_with_timers [0xF0, 0x18] 7 9 4) = 0xF018 + 0 * 256 ∧
      ∃ s', emulate_instruction (machine_with_timers [0xF0, 0x18] 7 9 4) 0 = .ok s' ∧
        s'.sound_timer = (machine_with_timers [0xF0, 0x18] 7 9 4).V 0 ∧
        s'.delay_timer = (machine_with_timers [0xF0, 0x18] 7 9 4).delay_timer ∧
        (∀ i, s'.V i = (machine_with_timers [0xF0, 0x18] 7 9 4).V i)) :=
  ⟨⟨by decide, by decide, by decide,
      (C28_timer_opcodes (machine_with_timers [0xF0, 0x07] 7 9 4) 0 0
        (by decide) (by decide)).1 (by decide)⟩,
    ⟨by decide, by decide,
      (C28_timer_opcodes (machine_with_timers [0xF0, 0x15] 7 9 4) 0 0
        (by decide) (by decide)).2.1 (by decide)⟩,
    ⟨by decide,
      (C28_timer_opcodes (machine_with_timers [0xF0, 0x18] 7 9 4) 0 0
        (by decide) (by decide)).2.2 (by decide)⟩⟩

/-! ## C29: what a cycle writes to the timers and the keypad -/

theorem reg_dump_timers : ∀ (n i : Nat) (c c' : chip8_t), reg_dump n i c = .ok c' →
    c'.delay_timer = c.delay_timer ∧ c'.sound_timer = c.sound_timer := by
  intro n
  induction n with
  | zero => intro i c c' h; simp only [reg_dump] at h; cases h; exact ⟨rfl, rfl⟩
  | succ n ih =>
    intro i c c' h
    simp only [reg_dump] at h
    split_ifs at h
    have := ih _ _ _ h
    exact this

theorem reg_load_timers : ∀ (n i : Nat) (c c' : chip8_t), reg_load n i c = .ok c' →
    c'.delay_timer = c.delay_timer ∧ c'.sound_timer = c.sound_timer := by
  intro n
  induction n with
  | zero => intro i c c' h; simp only [reg_load] at h; cases h; exact ⟨rfl, rfl⟩
  | succ n ih =>
    intro i c c' h
    simp only [reg_load] at h
    split_ifs at h
    have := ih _ _ _ h
    exact this

theorem exec_0_timers (c c' : chip8_t) (h : exec_0 c = .ok c') :
    c'.delay_timer = c.delay_timer ∧ c'.sound_timer = c.sound_timer := by
  unfold exec_0 at h
  split_ifs at h <;> (cases h; exact ⟨rfl, rfl⟩)

theorem exec_2_timers (c c' : chip8_t) (h : exec_2 c = .ok c') :
    c'.delay_timer = c.delay_timer ∧ c'.sound_timer = c.sound_timer := by
  unfold exec_2 at h
  split_ifs at h
  cases h; exact ⟨rfl, rfl⟩

theorem exec_8_timers (c c' : chip8_t) (h : exec_8 c = .ok c') :
    c'.delay_timer = c.delay_timer ∧ c'.sound_timer = c.sound_timer := by
  obtain ⟨V, hV⟩ := exec_8_writes c
  rw [hV] at h
  cases h
  exact ⟨rfl, rfl⟩

theorem exec_D_timers (c c' : chip8_t) (h : exec_D c = .ok c') :
    c'.delay_timer = c.delay_timer ∧ c'.sound_timer = c.sound_timer := by
  unfold exec_D at h
  have hfr := draw_sprite_frame_of_ok _ _ _ _ _ _
    (Nat.mod_lt _ (by decide)) (Nat.mod_lt _ (by decide)) h
  exact ⟨hfr.2.2.2.2.2.2.2.1, hfr.2.2.2.2.2.2.2.2.1⟩

theorem exec_E_timers (c c' : chip8_t) (h : exec_E c = .ok c') :
    c'.delay_timer = c.delay_timer ∧ c'.sound_timer = c.sound_timer := by
  unfold exec_E at h
  split_ifs at h <;> (cases h; exact ⟨rfl, rfl⟩)

theorem exec_simple_timers (op : Nat) (c : chip8_t) (rnd : Nat) :
    (exec_simple op c rnd).delay_timer = c.delay_timer ∧
    (exec_simple op c rnd).sound_timer = c.sound_timer := by
  obtain ⟨V, I, PC, h⟩ := exec_simple_writes op c rnd
  rw [h]
  exact ⟨rfl, rfl⟩

/-- Group F writes the delay timer only in FX15 and the sound timer only in FX18. -/
theorem exec_F_timers (c c' : chip8_t) (h : exec_F c = .ok c') :
    (c.inst.NN ≠ 0x15 → c'.delay_timer = c.delay_timer) ∧
    (c.inst.NN ≠ 0x18 → c'.sound_timer = c.sound_timer) := by
  unfold exec_F at h
  simp only at h
  by_cases h0A : c.inst.NN = 0x0A
  · rw [if_pos h0A] at h
    split at h <;> (cases h; exact ⟨fun _ => rfl, fun _ => rfl⟩)
  rw [if_neg h0A] at h
  by_cases h1E : c.inst.NN = 0x1E
  · rw [if_pos h1E] at h; cases h; exact ⟨fun _ => rfl, fun _ => rfl⟩
  rw [if_neg h1E] at h
  by_cases h07 : c.inst.NN = 0x07
  · rw [if_pos h07] at h; cases h; exact ⟨fun _ => rfl, fun _ => rfl⟩
  rw [if_neg h07] at h
  by_cases h15 : c.inst.NN = 0x15
  · rw [if_pos h15] at h; cases h; exact ⟨fun hne => absurd h15 hne, fun _ => rfl⟩
  rw [if_neg h15] at h
  by_cases h18 : c.inst.NN = 0x18
  · rw [if_pos h18] at h; cases h; exact ⟨fun _ => rfl, fun hne => absurd h18 hne⟩
  rw [if_neg h18] at h
  by_cases h29 : c.inst.NN = 0x29
  · rw [if_pos h29] at h; cases h; exact ⟨fun _ => rfl, fun _ => rfl⟩
  rw [if_neg h29] at h
  by_cases h33 : c.inst.NN = 0x33
  · rw [if_pos h33] at h
    split_ifs at h
    cases h
    exact ⟨fun _ => rfl, fun _ => rfl⟩
  rw [if_neg h33] at h
  by_cases h55 : c.inst.NN = 0x55
  · rw [if_pos h55] at h
    have := reg_dump_timers _ _ _ _ h
    exact ⟨fun _ => this.1, fun _ => this.2⟩
  rw [if_neg h55] at h
  by_cases h65 : c.inst.NN = 0x65
  · rw [if_pos h65] at h
    have := reg_load_timers _ _ _ _ h
    exact ⟨fun _ => this.1, fun _ => this.2⟩
  rw [if_neg h65] at h
  cases h; exact ⟨fun _ => rfl, fun _ => rfl⟩

/-- A cycle that returns writes the delay timer only on FX15 and the sound timer
only on FX18. -/
theorem emulate_instruction_timers (s s' : chip8_t) (rnd : Nat)
    (h : emulate_instruction s rnd = .ok s') :
    (¬ (fetch_opcode s / 4096 % 16 = 0xF ∧ fetch_opcode s % 256 = 0x15) →
      s'.delay_timer = s.delay_timer) ∧
    (¬ (fetch_opcode s / 4096 % 16 = 0xF ∧ fetch_opcode s % 256 = 0x18) →
      s'.sound_timer = s.sound_timer) := by
  unfold emulate_instruction at h
  simp only [dispatch_nibble, decode_opcode] at h
  split_ifs at h with hpc h0 h2 h8 hD hE hF
  · have := exec_0_timers _ _ h; exact ⟨fun _ => this.1, fun _ => this.2⟩
  · have := exec_2_timers _ _ h; exact ⟨fun _ => this.1, fun _ => this.2⟩
  · have := exec_8_timers _ _ h; exact ⟨fun _ => this.1, fun _ => this.2⟩
  · have := exec_D_timers _ _ h; exact ⟨fun _ => this.1, fun _ => this.2⟩
  · have := exec_E_timers _ _ h; exact ⟨fun _ => this.1, fun _ => this.2⟩
  · have := exec_F_timers _ _ h
    simp only [decode_NN] at this
    exact ⟨fun hn => this.1 (fun e => hn ⟨hF, e⟩), fun hn => this.2 (fun e => hn ⟨hF, e⟩)⟩
  · injection h with h
    subst h
    have := exec_simple_timers (fetch_opcode s / 4096 % 16)
      { s with PC := (s.PC + 2) % 65536, inst := decode (fetch_opcode s) } rnd
    exact ⟨fun _ => this.1, fun _ => this.2⟩

/-- C29, counterexample: ROM `60FF AFFF F01E (x8) 6041 F01E F055` on a created
machine.  Twelve cycles reach I = 6200 with V0 = 0x41, the delay timer at 0 and
`F055` next, an opcode that is neither FX15 nor FX18.  Its store goes to
memory[6200], outside 0..4095, so the cycle has no defined result and no timer
value after it is determined (in the C object the cell at that offset lies
beyond `ram`, among the fields that follow it). -/
theorem C29_counterexample :
    (init_chip8 zero_chip8 "rom" (some index_overrun_rom)).1 = true ∧
    ∃ s, run_cycles 12 (machine_with_rom index_overrun_rom) (fun _ => 0) = .ok s ∧
      fetch_opcode s = 0xF055 ∧ s.I = 6200 ∧ s.V 0 = 0x41 ∧ s.delay_timer = 0 ∧
      ¬ (fetch_opcode s / 4096 % 16 = 0xF ∧ fetch_opcode s % 256 = 0x15) ∧
      emulate_instruction s 0 = .error .ram_out_of_bounds ∧
      ¬ ∃ s', emulate_instruction s 0 = .ok s' :=
  ⟨by decide, _, rfl, by decide, by decide, by decide, by decide, by decide, rfl,
    fun h => by obtain ⟨s', hs'⟩ := h; cases hs'⟩

/-- C29, amended: for every machine state and every opcode, a cycle of
`emulate_instruction` that returns leaves the delay timer unchanged unless the
opcode is FX15, leaves the sound timer unchanged unless the opcode is FX18, and
leaves all 16 key states unchanged. -/
theorem C29_timers_and_keys_kept (s s' : chip8_t) (rnd : Nat)
    (h : emulate_instruction s rnd = .ok s') :
    (¬ (fetch_opcode s / 4096 % 16 = 0xF ∧ fetch_opcode s % 256 = 0x15) →
      s'.delay_timer = s.delay_timer) ∧
    (¬ (fetch_opcode s / 4096 % 16 = 0xF ∧ fetch_opcode s % 256 = 0x18) →
      s'.sound_timer = s.sound_timer) ∧
    (∀ k, k < 16 → s'.keypad k = s.keypad k) := by
  have ht := emulate_instruction_timers s s' rnd h
  have hc := emulate_instruction_controller s s' rnd h
  refine ⟨ht.1, ht.2, ?_⟩
  intro k _
  rw [hc.2.1]

/-- C29, witness: ROM `F015` entered with V0 = 7, delay timer 9, sound timer 4 and
keys 3 and 7 down: the sound timer and the keys are kept (the delay timer is
written); ROM `F018` keeps the delay timer. -/
theorem C29_timers_and_keys_kept_witness :
    (emulate_instruction timers_keys_state 0 = .ok (after_cycle timers_keys_state 0) ∧
      ¬ (fetch_opcode timers_keys_state / 4096 % 16 = 0xF ∧
        fetch_opcode timers_keys_state % 256 = 0x18) ∧
      (after_cycle timers_keys_state 0).sound_timer = timers_keys_state.sound_timer ∧
      (∀ k, k < 16 → (after_cycle timers_keys_state 0).keypad k =
        timers_keys_state.keypad k)) ∧
    (emulate_instruction (machine_with_timers [0xF0, 0x18] 7 9 4) 0 =
        .ok (after_cycle (machine_with_timers [0xF0, 0x18] 7 9 4) 0) ∧
      ¬ (fetch_opcode (machine_with_timers [0xF0, 0x18] 7 9 4) / 4096 % 16 = 0xF ∧
        fetch_opcode (machine_with_timers [0xF0, 0x18] 7 9 4) % 256 = 0x15) ∧
      (after_cycle (machine_with_timers [0xF0, 0x18] 7 9 4) 0).delay_timer =
        (machine_with_timers [0xF0, 0x18] 7 9 4).delay_timer) :=
  ⟨⟨rfl, by decide,
      (C29_timers_and_keys_kept timers_keys_state (after_cycle timers_keys_state 0) 0
        rfl).2.1 (by decide),
      (C29_timers_and_keys_kept timers_keys_state (after_cycle timers_keys_state 0) 0
        rfl).2.2⟩,
    ⟨rfl, by decide,
      (C29_timers_and_keys_kept (machine_with_timers [0xF0, 0x18] 7 9 4)
        (after_cycle (machine_with_timers [0xF0, 0x18] 7 9 4) 0) 0 rfl).1 (by decide)⟩⟩

/-! ## C30: the timer driver -/

/-- One call of `update_timers` in closed form: each timer steps down by one,
stopping at 0, and nothing else changes. -/
theorem update_timers_step (s : chip8_t) :
    update_timers s =
      { s with delay_timer := s.delay_timer - 1, sound_timer := s.sound_timer - 1 } := by
  have hd : (if s.delay_timer > 0 then s.delay_timer - 1 else s.delay_timer) =
      s.delay_timer - 1 := by
    split_ifs <;> omega
  have hs : (if s.sound_timer > 0 then s.sound_timer - 1 else s.sound_timer) =
      s.sound_timer - 1 := by
    split_ifs <;> omega
  simp only [update_timers, hd, hs]

/-- The machine after `k` calls of `update_timers`, in closed form. -/
theorem update_timers_iterate : ∀ (k : Nat) (s : chip8_t),
    Nat.iterate update_timers k s =
      { s with delay_timer := s.delay_timer - k, sound_timer := s.sound_timer - k } := by
  intro k
  induction k with
  | zero => intro s; rfl
  | succ k ih =>
    intro s
    rw [Function.iterate_succ_apply, ih, update_timers_step]
    have hd : s.delay_timer - 1 - k = s.delay_timer - (k + 1) := by omega
    have hs : s.sound_timer - 1 - k = s.sound_timer - (k + 1) := by omega
    simp only [hd, hs]

/-- C30: for all initial timer values D and S and every k, after k calls of
`update_timers` with no instruction executed the delay timer equals
max(D - k, 0) and the sound timer equals max(S - k, 0); one call steps each timer
down by one exactly when it is above 0, independently of the other; nothing else
in the machine changes; and from delay = N the timer reads 0 after N calls and
after every later call. -/
theorem C30_timer_countdown (s : chip8_t) (k : Nat) :
    ((Nat.iterate update_timers k s).delay_timer : Int) =
      max ((s.delay_timer : Int) - (k : Int)) 0 ∧
    ((Nat.iterate update_timers k s).sound_timer : Int) =
      max ((s.sound_timer : Int) - (k : Int)) 0 ∧
    (update_timers s).delay_timer =
      (if s.delay_timer > 0 then s.delay_timer - 1 else s.delay_timer) ∧
    (update_timers s).sound_timer =
      (if s.sound_timer > 0 then s.sound_timer - 1 else s.sound_timer) ∧
    Nat.iterate update_timers k s =
      { s with delay_timer := (Nat.iterate update_timers k s).delay_timer,
               sound_timer := (Nat.iterate update_timers k s).sound_timer } ∧
    (Nat.iterate update_timers (s.delay_timer + k) s).delay_timer = 0 := by
  refine ⟨?_, ?_, rfl, rfl, ?_, ?_⟩
  · rw [update_timers_iterate]
    show ((s.delay_timer - k : Nat) : Int) = _
    omega
  · rw [update_timers_iterate]
    show ((s.sound_timer - k : Nat) : Int) = _
    omega
  · rw [update_timers_iterate]
  · rw [update_timers_iterate]
    show s.delay_timer - (s.delay_timer + k) = 0
    omega

/-! ## C31: 00E0 -/

/-- The cycle on 00E0: it returns, and the machine after it is the machine before
it with PC advanced by 2 and the 64*32 framebuffer cells zeroed. -/
theorem clear_cycle (s : chip8_t) (rnd : Nat) (hpc : s.PC + 1 < RAM_SIZE)
    (hop : fetch_opcode s = 0x00E0) :
    emulate_instruction s rnd = .ok
      { s with PC := s.PC + 2, inst := decode (fetch_opcode s),
               display := fun k => if k < DISPLAY_SIZE then 0 else s.display k } := by
  have hR : RAM_SIZE = 4096 := rfl
  have hp : (s.PC + 2) % 65536 = s.PC + 2 := by omega
  rw [emulate_group_0 s rnd hpc (by omega)]
  have hNN : (decode (fetch_opcode s)).NN = 0xE0 := by rw [decode_NN]; omega
  simp only [exec_0, hNN, hp]
  simp

/-- C31: for every machine state, opcode 00E0 ends with every one of the 64*32
framebuffer cells equal to 0 and with registers, I, memory, stack and timers
unchanged; hence 00E0, then a DXYN (its sprite rows inside memory), then 00E0
again: all three cycles return and the framebuffer is all zero. -/
theorem C31_clear_screen (s : chip8_t) (r1 : Nat) (hpc : s.PC + 1 < RAM_SIZE)
    (hop : fetch_opcode s = 0x00E0) :
    ∃ s1, emulate_instruction s r1 = .ok s1 ∧
      (∀ k, k < DISPLAY_SIZE → s1.display k = 0) ∧
      s1.V = s.V ∧ s1.I = s.I ∧ s1.ram = s.ram ∧ s1.stack = s.stack ∧
      s1.stack_ptr = s.stack_ptr ∧ s1.delay_timer = s.delay_timer ∧
      s1.sound_timer = s.sound_timer ∧
      ∀ (r2 r3 X Y N : Nat), X < 16 → Y < 16 → N < 16 → s.PC + 5 < RAM_SIZE →
        fetch_opcode { s with PC := s.PC + 2 } = 0xD000 + X * 256 + Y * 16 + N →
        fetch_opcode { s with PC := s.PC + 4 } = 0x00E0 →
        (∀ t, t < N → s.V Y % 32 + t < 32 → s.I + t < RAM_SIZE) →
        ∃ s2 s3, emulate_instruction s1 r2 = .ok s2 ∧ emulate_instruction s2 r3 = .ok s3 ∧
          ∀ k, k < DISPLAY_SIZE → s3.display k = 0 := by
  have hR : RAM_SIZE = 4096 := rfl
  obtain ⟨s1, hok1, hdisp1, hV1, hI1, hram1, hst1, hsp1, hdt1, hsd1, hPC1⟩ :
      ∃ s1, emulate_instruction s r1 = .ok s1 ∧
        (∀ k, k < DISPLAY_SIZE → s1.display k = 0) ∧
        s1.V = s.V ∧ s1.I = s.I ∧ s1.ram = s.ram ∧ s1.stack = s.stack ∧
        s1.stack_ptr = s.stack_ptr ∧ s1.delay_timer = s.delay_timer ∧
        s1.sound_timer = s.sound_timer ∧ s1.PC = s.PC + 2 := by
    refine ⟨_, clear_cycle s r1 hpc hop, ?_, rfl, rfl, rfl, rfl, rfl, rfl, rfl, rfl⟩
    intro k hk
    show (if k < DISPLAY_SIZE then 0 else s.display k) = 0
    rw [if_pos hk]
  refine ⟨s1, hok1, hdisp1, hV1, hI1, hram1, hst1, hsp1, hdt1, hsd1, ?_⟩
  intro r2 r3 X Y N hX hY hN hpc5 hop2 hop3 hmem
  have hf2 : fetch_opcode s1 = 0xD000 + X * 256 + Y * 16 + N := by
    rw [← hop2]
    simp only [fetch_opcode, hram1, hPC1]
  have hpc1 : s1.PC + 1 < RAM_SIZE := by rw [hPC1]; omega
  obtain ⟨s2, hok2, hram2, -, -, -, -, -⟩ :=
    DXYN_defined s1 r2 X Y N (s1.V X % 64) (s1.V Y % 32) hpc1 hX hY hN hf2 rfl rfl
      (by rw [hV1, hI1]; exact hmem)
  have hPC2 : s2.PC = s1.PC + 2 := DXYN_PC s1 s2 r2 X Y N hpc1 hX hY hN hf2 hok2
  have hPC2b : s2.PC = s.PC + 4 := by rw [hPC2, hPC1]
  have hf3 : fetch_opcode s2 = 0x00E0 := by
    rw [← hop3]
    simp only [fetch_opcode, hram2, hram1, hPC2b]
  refine ⟨s2, _, hok2, clear_cycle s2 r3 (by rw [hPC2b]; omega) hf3, ?_⟩
  intro k hk
  show (if k < DISPLAY_SIZE then 0 else s2.display k) = 0
  rw [if_pos hk]

/-- C31, witness: ROM `D001 00E0 D001 00E0` after its first cycle (a sprite row on
the screen, cell 0 not zero): `00E0` clears, and `00E0 D001 00E0` ends all zero. -/
theorem C31_clear_screen_witness :
    clear_state.PC + 1 < RAM_SIZE ∧ fetch_opcode clear_state = 0x00E0 ∧
    clear_state.display 0 ≠ 0 ∧ clear_state.PC + 5 < RAM_SIZE ∧
    fetch_opcode { clear_state with PC := clear_state.PC + 2 } =
      0xD000 + 0 * 256 + 0 * 16 + 1 ∧
    fetch_opcode { clear_state with PC := clear_state.PC + 4 } = 0x00E0 ∧
    (∀ t, t < 1 → clear_state.V 0 % 32 + t < 32 → clear_state.I + t < RAM_SIZE) ∧
    ∃ s1, emulate_instruction clear_state 0 = .ok s1 ∧
      (∀ k, k < DISPLAY_SIZE → s1.display k = 0) ∧
      s1.V = clear_state.V ∧ s1.I = clear_state.I ∧ s1.ram = clear_state.ram ∧
      s1.stack = clear_state.stack ∧ s1.stack_ptr = clear_state.stack_ptr ∧
      s1.delay_timer = clear_state.delay_timer ∧
      s1.sound_timer = clear_state.sound_timer ∧
      ∀ (r2 r3 X Y N : Nat), X < 16 → Y < 16 → N < 16 → clear_state.PC + 5 < RAM_SIZE →
        fetch_opcode { clear_state with PC := clear_state.PC + 2 } =
          0xD000 + X * 256 + Y * 16 + N →
        fetch_opcode { clear_state with PC := clear_state.PC + 4 } = 0x00E0 →
        (∀ t, t < N → clear_state.V Y % 32 + t < 32 → clear_state.I + t < RAM_SIZE) →
        ∃ s2 s3, emulate_instruction s1 r2 = .ok s2 ∧ emulate_instruction s2 r3 = .ok s3 ∧
          ∀ k, k < DISPLAY_SIZE → s3.display k = 0 :=
  ⟨by decide, by decide, by decide, by decide, by decide, by decide, by decide,
    C31_clear_screen clear_state 0 (by decide) (by decide)⟩

/-! ## The input adapter and the controller state -/

theorem same_machine_refl (c : chip8_t) : same_machine c c :=
  ⟨rfl, rfl, rfl, rfl, rfl, rfl, rfl, rfl, rfl⟩

theorem same_machine_trans {a b c : chip8_t} (h1 : same_machine a b)
    (h2 : same_machine b c) : same_machine a c := by
  obtain ⟨a1, a2, a3, a4, a5, a6, a7, a8, a9⟩ := h1
  obtain ⟨b1, b2, b3, b4, b5, b6, b7, b8, b9⟩ := h2
  exact ⟨b1.trans a1, b2.trans a2, b3.trans a3, b4.trans a4, b5.trans a5, b6.trans a6,
    b7.trans a7, b8.trans a8, b9.trans a9⟩

theorem set_key_machine (c : chip8_t) (sym : SDL_Keycode) (v : Bool) :
    same_machine c (set_key c sym v) ∧ (set_key c sym v).state = c.state := by
  unfold set_key
  split <;> exact ⟨⟨rfl, rfl, rfl, rfl, rfl, rfl, rfl, rfl, rfl⟩, rfl⟩

/-- A key-down event of a key other than Escape and Space stores into the keypad
and the draining goes on. -/
theorem handle_input_keydown (c : chip8_t) (sym : SDL_Keycode) (rest : List SDL_Event)
    (hesc : sym ≠ .SDLK_ESCAPE) (hsp : sym ≠ .SDLK_SPACE) :
    handle_input c (.SDL_KEYDOWN sym :: rest) = handle_input (set_key c sym true) rest := by
  cases sym <;> simp_all [handle_input]

/-- Input draining writes nothing but the controller state and the keypad. -/
theorem handle_input_machine : ∀ (evs : List SDL_Event) (c : chip8_t),
    same_machine c (handle_input c evs).1 := by
  intro evs
  induction evs with
  | nil => intro c; exact same_machine_refl c
  | cons e rest ih =>
    intro c
    cases e with
    | SDL_QUIT => exact ⟨rfl, rfl, rfl, rfl, rfl, rfl, rfl, rfl, rfl⟩
    | SDL_OTHER => simp only [handle_input]; exact ih c
    | SDL_KEYUP sym =>
      simp only [handle_input]
      exact same_machine_trans (set_key_machine c sym false).1 (ih _)
    | SDL_KEYDOWN sym =>
      by_cases hesc : sym = .SDLK_ESCAPE
      · subst hesc; exact ⟨rfl, rfl, rfl, rfl, rfl, rfl, rfl, rfl, rfl⟩
      by_cases hsp : sym = .SDLK_SPACE
      · subst hsp; exact ⟨rfl, rfl, rfl, rfl, rfl, rfl, rfl, rfl, rfl⟩
      rw [handle_input_keydown c sym rest hesc hsp]
      exact same_machine_trans (set_key_machine c sym true).1 (ih _)

theorem plain_events_cons (e : SDL_Event) (rest : List SDL_Event) :
    plain_events (e :: rest) = true ↔
      is_quit e = false ∧ is_pause_toggle e = false ∧ plain_events rest = true := by
  simp [plain_events, and_assoc]

theorem plain_events_append : ∀ (a b : List SDL_Event),
    plain_events (a ++ b) = true ↔ plain_events a = true ∧ plain_events b = true := by
  intro a
  induction a with
  | nil => intro b; simp [plain_events]
  | cons e rest ih =>
    intro b
    rw [List.cons_append, plain_events_cons, plain_events_cons, ih b]
    tauto

/-- Draining events that are neither quit requests nor pause toggles: the queue
is emptied, the controller state is kept, and draining them first and a tail
next is draining the whole queue. -/
theorem handle_input_plain : ∀ (evs : List SDL_Event) (c : chip8_t),
    plain_events evs = true →
    (handle_input c evs).1.state = c.state ∧ (handle_input c evs).2 = [] ∧
    ∀ tail, handle_input c (evs ++ tail) = handle_input (handle_input c evs).1 tail := by
  intro evs
  induction evs with
  | nil => intro c _; exact ⟨rfl, rfl, fun _ => rfl⟩
  | cons e rest ih =>
    intro c h
    obtain ⟨hq, ht, hrest⟩ := (plain_events_cons e rest).1 h
    cases e with
    | SDL_QUIT => simp [is_quit] at hq
    | SDL_OTHER =>
      simp only [handle_input, List.cons_append]
      exact ih c hrest
    | SDL_KEYUP sym =>
      simp only [handle_input, List.cons_append]
      obtain ⟨a1, a2, a3⟩ := ih (set_key c sym false) hrest
      exact ⟨a1.trans (set_key_machine c sym false).2, a2, a3⟩
    | SDL_KEYDOWN sym =>
      have hesc : sym ≠ .SDLK_ESCAPE := by
        intro e; subst e; simp [is_quit] at hq
      have hsp : sym ≠ .SDLK_SPACE := by
        intro e; subst e; simp [is_pause_toggle] at ht
      rw [handle_input_keydown c sym rest hesc hsp]
      obtain ⟨a1, a2, a3⟩ := ih (set_key c sym true) hrest
      refine ⟨a1.trans (set_key_machine c sym true).2, a2, ?_⟩
      intro tail
      rw [List.cons_append, handle_input_keydown c sym (rest ++ tail) hesc hsp]
      exact a3 tail

/-- A tick entered in the Paused state whose events hold no quit request and no
pause toggle: no cycle and no timer step run, and the queue is emptied. -/
theorem paused_tick (ips : Nat) (c : chip8_t) (evs : List SDL_Event) (rnd : Nat → Nat)
    (hp : c.state = .PAUSED) (hev : plain_events evs = true) :
    main_loop_body ips c evs rnd = .ok ((handle_input c evs).1, []) ∧
    (handle_input c evs).1.state = .PAUSED ∧ same_machine c (handle_input c evs).1 := by
  obtain ⟨h1, h2, -⟩ := handle_input_plain evs c hev
  have hst : (handle_input c evs).1.state = .PAUSED := by rw [h1, hp]
  refine ⟨?_, hst, handle_input_machine evs c⟩
  simp only [main_loop_body, hst, if_true, h2]

/-- Any number of ticks entered in the Paused state whose events hold no quit
request and no pause toggle are skipped by the loop but for the keypad. -/
theorem paused_ticks : ∀ (ticks : List (List SDL_Event × (Nat → Nat))) (ips : Nat)
    (c : chip8_t) (pending : List SDL_Event), c.state = .PAUSED →
    plain_events pending = true → (∀ t, t ∈ ticks → plain_events t.1 = true) →
    ∃ c' pending', c'.state = .PAUSED ∧ same_machine c c' ∧ plain_events pending' = true ∧
      ∀ later, main_loop ips (ticks ++ later) c pending = main_loop ips later c' pending' := by
  intro ticks
  induction ticks with
  | nil =>
    intro ips c pending hp hpend _
    exact ⟨c, pending, hp, same_machine_refl c, hpend, fun _ => rfl⟩
  | cons t ticks ih =>
    intro ips c pending hp hpend hticks
    obtain ⟨arrived, rnd⟩ := t
    have harr : plain_events arrived = true :=
      hticks (arrived, rnd) (List.mem_cons_self _ _)
    have hev : plain_events (pending ++ arrived) = true :=
      (plain_events_append pending arrived).2 ⟨hpend, harr⟩
    obtain ⟨hbody, hst, hfr⟩ := paused_tick ips c (pending ++ arrived) rnd hp hev
    obtain ⟨c', pending', hst', hfr', hpl', hloop⟩ :=
      ih ips (handle_input c (pending ++ arrived)).1 [] hst rfl
        (fun t ht => hticks t (List.mem_cons_of_mem _ ht))
    refine ⟨c', pending', hst', same_machine_trans hfr hfr', hpl', ?_⟩
    intro later
    have hnq : ¬ c.state = .QUIT := by rw [hp]; decide
    rw [List.cons_append]
    simp only [main_loop, hnq, if_false, hbody]
    exact hloop later

/-! ## C32: ticks in the Paused state -/

/-- C32: in the controller loop, for every machine state that is Paused, any
number of ticks whose events hold no pause toggle and no quit request leave
memory, V0..VF, I, PC, the call stack, the framebuffer and both timers unchanged:
each such tick ends right after input draining, and the loop goes on from a
machine that is still Paused.  When a pause toggle is then drained the state is
Running, PC and memory are the ones from before the pause, and the instruction
batch of that tick starts from this machine. -/
theorem C32_paused_ticks (ips : Nat) (c : chip8_t) (hp : c.state = .PAUSED) :
    (∀ evs rnd, plain_events evs = true →
      ∃ c', main_loop_body ips c evs rnd = .ok (c', []) ∧ c'.state = .PAUSED ∧
        same_machine c c') ∧
    (∀ ticks pending, plain_events pending = true →
      (∀ t, t ∈ ticks → plain_events t.1 = true) →
      ∃ c' pending', c'.state = .PAUSED ∧ same_machine c c' ∧
        ∀ later, main_loop ips (ticks ++ later) c pending =
          main_loop ips later c' pending') ∧
    (∀ pre rest rnd, plain_events pre = true →
      (handle_input c (pre ++ .SDL_KEYDOWN .SDLK_SPACE :: rest)).1.state = .RUNNING ∧
      (handle_input c (pre ++ .SDL_KEYDOWN .SDLK_SPACE :: rest)).2 = rest ∧
      same_machine c (handle_input c (pre ++ .SDL_KEYDOWN .SDLK_SPACE :: rest)).1 ∧
      fetch_opcode (handle_input c (pre ++ .SDL_KEYDOWN .SDLK_SPACE :: rest)).1 =
        fetch_opcode c ∧
      (∀ c2, run_cycles (ips % 4294967296 / 60)
          (handle_input c (pre ++ .SDL_KEYDOWN .SDLK_SPACE :: rest)).1 rnd = .ok c2 →
        main_loop_body ips c (pre ++ .SDL_KEYDOWN .SDLK_SPACE :: rest) rnd =
          .ok (update_timers c2, rest))) := by
  refine ⟨?_, ?_, ?_⟩
  · intro evs rnd hev
    obtain ⟨h1, h2, h3⟩ := paused_tick ips c evs rnd hp hev
    exact ⟨_, h1, h2, h3⟩
  · intro ticks pending hpend hticks
    obtain ⟨c', pending', h1, h2, -, h4⟩ := paused_ticks ticks ips c pending hp hpend hticks
    exact ⟨c', pending', h1, h2, h4⟩
  · intro pre rest rnd hpre
    obtain ⟨hst, -, happ⟩ := handle_input_plain pre c hpre
    have hst1 : (handle_input c pre).1.state = .PAUSED := by rw [hst, hp]
    have hdrain : handle_input c (pre ++ .SDL_KEYDOWN .SDLK_SPACE :: rest) =
        ({ (handle_input c pre).1 with state := .RUNNING }, rest) := by
      rw [happ]
      simp [handle_input, hst1]
    have hfr := handle_input_machine (pre ++ .SDL_KEYDOWN .SDLK_SPACE :: rest) c
    have hrun : (handle_input c (pre ++ .SDL_KEYDOWN .SDLK_SPACE :: rest)).1.state =
        .RUNNING := by rw [hdrain]
    refine ⟨hrun, by rw [hdrain], hfr, ?_, ?_⟩
    · simp only [fetch_opcode, hfr.1, hfr.2.2.2.1]
    · intro c2 hc2
      have hnp : ¬ (handle_input c (pre ++ .SDL_KEYDOWN .SDLK_SPACE :: rest)).1.state =
          .PAUSED := by rw [hrun]; decide
      have h2 : (handle_input c (pre ++ .SDL_KEYDOWN .SDLK_SPACE :: rest)).2 = rest := by
        rw [hdrain]
      simp only [main_loop_body, hnp, if_false, hc2, h2]

/-- C32, witness: the machine of ROM `6005 F015`, Paused.  A tick with a key going
down and up is skipped; two such ticks leave the loop where it was; a later
Space resumes with `6005` fetched at 0x200. -/
theorem C32_paused_ticks_witness :
    paused_state.state = .PAUSED ∧
    plain_events [.SDL_KEYDOWN .SDLK_q, .SDL_KEYUP .SDLK_q] = true ∧
    (∃ c', main_loop_body INSTRUCTS_PER_SECOND paused_state
        [.SDL_KEYDOWN .SDLK_q, .SDL_KEYUP .SDLK_q] (fun _ => 0) = .ok (c', []) ∧
      c'.state = .PAUSED ∧ same_machine paused_state c') ∧
    (∃ c' pending', c'.state = .PAUSED ∧ same_machine paused_state c' ∧
      ∀ later, main_loop INSTRUCTS_PER_SECOND
          ([([.SDL_KEYDOWN .SDLK_q], fun _ => 0), ([.SDL_KEYUP .SDLK_q], fun _ => 0)] ++ later)
          paused_state [] =
        main_loop INSTRUCTS_PER_SECOND later c' pending') ∧
    ((handle_input paused_state
        ([.SDL_KEYDOWN .SDLK_q] ++ .SDL_KEYDOWN .SDLK_SPACE :: [])).1.state = .RUNNING ∧
      (handle_input paused_state
        ([.SDL_KEYDOWN .SDLK_q] ++ .SDL_KEYDOWN .SDLK_SPACE :: [])).2 = [] ∧
      same_machine paused_state (handle_input paused_state
        ([.SDL_KEYDOWN .SDLK_q] ++ .SDL_KEYDOWN .SDLK_SPACE :: [])).1 ∧
      fetch_opcode (handle_input paused_state
        ([.SDL_KEYDOWN .SDLK_q] ++ .SDL_KEYDOWN .SDLK_SPACE :: [])).1 =
        fetch_opcode paused_state ∧
      (∀ c2, run_cycles (INSTRUCTS_PER_SECOND % 4294967296 / 60)
          (handle_input paused_state
            ([.SDL_KEYDOWN .SDLK_q] ++ .SDL_KEYDOWN .SDLK_SPACE :: [])).1 (fun _ => 0) =
            .ok c2 →
        main_loop_body INSTRUCTS_PER_SECOND paused_state
          ([.SDL_KEYDOWN .SDLK_q] ++ .SDL_KEYDOWN .SDLK_SPACE :: []) (fun _ => 0) =
          .ok (update_timers c2, []))) ∧
    fetch_opcode paused_state = 0x6005 ∧ paused_state.PC = 0x200 :=
  ⟨rfl, rfl,
    (C32_paused_ticks INSTRUCTS_PER_SECOND paused_state rfl).1
      [.SDL_KEYDOWN .SDLK_q, .SDL_KEYUP .SDLK_q] (fun _ => 0) rfl,
    (C32_paused_ticks INSTRUCTS_PER_SECOND paused_state rfl).2.1
      [([.SDL_KEYDOWN .SDLK_q], fun _ => 0), ([.SDL_KEYUP .SDLK_q], fun _ => 0)] []
      rfl (by decide),
    (C32_paused_ticks INSTRUCTS_PER_SECOND paused_state rfl).2.2
      [.SDL_KEYDOWN .SDLK_q] [] (fun _ => 0) rfl,
    by decide, by decide⟩

/-! ## C33: the controller state machine -/

/-- C33: the controller state obeys the Running / Paused / Halted (QUIT) machine.
A pause toggle maps Running to Paused and Paused to Running, so two toggles
restore the state; a quit request (window close or Escape) maps every state to
QUIT; draining events that are neither (keypad keys going down or up) keeps
the state; and QUIT is terminal: the cycles and the timer step of a tick do not
change the state, and the loop entered with QUIT ends at once, whatever events
and ticks were to follow. -/
theorem C33_controller_states (c : chip8_t) (rest : List SDL_Event) :
    (c.state = .RUNNING →
      (handle_input c (.SDL_KEYDOWN .SDLK_SPACE :: rest)).1.state = .PAUSED) ∧
    (c.state = .PAUSED →
      (handle_input c (.SDL_KEYDOWN .SDLK_SPACE :: rest)).1.state = .RUNNING) ∧
    (c.state = .RUNNING ∨ c.state = .PAUSED → ∀ rest2,
      (handle_input (handle_input c (.SDL_KEYDOWN .SDLK_SPACE :: rest)).1
        (.SDL_KEYDOWN .SDLK_SPACE :: rest2)).1.state = c.state) ∧
    (∀ e, is_quit e = true → (handle_input c (e :: rest)).1.state = .QUIT) ∧
    (∀ evs, plain_events evs = true → (handle_input c evs).1.state = c.state) ∧
    (∀ rnd s', emulate_instruction c rnd = .ok s' → s'.state = c.state) ∧
    (update_timers c).state = c.state ∧
    (c.state = .QUIT → ∀ ips ticks pending,
      main_loop ips ticks c pending = .ok (some c)) := by
  refine ⟨?_, ?_, ?_, ?_, ?_, ?_, ?_, ?_⟩
  · intro h; simp [handle_input, h]
  · intro h; simp [handle_input, h]
  · intro h rest2
    rcases h with h | h <;> simp [handle_input, h]
  · intro e he
    cases e with
    | SDL_QUIT => rfl
    | SDL_OTHER => simp [is_quit] at he
    | SDL_KEYUP sym => simp [is_quit] at he
    | SDL_KEYDOWN sym =>
      cases sym <;> first | rfl | simp [is_quit] at he
  · intro evs hev
    exact (handle_input_plain evs c hev).1
  · intro rnd s' h
    exact (emulate_instruction_controller c s' rnd h).1
  · exact (update_timers_controller c).1
  · intro h ips ticks pending
    exact main_loop_quit ips ticks c pending h

/-- C33, witness: the machine of ROM `6005 F015` (Running) and its Paused twin. -/
theorem C33_controller_states_witness :
    (machine_with_rom quit_tick_rom).state = .RUNNING ∧ paused_state.state = .PAUSED ∧
    (handle_input (machine_with_rom quit_tick_rom)
      (.SDL_KEYDOWN .SDLK_SPACE :: [])).1.state = .PAUSED ∧
    (handle_input paused_state (.SDL_KEYDOWN .SDLK_SPACE :: [])).1.state = .RUNNING ∧
    (∀ rest2, (handle_input (handle_input (machine_with_rom quit_tick_rom)
        (.SDL_KEYDOWN .SDLK_SPACE :: [])).1
        (.SDL_KEYDOWN .SDLK_SPACE :: rest2)).1.state =
      (machine_with_rom quit_tick_rom).state) ∧
    (handle_input paused_state (.SDL_KEYDOWN .SDLK_ESCAPE :: [])).1.state = .QUIT ∧
    (handle_input (machine_with_rom quit_tick_rom) (.SDL_QUIT :: [])).1.state = .QUIT ∧
    plain_events [.SDL_KEYDOWN .SDLK_q] = true ∧
    (handle_input paused_state [.SDL_KEYDOWN .SDLK_q]).1.state = paused_state.state ∧
    (after_cycle (machine_with_rom quit_tick_rom) 0).state =
      (machine_with_rom quit_tick_rom).state ∧
    (∀ ips ticks pending,
      main_loop ips ticks (handle_input paused_state (.SDL_QUIT :: [])).1 pending =
        .ok (some (handle_input paused_state (.SDL_QUIT :: [])).1)) :=
  ⟨rfl, rfl,
    (C33_controller_states (machine_with_rom quit_tick_rom) []).1 rfl,
    (C33_controller_states paused_state []).2.1 rfl,
    (C33_controller_states (machine_with_rom quit_tick_rom) []).2.2.1 (Or.inl rfl),
    (C33_controller_states paused_state []).2.2.2.1 (.SDL_KEYDOWN .SDLK_ESCAPE) rfl,
    (C33_controller_states (machine_with_rom quit_tick_rom) []).2.2.2.1 .SDL_QUIT rfl,
    rfl,
    (C33_controller_states paused_state []).2.2.2.2.1 [.SDL_KEYDOWN .SDLK_q] rfl,
    (C33_controller_states (machine_with_rom quit_tick_rom) []).2.2.2.2.2.1 0
      (after_cycle (machine_with_rom quit_tick_rom) 0) rfl,
    (C33_controller_states (handle_input paused_state (.SDL_QUIT :: [])).1 []).2.2.2.2.2.2.2
      rfl⟩

/-! ## C34: fetch and decode -/

/-- The big-endian fetch on bytes: `(hi << 8) | lo` is `256 * hi + lo`. -/
theorem fetch_bytes (hi lo : Nat) (hhi : hi < 256) (hlo : lo < 256) :
    ((hi <<< 8) ||| lo) % 65536 = 256 * hi + lo := by
  have h1 : hi <<< 8 = 2 ^ 8 * hi := by rw [Nat.shiftLeft_eq]; omega
  have h2 : 2 ^ 8 * hi + lo = 2 ^ 8 * hi ||| lo :=
    Nat.mul_add_lt_is_or (by simpa using hlo) hi
  rw [h1, ← h2]
  omega

/-- C34: for every machine state with PC + 1 < 4096 (memory cells are bytes), the
fetch forms opcode = 256 * memory[PC] + memory[PC+1], a 16-bit value; the case
function of the opcode group runs on the machine with PC advanced by 2 and the
decoded record stored; the record has NNN = opcode mod 4096, NN = opcode mod 256,
N = opcode mod 16, X = (opcode div 256) mod 16, Y = (opcode div 16) mod 16 for
every opcode value (decoding is total), and
opcode = 4096 * (opcode div 4096) + 256 * X + 16 * Y + N. -/
theorem C34_fetch_decode (s : chip8_t) (rnd : Nat) (hpc : s.PC + 1 < RAM_SIZE)
    (hhi : s.ram s.PC < 256) (hlo : s.ram (s.PC + 1) < 256) :
    fetch_opcode s = 256 * s.ram s.PC + s.ram (s.PC + 1) ∧
    fetch_opcode s < 65536 ∧
    emulate_instruction s rnd =
      (if fetch_opcode s / 4096 = 0x0 then
        exec_0 { s with PC := s.PC + 2, inst := decode (fetch_opcode s) }
      else if fetch_opcode s / 4096 = 0x2 then
        exec_2 { s with PC := s.PC + 2, inst := decode (fetch_opcode s) }
      else if fetch_opcode s / 4096 = 0x8 then
        exec_8 { s with PC := s.PC + 2, inst := decode (fetch_opcode s) }
      else if fetch_opcode s / 4096 = 0xD then
        exec_D { s with PC := s.PC + 2, inst := decode (fetch_opcode s) }
      else if fetch_opcode s / 4096 = 0xE then
        exec_E { s with PC := s.PC + 2, inst := decode (fetch_opcode s) }
      else if fetch_opcode s / 4096 = 0xF then
        exec_F { s with PC := s.PC + 2, inst := decode (fetch_opcode s) }
      else
        .ok (exec_simple (fetch_opcode s / 4096)
          { s with PC := s.PC + 2, inst := decode (fetch_opcode s) } rnd)) ∧
    (∀ op, (decode op).opcode = op ∧ (decode op).NNN = op % 4096 ∧
      (decode op).NN = op % 256 ∧ (decode op).N = op % 16 ∧
      (decode op).X = op / 256 % 16 ∧ (decode op).Y = op / 16 % 16) ∧
    (∀ op, op < 65536 →
      op = 4096 * (op / 4096) + 256 * (decode op).X + 16 * (decode op).Y + (decode op).N) := by
  have hR : RAM_SIZE = 4096 := rfl
  have hp : (s.PC + 2) % 65536 = s.PC + 2 := by omega
  have hf : fetch_opcode s = 256 * s.ram s.PC + s.ram (s.PC + 1) :=
    fetch_bytes _ _ hhi hlo
  have hlt : fetch_opcode s < 65536 := by omega
  have hnib : fetch_opcode s / 4096 % 16 = fetch_opcode s / 4096 := by omega
  refine ⟨hf, hlt, ?_, ?_, ?_⟩
  · simp only [emulate_instruction, hpc, not_true_eq_false, if_false, dispatch_nibble,
      decode_opcode, hp, hnib]
  · intro op
    exact ⟨rfl, decode_NNN op, decode_NN op, decode_N op, decode_X op, decode_Y op⟩
  · intro op hop
    rw [decode_X, decode_Y, decode_N]
    omega

/-- C34, witness: the machine of ROM `6005 7003 00EE`: the opcode is 0x6005. -/
theorem C34_fetch_decode_witness :
    (machine_with_rom underflow_rom).PC + 1 < RAM_SIZE ∧
    (machine_with_rom underflow_rom).ram (machine_with_rom underflow_rom).PC = 0x60 ∧
    (machine_with_rom underflow_rom).ram ((machine_with_rom underflow_rom).PC + 1) = 0x05 ∧
    fetch_opcode (machine_with_rom underflow_rom) = 0x6005 ∧
    (decode 0x6005).X = 0 ∧ (decode 0x6005).NN = 5 ∧
    (fetch_opcode (machine_with_rom underflow_rom) =
        256 * (machine_with_rom underflow_rom).ram (machine_with_rom underflow_rom).PC +
          (machine_with_rom underflow_rom).ram ((machine_with_rom underflow_rom).PC + 1) ∧
      fetch_opcode (machine_with_rom underflow_rom) < 65536) :=
  ⟨by decide, by decide, by decide, by decide, by decide, by decide,
    (C34_fetch_decode (machine_with_rom underflow_rom) 0 (by decide) (by decide)
      (by decide)).1,
    (C34_fetch_decode (machine_with_rom underflow_rom) 0 (by decide) (by decide)
      (by decide)).2.1⟩

/-! ## C35: 8XY5, 8XY6, 8XY7 and 8XYE with X = 0xF -/

/-- C35: when X = 0xF, the flag written by 8XY5, 8XY6, 8XY7 and 8XYE is overwritten
by the arithmetic result, which is computed from the flag just written: for
every state 8FY6 ends with VF = 0, 8FYE ends with VF = 2 * (bit 7 of old VF), and
for Y other than 0xF 8FY5 ends with VF = (f - VY) mod 256 with f = 1 if
VY <= old VF else 0, and 8FY7 ends with VF = (VY - g) mod 256 with g = 1 if
old VF <= VY else 0. -/
theorem C35_flag_register_result (s : chip8_t) (rnd Y : Nat) (hpc : s.PC + 1 < RAM_SIZE)
    (hY : Y < 16) :
    (fetch_opcode s = 0x8F06 + Y * 16 →
      ∃ s', emulate_instruction s rnd = .ok s' ∧ s'.V 0xF = 0) ∧
    (fetch_opcode s = 0x8F0E + Y * 16 →
      ∃ s', emulate_instruction s rnd = .ok s' ∧ s'.V 0xF = 2 * (s.V 0xF / 128 % 2)) ∧
    (fetch_opcode s = 0x8F05 + Y * 16 → Y ≠ 0xF →
      ∃ s', emulate_instruction s rnd = .ok s' ∧
        (s'.V 0xF : Int) =
          (((if s.V Y ≤ s.V 0xF then 1 else 0 : Nat) : Int) - (s.V Y : Int)) % 256) ∧
    (fetch_opcode s = 0x8F07 + Y * 16 → Y ≠ 0xF →
      ∃ s', emulate_instruction s rnd = .ok s' ∧
        (s'.V 0xF : Int) =
          ((s.V Y : Int) - ((if s.V 0xF ≤ s.V Y then 1 else 0 : Nat) : Int)) % 256) := by
  have land1 : ∀ v : Nat, v &&& 1 = v % 2 := fun v => Nat.and_pow_two_sub_one_eq_mod v 1
  have shr1 : ∀ v : Nat, v >>> 1 = v / 2 := fun v => Nat.shiftRight_eq_div_pow v 1
  have hi : ∀ v : Nat, (v &&& 0x80) >>> 7 = v / 128 % 2 := by
    intro v
    have h1 : v &&& 0x80 = (v.testBit 7).toNat * 2 ^ 7 := Nat.and_two_pow v 7
    rw [h1, Nat.shiftRight_eq_div_pow, Nat.testBit_to_div_mod]
    by_cases hb : v / 2 ^ 7 % 2 = 1
    · have : v / 128 % 2 = 1 := hb
      simp [hb, this]
    · have h0 : v / 2 ^ 7 % 2 = 0 := by omega
      have : v / 128 % 2 = 0 := h0
      simp [h0, this]
  have shl1 : ∀ v : Nat, v <<< 1 = 2 * v := by
    intro v; rw [Nat.shiftLeft_eq]; omega
  refine ⟨?_, ?_, ?_, ?_⟩
  · intro hop
    have hN : fetch_opcode s % 16 = 6 := by omega
    have hXd : fetch_opcode s / 256 % 16 = 0xF := by omega
    have heq : emulate_instruction s rnd = .ok
        { s with PC := (s.PC + 2) % 65536, inst := decode (fetch_opcode s),
                 V := set_at (set_at s.V 0xF (s.V 0xF &&& 1)) 0xF
                        ((set_at s.V 0xF (s.V 0xF &&& 1)) 0xF >>> 1) } := by
      rw [emulate_group_8 s rnd hpc (by omega)]
      simp only [exec_8, decode_N, decode_X, decode_Y, hN, hXd]
      simp
    refine ⟨_, heq, ?_⟩
    show set_at (set_at s.V 0xF (s.V 0xF &&& 1)) 0xF
      ((set_at s.V 0xF (s.V 0xF &&& 1)) 0xF >>> 1) 0xF = 0
    rw [set_at_same, set_at_same, land1, shr1]
    omega
  · intro hop
    have hN : fetch_opcode s % 16 = 0xE := by omega
    have hXd : fetch_opcode s / 256 % 16 = 0xF := by omega
    have heq : emulate_instruction s rnd = .ok
        { s with PC := (s.PC + 2) % 65536, inst := decode (fetch_opcode s),
                 V := set_at (set_at s.V 0xF ((s.V 0xF &&& 0x80) >>> 7)) 0xF
                        (((set_at s.V 0xF ((s.V 0xF &&& 0x80) >>> 7)) 0xF <<< 1) % 256) } := by
      rw [emulate_group_8 s rnd hpc (by omega)]
      simp only [exec_8, decode_N, decode_X, decode_Y, hN, hXd]
      simp
    refine ⟨_, heq, ?_⟩
    show set_at (set_at s.V 0xF ((s.V 0xF &&& 0x80) >>> 7)) 0xF
      (((set_at s.V 0xF ((s.V 0xF &&& 0x80) >>> 7)) 0xF <<< 1) % 256) 0xF = _
    rw [set_at_same, set_at_same, hi, shl1]
    omega
  · intro hop hYF
    have hN : fetch_opcode s % 16 = 5 := by omega
    have hXd : fetch_opcode s / 256 % 16 = 0xF := by omega
    have hYd : fetch_opcode s / 16 % 16 = Y := by omega
    have heq : emulate_instruction s rnd = .ok
        { s with PC := (s.PC + 2) % 65536, inst := decode (fetch_opcode s),
                 V := set_at (set_at s.V 0xF (if s.V Y ≤ s.V 0xF then 1 else 0)) 0xF
                        (to_u8 (((set_at s.V 0xF (if s.V Y ≤ s.V 0xF then 1 else 0)) 0xF : Int)
                          - ((set_at s.V 0xF (if s.V Y ≤ s.V 0xF then 1 else 0)) Y : Int))) } := by
      rw [emulate_group_8 s rnd hpc (by omega)]
      simp only [exec_8, decode_N, decode_X, decode_Y, hN, hXd, hYd]
      simp
    refine ⟨_, heq, ?_⟩
    show ((set_at (set_at s.V 0xF (if s.V Y ≤ s.V 0xF then 1 else 0)) 0xF
      (to_u8 (((set_at s.V 0xF (if s.V Y ≤ s.V 0xF then 1 else 0)) 0xF : Int)
        - ((set_at s.V 0xF (if s.V Y ≤ s.V 0xF then 1 else 0)) Y : Int))) 0xF : Nat) : Int) = _
    rw [set_at_same, set_at_same, set_at_other _ _ _ _ hYF, to_u8_cast]
  · intro hop hYF
    have hN : fetch_opcode s % 16 = 7 := by omega
    have hXd : fetch_opcode s / 256 % 16 = 0xF := by omega
    have hYd : fetch_opcode s / 16 % 16 = Y := by omega
    have heq : emulate_instruction s rnd = .ok
        { s with PC := (s.PC + 2) % 65536, inst := decode (fetch_opcode s),
                 V := set_at (set_at s.V 0xF (if s.V 0xF ≤ s.V Y then 1 else 0)) 0xF
                        (to_u8 (((set_at s.V 0xF (if s.V 0xF ≤ s.V Y then 1 else 0)) Y : Int)
                          - ((set_at s.V 0xF (if s.V 0xF ≤ s.V Y then 1 else 0)) 0xF : Int))) } := by
      rw [emulate_group_8 s rnd hpc (by omega)]
      simp only [exec_8, decode_N, decode_X, decode_Y, hN, hXd, hYd]
      simp
    refine ⟨_, heq, ?_⟩
    show ((set_at (set_at s.V 0xF (if s.V 0xF ≤ s.V Y then 1 else 0)) 0xF
      (to_u8 (((set_at s.V 0xF (if s.V 0xF ≤ s.V Y then 1 else 0)) Y : Int)
        - ((set_at s.V 0xF (if s.V 0xF ≤ s.V Y then 1 else 0)) 0xF : Int))) 0xF : Nat) : Int) = _
    rw [set_at_same, set_at_same, set_at_other _ _ _ _ hYF, to_u8_cast]

/-- C35, witness: with VF = 0x81 and V0 = 3: `8F06` ends with VF = 0, `8F0E` with
VF = 2, `8F05` with VF = (1 - 3) mod 256 = 254, `8F07` with VF = (3 - 0) mod 256 = 3. -/
theorem C35_flag_register_result_witness :
    ((flag_operand_state [0x8F, 0x06]).PC + 1 < RAM_SIZE ∧
      fetch_opcode (flag_operand_state [0x8F, 0x06]) = 0x8F06 + 0 * 16 ∧
      ∃ s', emulate_instruction (flag_operand_state [0x8F, 0x06]) 0 = .ok s' ∧
        s'.V 0xF = 0) ∧
    (fetch_opcode (flag_operand_state [0x8F, 0x0E]) = 0x8F0E + 0 * 16 ∧
      2 * ((flag_operand_state [0x8F, 0x0E]).V 0xF / 128 % 2) = 2 ∧
      ∃ s', emulate_instruction (flag_operand_state [0x8F, 0x0E]) 0 = .ok s' ∧
        s'.V 0xF = 2 * ((flag_operand_state [0x8F, 0x0E]).V 0xF / 128 % 2)) ∧
    (fetch_opcode (flag_operand_state [0x8F, 0x05]) = 0x8F05 + 0 * 16 ∧
      ((((if (flag_operand_state [0x8F, 0x05]).V 0 ≤ (flag_operand_state [0x8F, 0x05]).V 0xF
          then 1 else 0 : Nat) : Int) -
        ((flag_operand_state [0x8F, 0x05]).V 0 : Int)) % 256 = 254) ∧
      ∃ s', emulate_instruction (flag_operand_state [0x8F, 0x05]) 0 = .ok s' ∧
        (s'.V 0xF : Int) =
          (((if (flag_operand_state [0x8F, 0x05]).V 0 ≤
                (flag_operand_state [0x8F, 0x05]).V 0xF then 1 else 0 : Nat) : Int) -
            ((flag_operand_state [0x8F, 0x05]).V 0 : Int)) % 256) ∧
    (fetch_opcode (flag_operand_state [0x8F, 0x07]) = 0x8F07 + 0 * 16 ∧
      ((((flag_operand_state [0x8F, 0x07]).V 0 : Int) -
        ((if (flag_operand_state [0x8F, 0x07]).V 0xF ≤ (flag_operand_state [0x8F, 0x07]).V 0
          then 1 else 0 : Nat) : Int)) % 256 = 3) ∧
      ∃ s', emulate_instruction (flag_operand_state [0x8F, 0x07]) 0 = .ok s' ∧
        (s'.V 0xF : Int) =
          (((flag_operand_state [0x8F, 0x07]).V 0 : Int) -
            ((if (flag_operand_state [0x8F, 0x07]).V 0xF ≤
                (flag_operand_state [0x8F, 0x07]).V 0 then 1 else 0 : Nat) : Int)) % 256) :=
  ⟨⟨by decide, by decide,
      (C35_flag_register_result (flag_operand_state [0x8F, 0x06]) 0 0
        (by decide) (by decide)).1 (by decide)⟩,
    ⟨by decide, by decide,
      (C35_flag_register_result (flag_operand_state [0x8F, 0x0E]) 0 0
        (by decide) (by decide)).2.1 (by decide)⟩,
    ⟨by decide, by decide,
      (C35_flag_register_result (flag_operand_state [0x8F, 0x05]) 0 0
        (by decide) (by decide)).2.2.1 (by decide) (by decide)⟩,
    ⟨by decide, by decide,
      (C35_flag_register_result (flag_operand_state [0x8F, 0x07]) 0 0
        (by decide) (by decide)).2.2.2 (by decide) (by decide)⟩⟩

/-! ## C36: the values held by framebuffer cells -/

/-- C36, the code at a failing input: ROM `D001` on a created machine.  After one
cycle (the first row 0xF0 of glyph 0 drawn at (0, 0)) framebuffer cell 0 holds
0x80, the masked sprite bit, which is neither 0 nor 1. -/
theorem C36_cell_not_a_bit :
    (init_chip8 zero_chip8 "rom" (some [0xD0, 0x01])).1 = true ∧
    ∃ s1, run_cycles 1 (machine_with_rom [0xD0, 0x01]) (fun _ => 0) = .ok s1 ∧
      s1.display 0 = 0x80 ∧ s1.display 0 ≠ 0 ∧ s1.display 0 ≠ 1 :=
  ⟨by decide, _, rfl, by decide, by decide, by decide⟩

/-! ## C37: the fetch is not guarded -/

/-- C37, counterexample: ROM `1FFF` on a created machine.  One cycle jumps to
0xFFF; the machine reached has PC + 1 = 4096, so the next fetch reads
memory[4096], and the next cycle has no defined result. -/
theorem C37_counterexample :
    (init_chip8 zero_chip8 "rom" (some [0x1F, 0xFF])).1 = true ∧
    ∃ s1, run_cycles 1 (machine_with_rom [0x1F, 0xFF]) (fun _ => 0) = .ok s1 ∧
      s1.PC = 0xFFF ∧ ¬ s1.PC + 1 < 4096 ∧
      emulate_instruction s1 0 = .error .ram_out_of_bounds :=
  ⟨by decide, _, rfl, by decide, by decide, rfl⟩

/-- C37, amended: the fetch is not bounds-checked.  For every machine state
entered with PC + 1 >= 4096 the fetch of `emulate_instruction` reads memory outside
0..4095 and the cycle has no defined result (the fault `ram_out_of_bounds`). -/
theorem C37_fetch_unguarded (s : chip8_t) (rnd : Nat) (h : 4096 ≤ s.PC + 1) :
    emulate_instruction s rnd = .error .ram_out_of_bounds := by
  have hR : RAM_SIZE = 4096 := rfl
  have hn : ¬ s.PC + 1 < RAM_SIZE := by omega
  simp [emulate_instruction, hn]

/-- C37, witness: the machine reached by ROM `1FFF` in one cycle. -/
theorem C37_fetch_unguarded_witness :
    4096 ≤ (after_cycle (machine_with_rom [0x1F, 0xFF]) 0).PC + 1 ∧
    emulate_instruction (after_cycle (machine_with_rom [0x1F, 0xFF]) 0) 0 =
      .error .ram_out_of_bounds :=
  ⟨by decide, C37_fetch_unguarded (after_cycle (machine_with_rom [0x1F, 0xFF]) 0) 0
    (by decide)⟩

/-! ## C38: accesses through the index register are not guarded -/

/-- The register dump loop faults when one of the cells it is to write lies
outside memory. -/
theorem reg_dump_fault : ∀ (n i : Nat) (c : chip8_t),
    (∃ t, t < n ∧ ¬ c.I + i + t < RAM_SIZE) → reg_dump n i c = .error .ram_out_of_bounds := by
  intro n
  induction n with
  | zero => rintro i c ⟨t, ht, -⟩; omega
  | succ n ih =>
    rintro i c ⟨t, ht, hbad⟩
    by_cases h0 : c.I + i < RAM_SIZE
    · have hstep : reg_dump (n + 1) i c =
          reg_dump n (i + 1) { c with ram := set_at c.ram (c.I + i) (c.V i) } := by
        simp [reg_dump, h0]
      rw [hstep]
      apply ih
      refine ⟨t - 1, by omega, ?_⟩
      show ¬ c.I + (i + 1) + (t - 1) < RAM_SIZE
      have : t ≠ 0 := by intro e; subst e; exact hbad (by simpa using h0)
      omega
    · simp [reg_dump, h0]

/-- The register load loop faults when one of the cells it is to read lies
outside memory. -/
theorem reg_load_fault : ∀ (n i : Nat) (c : chip8_t),
    (∃ t, t < n ∧ ¬ c.I + i + t < RAM_SIZE) → reg_load n i c = .error .ram_out_of_bounds := by
  intro n
  induction n with
  | zero => rintro i c ⟨t, ht, -⟩; omega
  | succ n ih =>
    rintro i c ⟨t, ht, hbad⟩
    by_cases h0 : c.I + i < RAM_SIZE
    · have hstep : reg_load (n + 1) i c =
          reg_load n (i + 1) { c with V := set_at c.V i (c.ram (c.I + i)) } := by
        simp [reg_load, h0]
      rw [hstep]
      apply ih
      refine ⟨t - 1, by omega, ?_⟩
      show ¬ c.I + (i + 1) + (t - 1) < RAM_SIZE
      have : t ≠ 0 := by intro e; subst e; exact hbad (by simpa using h0)
      omega
    · simp [reg_load, h0]

/-- C38, counterexample: ROM `AFFF F033` on a created machine.  One cycle sets
I = 0xFFF; the machine reached has `F033` next, which stores to memory[I + 2] =
memory[0x1001], outside 0..4095: the cycle has no defined result. -/
theorem C38_counterexample :
    (init_chip8 zero_chip8 "rom" (some [0xAF, 0xFF, 0xF0, 0x33])).1 = true ∧
    ∃ s1, run_cycles 1 (machine_with_rom [0xAF, 0xFF, 0xF0, 0x33]) (fun _ => 0) = .ok s1 ∧
      fetch_opcode s1 = 0xF033 ∧ s1.I = 0xFFF ∧ ¬ s1.I + 2 < 4096 ∧
      emulate_instruction s1 0 = .error .ram_out_of_bounds :=
  ⟨by decide, _, rfl, by decide, by decide, by decide, rfl⟩

/-- C38, amended: the accesses through the index register are not bounds-checked.
For every machine state: FX33 with I + 2 >= 4096, FX55 and FX65 with
I + X >= 4096, and DXYN with a sprite row i < N on the screen (VY mod 32 + i < 32)
whose byte lies at I + i >= 4096, access memory outside 0..4095 and have no
defined result (the fault `ram_out_of_bounds`). -/
theorem C38_index_unguarded (s : chip8_t) (rnd X Y N : Nat) (hpc : s.PC + 1 < RAM_SIZE)
    (hX : X < 16) (hY : Y < 16) (hN : N < 16) :
    (fetch_opcode s = 0xF033 + X * 256 → 4096 ≤ s.I + 2 →
      emulate_instruction s rnd = .error .ram_out_of_bounds) ∧
    (fetch_opcode s = 0xF055 + X * 256 → 4096 ≤ s.I + X →
      emulate_instruction s rnd = .error .ram_out_of_bounds) ∧
    (fetch_opcode s = 0xF065 + X * 256 → 4096 ≤ s.I + X →
      emulate_instruction s rnd = .error .ram_out_of_bounds) ∧
    (fetch_opcode s = 0xD000 + X * 256 + Y * 16 + N →
      (∃ i, i < N ∧ s.V Y % 32 + i < 32 ∧ 4096 ≤ s.I + i) →
      emulate_instruction s rnd = .error .ram_out_of_bounds) := by
  have hR : RAM_SIZE = 4096 := rfl
  refine ⟨?_, ?_, ?_, ?_⟩
  · intro hop hI
    have hg : fetch_opcode s / 4096 % 16 = 0xF := by omega
    have hNd : fetch_opcode s % 256 = 0x33 := by omega
    have hbad : ¬ s.I + 2 < RAM_SIZE := by omega
    rw [emulate_group_F s rnd hpc hg]
    simp only [exec_F, decode_X, decode_NN, hNd]
    simp [hbad]
  · intro hop hI
    have hg : fetch_opcode s / 4096 % 16 = 0xF := by omega
    have hXd : fetch_opcode s / 256 % 16 = X := by omega
    have hNd : fetch_opcode s % 256 = 0x55 := by omega
    have hf := reg_dump_fault (X + 1) 0
      { s with PC := (s.PC + 2) % 65536, inst := decode (fetch_opcode s) }
      ⟨X, by omega, by show ¬ s.I + 0 + X < RAM_SIZE; omega⟩
    rw [emulate_group_F s rnd hpc hg]
    simp only [exec_F, decode_X, decode_NN, hXd, hNd]
    simpa using hf
  · intro hop hI
    have hg : fetch_opcode s / 4096 % 16 = 0xF := by omega
    have hXd : fetch_opcode s / 256 % 16 = X := by omega
    have hNd : fetch_opcode s % 256 = 0x65 := by omega
    have hf := reg_load_fault (X + 1) 0
      { s with PC := (s.PC + 2) % 65536, inst := decode (fetch_opcode s) }
      ⟨X, by omega, by show ¬ s.I + 0 + X < RAM_SIZE; omega⟩
    rw [emulate_group_F s rnd hpc hg]
    simp only [exec_F, decode_X, decode_NN, hXd, hNd]
    simpa using hf
  · rintro hop ⟨i, hi, hrow, hbad⟩
    exact DXYN_fault s rnd X Y N (s.V Y % 32) hpc hX hY hN hop rfl
      (fun hall => absurd (hall i hi hrow) (by omega))

/-- C38, witness: the machine reached by ROM `AFFF F033` in one cycle (I = 0xFFF,
`F033` next), and the machines reached by `AFFF F055`, `AFFF F065`, `AFFF D002`. -/
theorem C38_index_unguarded_witness :
    ((after_cycle (machine_with_rom [0xAF, 0xFF, 0xF0, 0x33]) 0).PC + 1 < RAM_SIZE ∧
      fetch_opcode (after_cycle (machine_with_rom [0xAF, 0xFF, 0xF0, 0x33]) 0) =
        0xF033 + 0 * 256 ∧
      4096 ≤ (after_cycle (machine_with_rom [0xAF, 0xFF, 0xF0, 0x33]) 0).I + 2 ∧
      emulate_instruction (after_cycle (machine_with_rom [0xAF, 0xFF, 0xF0, 0x33]) 0) 0 =
        .error .ram_out_of_bounds) ∧
    ((after_cycle (machine_with_rom [0xAF, 0xFF, 0xF1, 0x55]) 0).PC + 1 < RAM_SIZE ∧
      fetch_opcode (after_cycle (machine_with_rom [0xAF, 0xFF, 0xF1, 0x55]) 0) =
        0xF055 + 1 * 256 ∧
      4096 ≤ (after_cycle (machine_with_rom [0xAF, 0xFF, 0xF1, 0x55]) 0).I + 1 ∧
      emulate_instruction (after_cycle (machine_with_rom [0xAF, 0xFF, 0xF1, 0x55]) 0) 0 =
        .error .ram_out_of_bounds) ∧
    ((after_cycle (machine_with_rom [0xAF, 0xFF, 0xF1, 0x65]) 0).PC + 1 < RAM_SIZE ∧
      fetch_opcode (after_cycle (machine_with_rom [0xAF, 0xFF, 0xF1, 0x65]) 0) =
        0xF065 + 1 * 256 ∧
      4096 ≤ (after_cycle (machine_with_rom [0xAF, 0xFF, 0xF1, 0x65]) 0).I + 1 ∧
      emulate_instruction (after_cycle (machine_with_rom [0xAF, 0xFF, 0xF1, 0x65]) 0) 0 =
        .error .ram_out_of_bounds) ∧
    ((after_cycle (machine_with_rom [0xAF, 0xFF, 0xD0, 0x02]) 0).PC + 1 < RAM_SIZE ∧
      fetch_opcode (after_cycle (machine_with_rom [0xAF, 0xFF, 0xD0, 0x02]) 0) =
        0xD000 + 0 * 256 + 0 * 16 + 2 ∧
      (∃ i, i < 2 ∧ (after_cycle (machine_with_rom [0xAF, 0xFF, 0xD0, 0x02]) 0).V 0 % 32 + i
          < 32 ∧
        4096 ≤ (after_cycle (machine_with_rom [0xAF, 0xFF, 0xD0, 0x02]) 0).I + i) ∧
      emulate_instruction (after_cycle (machine_with_rom [0xAF, 0xFF, 0xD0, 0x02]) 0) 0 =
        .error .ram_out_of_bounds) :=
  ⟨⟨by decide, by decide, by decide,
      (C38_index_unguarded (after_cycle (machine_with_rom [0xAF, 0xFF, 0xF0, 0x33]) 0) 0 0 0 0
        (by decide) (by decide) (by decide) (by decide)).1 (by decide) (by decide)⟩,
    ⟨by decide, by decide, by decide,
      (C38_index_unguarded (after_cycle (machine_with_rom [0xAF, 0xFF, 0xF1, 0x55]) 0) 0 1 0 0
        (by decide) (by decide) (by decide) (by decide)).2.1 (by decide) (by decide)⟩,
    ⟨by decide, by decide, by decide,
      (C38_index_unguarded (after_cycle (machine_with_rom [0xAF, 0xFF, 0xF1, 0x65]) 0) 0 1 0 0
        (by decide) (by decide) (by decide) (by decide)).2.2.1 (by decide) (by decide)⟩,
    ⟨by decide, by decide, ⟨1, by decide, by decide, by decide⟩,
      (C38_index_unguarded (after_cycle (machine_with_rom [0xAF, 0xFF, 0xD0, 0x02]) 0) 0 0 0 2
        (by decide) (by decide) (by decide) (by decide)).2.2.2 (by decide)
        ⟨1, by decide, by decide, by decide⟩⟩⟩

/-! ## C39: the key lookup is not guarded -/

/-- C39, counterexample: ROM `6010 E09E` on a created machine.  One cycle sets
V0 = 0x10; the machine reached has `E09E` next, whose lookup `keypad[V0]` indexes
cell 16 of the 16-entry keypad: the cycle has no defined result. -/
theorem C39_counterexample :
    (init_chip8 zero_chip8 "rom" (some [0x60, 0x10, 0xE0, 0x9E])).1 = true ∧
    ∃ s1, run_cycles 1 (machine_with_rom [0x60, 0x10, 0xE0, 0x9E]) (fun _ => 0) = .ok s1 ∧
      fetch_opcode s1 = 0xE09E ∧ s1.V 0 = 0x10 ∧ ¬ s1.V 0 ≤ 15 ∧
      emulate_instruction s1 0 = .error .keypad_out_of_bounds :=
  ⟨by decide, _, rfl, by decide, by decide, by decide, rfl⟩

/-- C39, amended: the key lookup of EX9E and EXA1 is `keypad[VX]` with the whole
byte VX as the index.  For every machine state with VX > 0xF the lookup falls
outside the 16-entry keypad and the cycle has no defined result (the fault
`keypad_out_of_bounds`). -/
theorem C39_key_lookup_unguarded (s : chip8_t) (rnd X : Nat) (hpc : s.PC + 1 < RAM_SIZE)
    (hX : X < 16) (hVX : 0xF < s.V X) :
    (fetch_opcode s = 0xE09E + X * 256 →
      emulate_instruction s rnd = .error .keypad_out_of_bounds) ∧
    (fetch_opcode s = 0xE0A1 + X * 256 →
      emulate_instruction s rnd = .error .keypad_out_of_bounds) := by
  have hbad : ¬ s.V X < 16 := by omega
  constructor
  · intro hop
    have hg : fetch_opcode s / 4096 % 16 = 0xE := by omega
    have hXd : fetch_opcode s / 256 % 16 = X := by omega
    have hNd : fetch_opcode s % 256 = 0x9E := by omega
    rw [emulate_group_E s rnd hpc hg]
    simp only [exec_E, decode_X, decode_NN, hXd, hNd]
    simp [hbad]
  · intro hop
    have hg : fetch_opcode s / 4096 % 16 = 0xE := by omega
    have hXd : fetch_opcode s / 256 % 16 = X := by omega
    have hNd : fetch_opcode s % 256 = 0xA1 := by omega
    rw [emulate_group_E s rnd hpc hg]
    simp only [exec_E, decode_X, decode_NN, hXd, hNd]
    simp [hbad]

/-- C39, witness: the machines reached by ROMs `6010 E09E` and `6010 E0A1` in one
cycle (V0 = 0x10). -/
theorem C39_key_lookup_unguarded_witness :
    ((after_cycle (machine_with_rom [0x60, 0x10, 0xE0, 0x9E]) 0).PC + 1 < RAM_SIZE ∧
      0xF < (after_cycle (machine_with_rom [0x60, 0x10, 0xE0, 0x9E]) 0).V 0 ∧
      fetch_opcode (after_cycle (machine_with_rom [0x60, 0x10, 0xE0, 0x9E]) 0) =
        0xE09E + 0 * 256 ∧
      emulate_instruction (after_cycle (machine_with_rom [0x60, 0x10, 0xE0, 0x9E]) 0) 0 =
        .error .keypad_out_of_bounds) ∧
    ((after_cycle (machine_with_rom [0x60, 0x10, 0xE0, 0xA1]) 0).PC + 1 < RAM_SIZE ∧
      0xF < (after_cycle (machine_with_rom [0x60, 0x10, 0xE0, 0xA1]) 0).V 0 ∧
      fetch_opcode (after_cycle (machine_with_rom [0x60, 0x10, 0xE0, 0xA1]) 0) =
        0xE0A1 + 0 * 256 ∧
      emulate_instruction (after_cycle (machine_with_rom [0x60, 0x10, 0xE0, 0xA1]) 0) 0 =
        .error .keypad_out_of_bounds) :=
  ⟨⟨by decide, by decide, by decide,
      (C39_key_lookup_unguarded (after_cycle (machine_with_rom [0x60, 0x10, 0xE0, 0x9E]) 0) 0 0
        (by decide) (by decide) (by decide)).1 (by decide)⟩,
    ⟨by decide, by decide, by decide,
      (C39_key_lookup_unguarded (after_cycle (machine_with_rom [0x60, 0x10, 0xE0, 0xA1]) 0) 0 0
        (by decide) (by decide) (by decide)).2 (by decide)⟩⟩

/-! ## C40: cycles per tick -/

/-- A chain of `k` cycles that all return is what `run_cycles k` computes. -/
theorem run_cycles_of_chain : ∀ (k : Nat) (st : Nat → chip8_t) (rnd : Nat → Nat),
    (∀ i, i < k → emulate_instruction (st i) (rnd i) = .ok (st (i + 1))) →
    run_cycles k (st 0) rnd = .ok (st k) := by
  intro k
  induction k with
  | zero => intro st rnd _; rfl
  | succ k ih =>
    intro st rnd h
    have h0 := h 0 (Nat.succ_pos k)
    have hrest := ih (fun i => st (i + 1)) (fun j => rnd (j + 1))
      (fun i hi => h (i + 1) (Nat.succ_lt_succ hi))
    simp only [run_cycles, h0]
    exact hrest

/-- When `run_cycles k` returns, it ran a chain of exactly `k` cycles that all
returned. -/
theorem chain_of_run_cycles : ∀ (k : Nat) (c0 ck : chip8_t) (rnd : Nat → Nat),
    run_cycles k c0 rnd = .ok ck →
    ∃ st : Nat → chip8_t, st 0 = c0 ∧ st k = ck ∧
      ∀ i, i < k → emulate_instruction (st i) (rnd i) = .ok (st (i + 1)) := by
  intro k
  induction k with
  | zero =>
    intro c0 ck rnd h
    simp only [run_cycles] at h
    injection h with h
    exact ⟨fun _ => c0, rfl, h, fun i hi => absurd hi (Nat.not_lt_zero i)⟩
  | succ k ih =>
    intro c0 ck rnd h
    simp only [run_cycles] at h
    cases h0 : emulate_instruction c0 (rnd 0) with
    | error e => rw [h0] at h; cases h
    | ok c1 =>
      rw [h0] at h
      obtain ⟨st, hs0, hsk, hch⟩ := ih c1 ck (fun j => rnd (j + 1)) h
      refine ⟨fun i => if i = 0 then c0 else st (i - 1), rfl, ?_, ?_⟩
      · show (if k + 1 = 0 then c0 else st (k + 1 - 1)) = ck
        rw [if_neg (Nat.succ_ne_zero k)]
        exact hsk
      · intro i hi
        show emulate_instruction (if i = 0 then c0 else st (i - 1)) (rnd i) =
          .ok (if i + 1 = 0 then c0 else st (i + 1 - 1))
        rw [if_neg (Nat.succ_ne_zero i)]
        by_cases hi0 : i = 0
        · subst hi0
          rw [if_pos rfl, h0]
          show Except.ok c1 = Except.ok (st 0)
          rw [hs0]
        · rw [if_neg hi0]
          have := hch (i - 1) (by omega)
          have e1 : i - 1 + 1 = i := by omega
          rw [e1] at this
          have e2 : i + 1 - 1 = i := by omega
          rw [e2]
          exact this

/-- A chain of `j < k` cycles that return followed by a cycle that faults makes
`run_cycles k` fault with that fault. -/
theorem run_cycles_fault : ∀ (k : Nat) (st : Nat → chip8_t) (rnd : Nat → Nat) (j : Nat)
    (e : fault_t), j < k →
    (∀ i, i < j → emulate_instruction (st i) (rnd i) = .ok (st (i + 1))) →
    emulate_instruction (st j) (rnd j) = .error e →
    run_cycles k (st 0) rnd = .error e := by
  intro k
  induction k with
  | zero => intro st rnd j e hj; omega
  | succ k ih =>
    intro st rnd j e hj hch hbad
    by_cases hj0 : j = 0
    · subst hj0
      simp only [run_cycles, hbad]
    · have h0 := hch 0 (by omega)
      simp only [run_cycles, h0]
      have := ih (fun i => st (i + 1)) (fun t => rnd (t + 1)) (j - 1) e (by omega)
        (fun i hi => hch (i + 1) (by omega))
        (by
          show emulate_instruction (st (j - 1 + 1)) (rnd (j - 1 + 1)) = .error e
          have e1 : j - 1 + 1 = j := by omega
          rw [e1]; exact hbad)
      exact this

/-- C40: for every configured instructions-per-second value n (a `uint32_t`), a
tick of the controller loop whose state after input draining is Running
executes exactly floor(n / 60) `emulate_instruction` cycles, one after the other
from the drained machine (cycle i with the i-th value of `rand()`), and then
exactly one `update_timers` step.  Whenever that chain of floor(n / 60) cycles
returns, the tick ends with `update_timers` of its last state; whenever the tick
returns, such a chain exists and the result is `update_timers` of its last
state; a fault of one of the cycles is the fault of the tick.  When
floor(n / 60) = 0 the tick is the timer step alone; with the default n = 700 the
batch is 11 cycles, 660 per 60 ticks. -/
theorem C40_cycles_per_tick (n : Nat) (c : chip8_t) (evs : List SDL_Event)
    (rnd : Nat → Nat) (hn : n < 4294967296)
    (hrun : (handle_input c evs).1.state = .RUNNING) :
    (∀ st : Nat → chip8_t, st 0 = (handle_input c evs).1 →
      (∀ i, i < n / 60 → emulate_instruction (st i) (rnd i) = .ok (st (i + 1))) →
      main_loop_body n c evs rnd =
        .ok (update_timers (st (n / 60)), (handle_input c evs).2)) ∧
    (∀ c3 rest, main_loop_body n c evs rnd = .ok (c3, rest) →
      ∃ st : Nat → chip8_t, st 0 = (handle_input c evs).1 ∧
        (∀ i, i < n / 60 → emulate_instruction (st i) (rnd i) = .ok (st (i + 1))) ∧
        c3 = update_timers (st (n / 60)) ∧ rest = (handle_input c evs).2) ∧
    (∀ (st : Nat → chip8_t) (j : Nat) (e : fault_t), st 0 = (handle_input c evs).1 →
      j < n / 60 →
      (∀ i, i < j → emulate_instruction (st i) (rnd i) = .ok (st (i + 1))) →
      emulate_instruction (st j) (rnd j) = .error e →
      main_loop_body n c evs rnd = .error e) ∧
    (n / 60 = 0 →
      main_loop_body n c evs rnd =
        .ok (update_timers (handle_input c evs).1, (handle_input c evs).2)) ∧
    INSTRUCTS_PER_SECOND / 60 = 11 ∧ 60 * (INSTRUCTS_PER_SECOND / 60) = 660 := by
  have hmod : n % 4294967296 = n := Nat.mod_eq_of_lt hn
  have hnp : ¬ (handle_input c evs).1.state = .PAUSED := by rw [hrun]; decide
  refine ⟨?_, ?_, ?_, ?_, by decide, by decide⟩
  · intro st h0 hch
    have hrc := run_cycles_of_chain (n / 60) st rnd hch
    rw [h0] at hrc
    simp only [main_loop_body, hnp, if_false, hmod, hrc]
  · intro c3 rest hbody
    simp only [main_loop_body, hnp, if_false, hmod] at hbody
    cases hrc : run_cycles (n / 60) (handle_input c evs).1 rnd with
    | error e => rw [hrc] at hbody; cases hbody
    | ok c2 =>
      rw [hrc] at hbody
      injection hbody with hbody
      injection hbody with h1 h2
      obtain ⟨st, hs0, hsk, hch⟩ := chain_of_run_cycles _ _ _ _ hrc
      exact ⟨st, hs0, hch, by rw [hsk]; exact h1.symm, h2.symm⟩
  · intro st j e h0 hj hch hbad
    have hrc := run_cycles_fault (n / 60) st rnd j e hj hch hbad
    rw [h0] at hrc
    simp only [main_loop_body, hnp, if_false, hmod, hrc]
  · intro h0
    simp only [main_loop_body, hnp, if_false, hmod, h0, run_cycles]

/-- C40, witness: ROM `6005 F015 7101 (x9)` at the default 700 instructions per
second: the tick ends with V0 = 5, V1 = 9 and PC = 0x200 + 2 * 11 (eleven cycles)
and the delay timer at 4 (set to 5, then one timer step); at 59 instructions per
second it runs no cycle (V1 = 0, PC = 0x200). -/
theorem C40_cycles_per_tick_witness :
    INSTRUCTS_PER_SECOND < 4294967296 ∧
    (handle_input (machine_with_rom count_rom) []).1.state = .RUNNING ∧
    INSTRUCTS_PER_SECOND / 60 = 11 ∧
    (∃ c3, main_loop_body INSTRUCTS_PER_SECOND (machine_with_rom count_rom) []
        (fun _ => 0) = .ok (c3, []) ∧
      c3.V 0 = 5 ∧ c3.V 1 = 9 ∧ c3.PC = 0x200 + 2 * 11 ∧ c3.delay_timer = 4 ∧
      ∃ st : Nat → chip8_t, st 0 = (handle_input (machine_with_rom count_rom) []).1 ∧
        (∀ i, i < INSTRUCTS_PER_SECOND / 60 →
          emulate_instruction (st i) ((fun _ => 0) i) = .ok (st (i + 1))) ∧
        c3 = update_timers (st (INSTRUCTS_PER_SECOND / 60)) ∧
        [] = (handle_input (machine_with_rom count_rom) []).2) ∧
    (59 / 60 = 0 ∧
      main_loop_body 59 (machine_with_rom count_rom) [] (fun _ => 0) =
        .ok (update_timers (handle_input (machine_with_rom count_rom) []).1,
          (handle_input (machine_with_rom count_rom) []).2) ∧
      (update_timers (handle_input (machine_with_rom count_rom) []).1).V 1 = 0 ∧
      (update_timers (handle_input (machine_with_rom count_rom) []).1).PC = 0x200) :=
  ⟨by decide, rfl, by decide,
    ⟨_, rfl, by decide, by decide, by decide, by decide,
      (C40_cycles_per_tick INSTRUCTS_PER_SECOND (machine_with_rom count_rom) []
        (fun _ => 0) (by decide) rfl).2.1 _ [] rfl⟩,
    ⟨by decide,
      (C40_cycles_per_tick 59 (machine_with_rom count_rom) [] (fun _ => 0)
        (by decide) rfl).2.2.2.1 (by decide),
      by decide, by decide⟩⟩

end Chip8
